import Mathlib

/-!
# kubectl-fzf: resource store, resource watcher and cache fetcher

A shallow embedding of `pkg/resourcewatcher/k8s_store.go`,
`pkg/resourcewatcher/k8s_resource_watcher.go`, `pkg/fetcher/fetcher_cache.go`
and of the helpers of `pkg/util/util.go` they use, followed by theorems about
the store's data map, its label index and the text rendered from it, the
debounced full dump, the write of a file through a temporary file, the
fetcher's local cache, and the watcher's namespace and resource filters.

Conventions of the embedding

* A Go `map[K]V` is an association list with at most one entry per key; `set`
  and `delete` keep that shape.  A nil map and an empty map are both `[]`
  (ranging over either runs zero iterations).  Ranging over a map visits the
  entries in list order; Go leaves the order unspecified, and every theorem
  below is stated through lookups and counts, which do not depend on it.
* `time.Time` is an `Int`: nanoseconds since Go's zero time (`time.Time{}` is
  `0`).  `time.Duration` is an `Int` of nanoseconds, and `Time.Sub` saturates at
  the `int64` bounds exactly as in Go.  All clock readings lie on one time line:
  the wall clock and the monotonic clock of `time.Now()` are not told apart.
* Label counts are Go `int`s; they are `Int` here, a count never coming near
  the 64-bit bounds.
* A file path is the list of components handed to `path.Join`; the lexical
  cleaning done by `path.Join` is not modelled.
* A Go panic (a failed type assertion, an assignment into a nil map) is `none`;
  where a nil map matters it is told apart from the empty map by an `Option`.
* Calls of the store and of `checkLocalCache` that reach the file system or the
  network are recorded, in order, in the `calls` field of the result; the
  writing functions of the fetcher and of `util` transform an explicit file
  system.  Values the outside world hands back (the clock reading, the error of
  a write, the content of a file) are explicit inputs.
-/

namespace KubectlFzf

/-! ## Go maps -/

/-- Go `map[K]V` as an association list. -/
abbrev GoMap (K V : Type) := List (K × V)

namespace GoMap

variable {K V : Type} [DecidableEq K]

/-- Lookup `m[k]` with the comma-ok flag folded into the option. -/
def get? : GoMap K V → K → Option V
  | [], _ => none
  | (k1, v1) :: m, k => if k1 = k then some v1 else get? m k

/-- Assignment `m[k] = v`. -/
def set : GoMap K V → K → V → GoMap K V
  | [], k, v => [(k, v)]
  | (k1, v1) :: m, k, v => if k1 = k then (k, v) :: m else (k1, v1) :: set m k v

/-- Builtin `delete(m, k)`. -/
def delete (m : GoMap K V) (k : K) : GoMap K V :=
  m.filter (fun e => decide (e.1 ≠ k))

/-- The keys of the map, in entry order. -/
def keys (m : GoMap K V) : List K := m.map Prod.fst

end GoMap

/-! ## Time -/

/-- Smallest `time.Duration` (`math.MinInt64`). -/
def minDuration : Int := -(2 ^ 63)

/-- Largest `time.Duration` (`math.MaxInt64`). -/
def maxDuration : Int := 2 ^ 63 - 1

/-- Go `t.Sub(u)`: the difference in nanoseconds, saturated to the range of
`time.Duration`. -/
def timeSub (t u : Int) : Int :=
  if t - u < minDuration then minDuration
  else if maxDuration < t - u then maxDuration
  else t - u

/-- The Unix epoch (1970-01-01T00:00:00Z) in nanoseconds since Go's zero time. -/
def unixEpoch : Int := 62135596800 * 1000000000

/-! ## Objects delivered by the cluster -/

/-- Go `map[string]string` of labels. -/
abbrev Labels := GoMap String String

/-- What `GetObjectMeta()` exposes: namespace, name and labels. -/
structure ObjectMeta where
  Namespace : String
  Name : String
  Labels : Labels
  deriving DecidableEq, Repr

/-- The `metadata` entry of an `unstructured.Unstructured` as the type
assertions of `resourceKey` see it: a field is `none` when it is missing or does
not have the asserted dynamic type. -/
structure UnstructuredMeta where
  name : Option String
  ns : Option String
  labels : Option Labels
  deriving DecidableEq, Repr

/-- A value of type `interface{}` handed to the store, by dynamic type. -/
inductive Obj where
  /-- any value implementing `metav1.ObjectMetaAccessor`; `body` stands for the
  rest of the object (spec, status), read only by the converter -/
  | accessor (meta : ObjectMeta) (body : String)
  /-- a `*unstructured.Unstructured`; `metadata` is `none` when
  `Object["metadata"]` is not a `map[string]interface{}` -/
  | unstructuredPtr (metadata : Option UnstructuredMeta)
  /-- an `unstructured.Unstructured` passed by value -/
  | unstructuredVal (metadata : Option UnstructuredMeta)
  /-- a `cache.DeletedFinalStateUnknown{Key, Obj}` tombstone -/
  | deletedFinalStateUnknown (key : String) (obj : Obj)
  /-- a value of any other dynamic type -/
  | other (desc : String)
  deriving DecidableEq, Repr

/-- Go `fmt.Sprintf("%s=%s", labelKey, labelValue)`. -/
def renderLabel (e : String × String) : String := e.1 ++ "=" ++ e.2

/-- Function `resourceKey`: the store key `namespace_name`, the namespace and the
labels of an object; `none` is a panic in a type assertion. -/
def resourceKey : Obj → Option (String × String × Labels)
  | .accessor o _ => some (o.Namespace ++ "_" ++ o.Name, o.Namespace, o.Labels)
  | .unstructuredPtr none => none
  | .unstructuredPtr (some md) =>
    match md.name, md.ns, md.labels with
    | some name, some ns, some labels => some (ns ++ "_" ++ name, ns, labels)
    | _, _, _ => none
  | _ => some ("None" ++ "_" ++ "None", "None", [])

/-! ## The store -/

/-- Key of the label index. -/
structure LabelKey where
  Namespace : String
  Label : String
  deriving DecidableEq, Repr

/-- Struct `StoreConfig`. -/
structure StoreConfig where
  ClusterDir : String
  CacheDir : String
  TimeBetweenFullDump : Int
  deriving DecidableEq, Repr

/-- Struct `k8sresources.CtorConfig`, of which the store reads `Cluster`. -/
structure CtorConfig where
  Cluster : String
  deriving DecidableEq, Repr

/-- Interface `k8sresources.K8sResource` as far as the store uses it, together
with the two fields of the embedded `ResourceMeta` that the label index is
about. The argument of `HasChanged` is an interface value, `none` being nil; the
result is `none` when the method panics. -/
class K8sResource (R : Type) where
  /-- method `HasChanged` -/
  HasChanged : R → Option R → Option Bool
  /-- field `Namespace` of the `ResourceMeta` every record type embeds -/
  Namespace : R → String
  /-- field `Labels` of the `ResourceMeta` every record type embeds -/
  Labels : R → Labels

/-- Struct `WatchConfig` (the REST getter and the runtime object are handles
and appear by name only). -/
structure WatchConfig (R : Type) where
  resourceCtor : Obj → CtorConfig → R
  header : String
  resourceName : String
  getter : String
  runtimeObject : String
  hasNamespace : Bool
  splitByNamespaces : Bool
  pollingPeriod : Int

/-- Struct `K8sStore` without its mutexes. The converter `resourceCtor` is
supplied from outside and is taken to return a record for every object. -/
structure K8sStore (R : Type) where
  data : GoMap String R
  labelMap : GoMap LabelKey Int
  resourceCtor : Obj → CtorConfig → R
  ctorConfig : CtorConfig
  resourceName : String
  currentFile : Option (List String)
  storeConfig : StoreConfig
  firstWrite : Bool
  destDir : List String
  labelToDump : Bool
  lastFullDump : Int
  lastLabelDump : Int

/-- A call of the store that reaches the file system. -/
inductive StoreCall (R : Type) where
  /-- call `util.EncodeToFile(data, destFile)` -/
  | encodeToFile (data : GoMap String R) (destFile : List String)
  /-- call `os.MkdirAll(dir, os.ModePerm)` -/
  | mkdirAll (dir : List String)

/-- The store after an operation and the file-system calls the operation made. -/
structure Outcome (R : Type) where
  store : K8sStore R
  calls : List (StoreCall R)

variable {R : Type}

/-- Function `NewK8sStore`; `mkdirErr` is what `os.MkdirAll` returns. On an error
`util.FatalIf` ends the process, so nothing is returned. -/
def NewK8sStore (cfg : WatchConfig R) (storeConfig : StoreConfig) (ctorConfig : CtorConfig)
    (mkdirErr : Option String) : Option (Outcome R) :=
  let k : K8sStore R :=
    { data := []
      labelMap := []
      resourceCtor := cfg.resourceCtor
      ctorConfig := ctorConfig
      resourceName := cfg.resourceName
      currentFile := none
      storeConfig := storeConfig
      firstWrite := true
      destDir := [storeConfig.CacheDir, storeConfig.ClusterDir]
      labelToDump := false
      lastFullDump := 0
      lastLabelDump := 0 }
  match mkdirErr with
  | some _ => none
  | none => some { store := k, calls := [StoreCall.mkdirAll k.destDir] }

/-- Method `resetLabelMap`. -/
def resetLabelMap (k : K8sStore R) : K8sStore R :=
  { k with labelMap := [] }

/-- One iteration of the loop of `updateLabelMap`: `labelMap[key] += delta`. -/
def bumpLabel (ns : String) (delta : Int) (m : GoMap LabelKey Int) (e : String × String) :
    GoMap LabelKey Int :=
  m.set ⟨ns, renderLabel e⟩ ((m.get? ⟨ns, renderLabel e⟩).getD 0 + delta)

/-- Method `updateLabelMap`. -/
def updateLabelMap (k : K8sStore R) (ns : String) (labels : Labels) (delta : Int) : K8sStore R :=
  { k with labelMap := labels.foldl (bumpLabel ns delta) k.labelMap }

/-- Method `getFilePath`; the suffix argument is not used by the source. -/
def getFilePath (k : K8sStore R) (_suffix : String) : List String :=
  k.destDir ++ [k.resourceName ++ "_" ++ "resource"]

/-- Method `DumpFullState`; `now` is the reading of `time.Now()` and `encErr` what
`util.EncodeToFile` returns if it is called. -/
def DumpFullState (k : K8sStore R) (now : Int) (encErr : Option String) :
    Outcome R × Option String :=
  let delta := timeSub now k.lastFullDump
  if delta < k.storeConfig.TimeBetweenFullDump then
    ({ store := k, calls := [] }, none)
  else
    let k1 := { k with lastFullDump := now }
    ({ store := k1, calls := [StoreCall.encodeToFile k1.data (getFilePath k1 "resource")] }, encErr)

/-- Method `AppendNewObject`: its body is commented out in the source and it
returns nil. -/
def AppendNewObject (k : K8sStore R) (_resource : R) : Outcome R × Option String :=
  ({ store := k, calls := [] }, none)

/-- The loop of `AddResourceList`. -/
def addResourceLoop (k : K8sStore R) : List Obj → Option (K8sStore R)
  | [] => some k
  | runtimeObject :: rest =>
    match resourceKey runtimeObject with
    | none => none
    | some (key, ns, labels) =>
      let resource := k.resourceCtor runtimeObject k.ctorConfig
      addResourceLoop (updateLabelMap { k with data := k.data.set key resource } ns labels 1) rest

/-- Method `AddResourceList`. -/
def AddResourceList (k : K8sStore R) (lstRuntime : List Obj) (now : Int)
    (encErr : Option String) : Option (Outcome R) :=
  match addResourceLoop (resetLabelMap { k with data := [] }) lstRuntime with
  | none => none
  | some k1 => some (DumpFullState k1 now encErr).1

/-- Method `AddResource`. -/
def AddResource (k : K8sStore R) (obj : Obj) : Option (Outcome R) :=
  match resourceKey obj with
  | none => none
  | some (key, ns, labels) =>
    let newObj := k.resourceCtor obj k.ctorConfig
    let k1 := updateLabelMap { k with data := k.data.set key newObj } ns labels 1
    some (AppendNewObject k1 newObj).1

/-- The type switch at the head of `DeleteResource`: the key, namespace and labels
to delete, `none` when the method returns early, and a panic as the outer
`none`. -/
def deleteTarget : Obj → Option (Option (String × String × Labels))
  | .deletedFinalStateUnknown _ o => (resourceKey o).map some
  | .unstructuredVal _ => some (some ("Unknown", "Unknown", []))
  | .accessor o b => (resourceKey (.accessor o b)).map some
  | _ => some none

/-- Method `DeleteResource`. -/
def DeleteResource (k : K8sStore R) (obj : Obj) (now : Int) (encErr : Option String) :
    Option (Outcome R) :=
  match deleteTarget obj with
  | none => none
  | some none => some { store := k, calls := [] }
  | some (some (key, ns, labels)) =>
    let k1 := updateLabelMap { k with data := k.data.delete key } ns labels (-1)
    some (DumpFullState k1 now encErr).1

/-- Method `UpdateResource`. -/
def UpdateResource [K8sResource R] (k : K8sStore R) (_oldObj newObj : Obj) (now : Int)
    (encErr : Option String) : Option (Outcome R) :=
  match resourceKey newObj with
  | none => none
  | some (key, _, _) =>
    let k8sObj := k.resourceCtor newObj k.ctorConfig
    match K8sResource.HasChanged k8sObj (k.data.get? key) with
    | none => none
    | some true => some (DumpFullState { k with data := k.data.set key k8sObj } now encErr).1
    | some false => some { store := k, calls := [] }

/-! ## Reading the label index -/

/-- The count the label index holds for a key, an absent entry counting as 0
(what the Go expression `labelMap[key]` evaluates to). -/
def labelCount (m : GoMap LabelKey Int) (key : LabelKey) : Int :=
  (m.get? key).getD 0

/-- How many entries of a label map are indexed under `key` when the map belongs
to an object of namespace `ns`. -/
def labelHits (ns : String) (labels : Labels) (key : LabelKey) : Nat :=
  labels.countP (fun e => decide (LabelKey.mk ns (renderLabel e) = key))

/-- Whether a record is in the namespace of `key` and carries the label of
`key`. -/
def carriesLabel [K8sResource R] (r : R) (key : LabelKey) : Bool :=
  decide (K8sResource.Namespace r = key.Namespace) &&
    decide (key.Label ∈ (K8sResource.Labels r).map renderLabel)

/-- Number of records of the data map that are in the namespace of `key` and
carry its label. -/
def recordCount [K8sResource R] (data : GoMap String R) (key : LabelKey) : Nat :=
  data.countP (fun e => carriesLabel e.2 key)

/-- Whether an object carries the label of `key` in the namespace of `key`,
judged on what `resourceKey` extracts from it. -/
def objCarries (obj : Obj) (key : LabelKey) : Bool :=
  match resourceKey obj with
  | none => false
  | some (_, ns, labels) =>
    decide (ns = key.Namespace) && decide (key.Label ∈ labels.map renderLabel)

/-- The store key `resourceKey` gives an object, `none` when it panics. -/
def keyOf (obj : Obj) : Option String :=
  (resourceKey obj).map (fun t => t.1)

/-- Whether the converter of store `k` copies the namespace and the labels of
`obj` into the record, as `FromObjectMeta` does, and no two labels of the object
render to the same `key=value` text. -/
def metaCopied [K8sResource R] (k : K8sStore R) (obj : Obj) : Bool :=
  match resourceKey obj with
  | none => false
  | some (_, ns, labels) =>
    decide (K8sResource.Namespace (k.resourceCtor obj k.ctorConfig) = ns) &&
      decide (K8sResource.Labels (k.resourceCtor obj k.ctorConfig) = labels) &&
      decide ((labels.map renderLabel).Nodup)

/-! ## Sequences of watch events -/

/-- An event handed to the store by a watch session, with the values the
outside world supplies during the call. -/
inductive Call where
  | add (obj : Obj)
  | delete (obj : Obj) (now : Int) (encErr : Option String)
  deriving DecidableEq, Repr

/-- The store after one event. -/
def applyCall (k : K8sStore R) : Call → Option (K8sStore R)
  | .add obj => (AddResource k obj).map (fun o => o.store)
  | .delete obj now encErr => (DeleteResource k obj now encErr).map (fun o => o.store)

/-- The store after a sequence of events. -/
def runCalls (k : K8sStore R) : List Call → Option (K8sStore R)
  | [] => some k
  | c :: cs =>
    match applyCall k c with
    | none => none
    | some k1 => runCalls k1 cs

/-- An add event that respects the informer contract in state `k`: the key is
not stored yet, the converter copies namespace and labels into the record, and
no two labels of the object render to the same `key=value` text. -/
def addOk [K8sResource R] (k : K8sStore R) (obj : Obj) : Bool :=
  match resourceKey obj with
  | none => false
  | some (key, _, _) =>
    (k.data.get? key).isNone && metaCopied k obj

/-- A delete event that respects the informer contract in state `k`: the key is
stored and the event carries the namespace and the labels of the stored
record. -/
def deleteOk [K8sResource R] (k : K8sStore R) (obj : Obj) : Bool :=
  match deleteTarget obj with
  | some (some (key, ns, labels)) =>
    match k.data.get? key with
    | none => false
    | some r =>
      decide (K8sResource.Namespace r = ns) && decide (K8sResource.Labels r = labels) &&
        decide ((labels.map renderLabel).Nodup)
  | _ => false

/-- Whether every event of a sequence respects the informer contract in the
state it is applied to. -/
def wellFormed [K8sResource R] (k : K8sStore R) : List Call → Bool
  | [] => true
  | .add obj :: cs =>
    addOk k obj &&
      (match applyCall k (.add obj) with
       | none => false
       | some k1 => wellFormed k1 cs)
  | .delete obj now encErr :: cs =>
    deleteOk k obj &&
      (match applyCall k (.delete obj now encErr) with
       | none => false
       | some k1 => wellFormed k1 cs)

/-- The times, in call order, of the calls of a sequence of `DumpFullState`
calls that reach `util.EncodeToFile`; a call is given by its clock reading and
the error the write would return. -/
def dumpWriteTimes (k : K8sStore R) : List (Int × Option String) → List Int
  | [] => []
  | (now, encErr) :: rest =>
    let o := (DumpFullState k now encErr).1
    (if o.calls.isEmpty then [] else [now]) ++ dumpWriteTimes o.store rest

/-- The label index of a store is exact: the keys of the data map are pairwise
distinct and every count equals the number of stored records carrying the
label. -/
def Exact [K8sResource R] (k : K8sStore R) : Prop :=
  (GoMap.keys k.data).Nodup ∧
    ∀ key : LabelKey, labelCount k.labelMap key = (recordCount k.data key : Int)

/-! ## Record types and helpers of `util` used by them -/

/-- Function `util.StringMapsEqual`. -/
def StringMapsEqual (a b : GoMap String String) : Bool :=
  if a.length ≠ b.length then false
  else a.all (fun e => (a.get? e.1).getD "" == (b.get? e.1).getD "")

/-- Function `util.StringSlicesEqual`. -/
def StringSlicesEqual (a b : List String) : Bool :=
  if a.length ≠ b.length then false
  else (List.range a.length).all (fun i => a.getD i "" == b.getD i "")

/-- Struct `ReplicaSet`; of the embedded `ResourceMeta`, which is declared
outside the files at hand, the fields read by them are kept. -/
structure ReplicaSet where
  Cluster : String
  Namespace : String
  Name : String
  Labels : Labels
  replicas : String
  readyReplicas : String
  availableReplicas : String
  selectors : List String
  deriving DecidableEq, Repr

/-- Method `(*ReplicaSet).HasChanged` applied to a non-nil old record. -/
def ReplicaSet.HasChanged (r oldRs : ReplicaSet) : Bool :=
  decide (r.replicas ≠ oldRs.replicas) ||
    decide (r.readyReplicas ≠ oldRs.readyReplicas) ||
    decide (r.availableReplicas ≠ oldRs.availableReplicas) ||
    StringSlicesEqual r.selectors oldRs.selectors ||
    StringMapsEqual r.Labels oldRs.Labels

/-- `ReplicaSet` as a `K8sResource`. The method asserts the old record to be a
`*ReplicaSet`, which panics on a nil interface value. -/
instance : K8sResource ReplicaSet where
  HasChanged r old :=
    match old with
    | some oldRs => some (ReplicaSet.HasChanged r oldRs)
    | none => none
  Namespace r := r.Namespace
  Labels r := r.Labels

/-! ## The fetcher's local cache -/

/-- Go `http.Header`. -/
abbrev Header := GoMap String (List String)

/-- Method `http.Header.Get` for a key already in canonical form. -/
def Header.Get (h : Header) (key : String) : String :=
  match GoMap.get? h key with
  | some (v :: _) => v
  | _ => ""

/-- The fields of struct `Fetcher` read by `fetcher_cache.go`; `context` is the
value of `GetContext()`. -/
structure Fetcher where
  fetcherCachePath : String
  minimumCache : Int
  context : String
  deriving DecidableEq, Repr

/-- A call of the fetcher that reaches the file system or the network. -/
inductive FetchCall where
  /-- call `os.Stat(path)` -/
  | stat (path : List String)
  /-- call `util.LoadGobFromFile(&resources, path)` -/
  | loadGob (path : List String)
  /-- call `util.FileExists(path)` -/
  | fileExists (path : List String)
  /-- call `ioutil.ReadFile(path)` -/
  | readFile (path : List String)
  /-- call `util.HeadFromHttpServer(url)`: the metadata request -/
  | head (url : String)
  /-- a full-content request to `url` -/
  | get (url : String)
  deriving DecidableEq, Repr

/-- Whether a call goes to the network. -/
def FetchCall.isNetwork : FetchCall → Bool
  | .head _ => true
  | .get _ => true
  | _ => false

/-- What the outside world answers to the calls of `checkLocalCache`. The
helpers of `util` and of the fetcher that are declared outside the files at
hand, and the library functions `os.Stat`, `ioutil.ReadFile`,
`json.Unmarshal` and `time.Parse`, are taken as given. -/
structure FetcherEnv (R : Type) where
  /-- reading of `time.Now()` -/
  now : Int
  /-- modification time reported by `os.Stat`, `none` when it returns an error -/
  Stat : List String → Option Int
  /-- the map `util.LoadGobFromFile` leaves in its first argument, given the map
  it held before, and the error it returns -/
  LoadGobFromFile : List String → GoMap String R → GoMap String R × Option String
  FileExists : List String → Bool
  ReadFile : List String → Except String String
  /-- decoding by `json.Unmarshal` into a `map[string]time.Time`: the map (`none`
  is nil) and the error -/
  unmarshalTimes : String → Option (GoMap String Int) × Option String
  HeadFromHttpServer : String → Except String Header
  getResourceHttpPath : String → String → String
  /-- parsing by `time.Parse(TimeFormat, s)`, `none` when it returns an error -/
  parseTime : String → Option Int

/-- What `checkLocalCache` returns (`resources = none` is a nil map) and the calls
it made. -/
structure CacheResult (R : Type) where
  resources : Option (GoMap String R)
  err : Option String
  calls : List FetchCall

/-- Function `getLastModifiedFromHeader`: the parsed time (the zero time when
parsing fails) and the error. -/
def getLastModifiedFromHeader (env : FetcherEnv R) (headers : Header) : Int × Option String :=
  let lastModifiedStr := Header.Get headers "Last-Modified"
  match env.parseTime lastModifiedStr with
  | none => (0, some "invalid lastModified timestamp")
  | some lastModifiedTime => (lastModifiedTime, none)

/-- Method `getLastModifiedTimesPath`. -/
def getLastModifiedTimesPath (f : Fetcher) : List String :=
  [f.fetcherCachePath, f.context, "lastModified"]

/-- Method `loadLastModifiedTimes`: the map (`none` is nil), the error, and the
calls made. -/
def loadLastModifiedTimes (env : FetcherEnv R) (f : Fetcher) :
    (Option (GoMap String Int) × Option String) × List FetchCall :=
  let lastModifiedTimesPath := getLastModifiedTimesPath f
  if !env.FileExists lastModifiedTimesPath then
    ((some [], none), [.fileExists lastModifiedTimesPath])
  else
    match env.ReadFile lastModifiedTimesPath with
    | .error e => ((none, some e), [.fileExists lastModifiedTimesPath, .readFile lastModifiedTimesPath])
    | .ok b =>
      (env.unmarshalTimes b, [.fileExists lastModifiedTimesPath, .readFile lastModifiedTimesPath])

/-- Method `checkLocalCache`; a resource type is given by its `String()`. The
error of `getLastModifiedFromHeader` is assigned to a variable local to the `if
ok` block, so the final `return nil, err` returns the (nil) error of
`loadLastModifiedTimes`. -/
def checkLocalCache (env : FetcherEnv R) (f : Fetcher) (endpoint : String) (r : String) :
    CacheResult R :=
  let cacheFile := [f.fetcherCachePath, f.context, r]
  match env.Stat cacheFile with
  | none => { resources := none, err := none, calls := [.stat cacheFile] }
  | some modTime =>
    let deltaMod := timeSub env.now modTime
    if deltaMod ≤ f.minimumCache then
      let loaded := env.LoadGobFromFile cacheFile []
      { resources := some loaded.1, err := loaded.2,
        calls := [.stat cacheFile, .loadGob cacheFile] }
    else
      let times := loadLastModifiedTimes env f
      match times.1.2 with
      | some e => { resources := none, err := some e, calls := .stat cacheFile :: times.2 }
      | none =>
        let modifiedTimes := times.1.1.getD []
        let resourcePath := env.getResourceHttpPath endpoint r
        match GoMap.get? modifiedTimes r with
        | some localLastModified =>
          match env.HeadFromHttpServer resourcePath with
          | .error e =>
            { resources := none, err := some ("error on head of " ++ resourcePath ++ ": " ++ e),
              calls := .stat cacheFile :: times.2 ++ [.head resourcePath] }
          | .ok headers =>
            let lastModifiedTime := (getLastModifiedFromHeader env headers).1
            if lastModifiedTime = localLastModified then
              let loaded := env.LoadGobFromFile cacheFile []
              { resources := some loaded.1, err := loaded.2,
                calls := .stat cacheFile :: times.2 ++ [.head resourcePath, .loadGob cacheFile] }
            else
              { resources := none, err := none,
                calls := .stat cacheFile :: times.2 ++ [.head resourcePath] }
        | none => { resources := none, err := none, calls := .stat cacheFile :: times.2 }

/-! ## Concrete inputs

A small cluster used to run the definitions: a converter that fills the
metadata of a `ReplicaSet` record from the object and takes the three replica
counts from the body of the object, and a few objects. -/

/-- A converter to `ReplicaSet` records for objects whose body is the replica
count; it copies cluster, namespace, name and labels as `FromObjectMeta` does. -/
def sampleCtor (obj : Obj) (config : CtorConfig) : ReplicaSet :=
  match obj with
  | .accessor o body =>
    { Cluster := config.Cluster, Namespace := o.Namespace, Name := o.Name, Labels := o.Labels
      replicas := body, readyReplicas := body, availableReplicas := body, selectors := [] }
  | _ =>
    { Cluster := config.Cluster, Namespace := "None", Name := "None", Labels := []
      replicas := "", readyReplicas := "", availableReplicas := "", selectors := [] }

/-- A watch configuration for replica sets with `sampleCtor` as converter. -/
def sampleConfig : WatchConfig ReplicaSet :=
  { resourceCtor := sampleCtor, header := "", resourceName := "replicasets", getter := "apps"
    runtimeObject := "ReplicaSet", hasNamespace := true, splitByNamespaces := false
    pollingPeriod := 0 }

/-- A store configuration with ten seconds between full dumps. -/
def sampleStoreConfig : StoreConfig :=
  { ClusterDir := "minikube", CacheDir := "/tmp/cache", TimeBetweenFullDump := 10000000000 }

/-- The store `NewK8sStore` builds from the sample configuration. -/
def sampleStore : K8sStore ReplicaSet :=
  { data := [], labelMap := [], resourceCtor := sampleCtor, ctorConfig := ⟨"minikube"⟩
    resourceName := "replicasets", currentFile := none, storeConfig := sampleStoreConfig
    firstWrite := true, destDir := ["/tmp/cache", "minikube"], labelToDump := false
    lastFullDump := 0, lastLabelDump := 0 }

/-- Replica set `default/a` with label `app=web`. -/
def objA : Obj := .accessor ⟨"default", "a", [("app", "web")]⟩ "1"

/-- Replica set `default/b` with labels `app=web` and `tier=db`. -/
def objB : Obj := .accessor ⟨"default", "b", [("app", "web"), ("tier", "db")]⟩ "2"

/-- The record `sampleCtor` builds for `objA`. -/
def recA : ReplicaSet :=
  { Cluster := "minikube", Namespace := "default", Name := "a", Labels := [("app", "web")]
    replicas := "1", readyReplicas := "1", availableReplicas := "1", selectors := [] }

/-- The record `sampleCtor` builds for `objB`. -/
def recB : ReplicaSet :=
  { Cluster := "minikube", Namespace := "default", Name := "b"
    Labels := [("app", "web"), ("tier", "db")]
    replicas := "2", readyReplicas := "2", availableReplicas := "2", selectors := [] }

/-- The sample store holding `default/a` and `default/b`, last dumped at
`lastFullDump`. -/
def sampleStoreAB (lastFullDump : Int) : K8sStore ReplicaSet :=
  { sampleStore with
    data := [("default_a", recA), ("default_b", recB)]
    labelMap := [(⟨"default", "app=web"⟩, 2), (⟨"default", "tier=db"⟩, 1)]
    lastFullDump := lastFullDump }

/-- An update of `default/a` to three replicas. -/
def objA3 : Obj := .accessor ⟨"default", "a", [("app", "web")]⟩ "3"

/-- An earlier record of `default/a`: one replica, label `app=old` and a
selector. -/
def recAOld : ReplicaSet :=
  { recA with Labels := [("app", "old")], selectors := ["app=old"] }

/-- The sample store holding the earlier record of `default/a`. -/
def sampleStoreOld : K8sStore ReplicaSet :=
  { sampleStore with
    data := [("default_a", recAOld)]
    labelMap := [(⟨"default", "app=old"⟩, 1)] }

/-- A clock reading in the year 2026, in nanoseconds since Go's zero time. -/
def sampleNow : Int := 63900000000 * 1000000000

/-- A fetcher that trusts cache files for five minutes. -/
def sampleFetcher : Fetcher :=
  { fetcherCachePath := "/tmp/fetcher", minimumCache := 300000000000, context := "minikube" }

/-- A world in which the cache file of `replicasets` was modified `age`
nanoseconds ago and decodes to the record of `default/a`, no other file exists
and the server cannot be reached. -/
def sampleEnv (age : Int) : FetcherEnv ReplicaSet :=
  { now := sampleNow
    Stat := fun p =>
      if p = ["/tmp/fetcher", "minikube", "replicasets"] then some (sampleNow - age) else none
    LoadGobFromFile := fun p init =>
      if p = ["/tmp/fetcher", "minikube", "replicasets"] then ([("default_a", recA)], none)
      else (init, some "no such file")
    FileExists := fun _ => false
    ReadFile := fun _ => .error "no such file"
    unmarshalTimes := fun _ => (none, some "unexpected end of JSON input")
    HeadFromHttpServer := fun _ => .error "connection refused"
    getResourceHttpPath := fun endpoint r => endpoint ++ "/" ++ r
    parseTime := fun _ => none }

/-- The time the sample server reports as `Last-Modified`, in nanoseconds since
Go's zero time. -/
def sampleModified : Int := 63897000000 * 1000000000

/-- A world in which the cache file of `replicasets` is ten minutes old and
decodes to the record of `default/a`, the `lastModified` file exists and decodes
to `times`, the server answers the metadata request with `head`, and the only
`Last-Modified` text that parses is the one for `sampleModified`. -/
def staleEnv (times : Option (GoMap String Int)) (head : Except String Header) :
    FetcherEnv ReplicaSet :=
  { now := sampleNow
    Stat := fun p =>
      if p = ["/tmp/fetcher", "minikube", "replicasets"] then some (sampleNow - 600000000000)
      else none
    LoadGobFromFile := fun p init =>
      if p = ["/tmp/fetcher", "minikube", "replicasets"] then ([("default_a", recA)], none)
      else (init, some "no such file")
    FileExists := fun p => decide (p = ["/tmp/fetcher", "minikube", "lastModified"])
    ReadFile := fun p =>
      if p = ["/tmp/fetcher", "minikube", "lastModified"] then .ok "stored times"
      else .error "no such file"
    unmarshalTimes := fun _ => (times, none)
    HeadFromHttpServer := fun _ => head
    getResourceHttpPath := fun endpoint r => endpoint ++ "/" ++ r
    parseTime := fun s => if s = "Thu, 29 Oct 2026 05:20:00 GMT" then some sampleModified else none }

/-! ## Files -/

/-- A file: its content and its modification time. -/
structure File where
  content : String
  modTime : Int
  deriving DecidableEq, Repr

/-- The files of a file system by path; directories are not modelled. -/
abbrev FileSystem := GoMap (List String) File

/-- How a call of `os.WriteFile` ends. -/
inductive WriteOutcome where
  /-- the file holds the data and nil is returned -/
  | ok
  /-- the file could not be opened: nothing changes and the error is returned -/
  | openFailed (err : String)
  /-- the file was opened, which truncates it, and only the first `written`
  bytes of the data reached it before the error -/
  | writeFailed (err : String) (written : Nat)
  deriving DecidableEq, Repr

/-- Function `os.WriteFile(path, data, perm)` at time `now`: the files afterwards
and the error. -/
def osWriteFile (fs : FileSystem) (path : List String) (data : String) (now : Int) :
    WriteOutcome → FileSystem × Option String
  | .ok => (GoMap.set fs path ⟨data, now⟩, none)
  | .openFailed err => (fs, some err)
  | .writeFailed err written =>
    (GoMap.set fs path ⟨String.mk (data.data.take written), now⟩, some err)

/-- The world of `env` with `os.Stat`, `util.FileExists` and `ioutil.ReadFile`
answering from the files `fs`. -/
def FetcherEnv.onFiles (env : FetcherEnv R) (fs : FileSystem) : FetcherEnv R :=
  { env with
    Stat := fun p => (GoMap.get? fs p).map (fun e => e.modTime)
    FileExists := fun p => (GoMap.get? fs p).isSome
    ReadFile := fun p =>
      match GoMap.get? fs p with
      | some e => .ok e.content
      | none => .error "no such file" }

/-- What the outside world answers to the writing calls of
`writeResourceToCache`. -/
structure CacheWriteEnv where
  /-- modification time given to the files written -/
  now : Int
  /-- error returned by `os.MkdirAll` -/
  mkdirAll : Option String
  /-- how the write of the cache file ends -/
  writeCache : WriteOutcome
  /-- encoding by `json.Marshal` of a `map[string]time.Time`: the bytes and the
  error -/
  marshalTimes : GoMap String Int → String × Option String
  /-- how the write of the `lastModified` file ends -/
  writeTimes : WriteOutcome

/-- Method `updateLastModifiedTimes`: the files afterwards and the error; `none`
is the panic of assigning into a nil map. The error of `json.Marshal` is
overwritten by the result of `ioutil.WriteFile`. -/
def updateLastModifiedTimes (env : FetcherEnv R) (w : CacheWriteEnv) (f : Fetcher)
    (fs : FileSystem) (r : String) (newTime : Int) : Option (FileSystem × Option String) :=
  let loaded := (loadLastModifiedTimes (env.onFiles fs) f).1
  match loaded.2 with
  | some err => some (fs, some err)
  | none =>
    match loaded.1 with
    | none => none
    | some lastModifiedTimes =>
      let b := (w.marshalTimes (GoMap.set lastModifiedTimes r newTime)).1
      some (osWriteFile fs (getLastModifiedTimesPath f) b w.now w.writeTimes)

/-- Method `writeResourceToCache`: the files afterwards and the error. -/
def writeResourceToCache (env : FetcherEnv R) (w : CacheWriteEnv) (f : Fetcher)
    (fs : FileSystem) (headers : Header) (b : String) (r : String) :
    Option (FileSystem × Option String) :=
  match w.mkdirAll with
  | some err => some (fs, some ("error mkdirall: " ++ err))
  | none =>
    let cachePath := [f.fetcherCachePath, f.context, r]
    let written := osWriteFile fs cachePath b w.now w.writeCache
    match written.2 with
    | some err => some (written.1, some ("error writing cache file: " ++ err))
    | none =>
      let parsed := getLastModifiedFromHeader env headers
      match parsed.2 with
      | some err => some (written.1, some err)
      | none => updateLastModifiedTimes env w f written.1 r parsed.1

/-- A world for `writeResourceToCache` in which every call succeeds and the
encoded map is the text the sample worlds decode. -/
def sampleWriteEnv : CacheWriteEnv :=
  { now := sampleNow, mkdirAll := none, writeCache := .ok
    marshalTimes := fun _ => ("stored times", none), writeTimes := .ok }

/-! ## Writing a file through a temporary file -/

/-- What the outside world answers to the calls of `WriteStringToFile`. -/
structure TempWriteEnv where
  /-- modification time given to the files written -/
  now : Int
  /-- what `ioutil.TempFile` returns: the random part of the name of the file it
  creates, or its error -/
  tempFile : Except String String
  /-- number of bytes of the string that have reached the temporary file when
  `w.WriteString` returns (the part that did not fit the buffer) -/
  written : Nat
  /-- error returned by `w.WriteString` -/
  writeString : Option String
  /-- number of bytes of the string in the temporary file when a failing
  `w.Flush` returns -/
  flushed : Nat
  /-- error returned by `w.Flush` -/
  flush : Option String
  /-- error returned by `tempFile.Sync` -/
  sync : Option String
  /-- error returned by `os.Rename` -/
  rename : Option String

/-- A run of `WriteStringToFile`: the files after each call that touches the file
system, in order, the files at the end, and the error returned. -/
structure WriteRun where
  steps : List FileSystem
  files : FileSystem
  err : Option String

/-- Function `util.WriteStringToFile`. The temporary file is named by the pattern
followed by the random part (a pattern without `*`); `ioutil.TempFile` only
creates a file that does not exist yet, so a name already taken is an error of
it. `os.Remove` of the temporary file is taken to succeed. -/
def WriteStringToFile (e : TempWriteEnv) (fs : FileSystem) (str : String) (destDir : List String)
    (resourceName suffix : String) : WriteRun :=
  let name := resourceName ++ "_" ++ suffix
  let tempPattern := "_" ++ resourceName ++ "_" ++ suffix
  match e.tempFile with
  | .error err =>
    { steps := [], files := fs
      err := some ("Error creating temp file in " ++ "/".intercalate destDir ++ " for resource " ++
        name ++ ": " ++ err) }
  | .ok random =>
    let tempName := destDir ++ [tempPattern ++ random]
    if (GoMap.get? fs tempName).isSome then
      { steps := [], files := fs
        err := some ("Error creating temp file in " ++ "/".intercalate destDir ++
          " for resource " ++ name ++ ": file exists") }
    else
      let fs1 := GoMap.set fs tempName ⟨"", e.now⟩
      let fs2 := GoMap.set fs1 tempName ⟨String.mk (str.data.take e.written), e.now⟩
      match e.writeString with
      | some err =>
        { steps := [fs1, fs2, GoMap.delete fs2 tempName], files := GoMap.delete fs2 tempName
          err := some ("Error writing bytes to file " ++ "/".intercalate tempName ++ ": " ++ err) }
      | none =>
        match e.flush with
        | some err =>
          let fs3 := GoMap.set fs2 tempName ⟨String.mk (str.data.take e.flushed), e.now⟩
          { steps := [fs1, fs2, fs3, GoMap.delete fs3 tempName]
            files := GoMap.delete fs3 tempName
            err := some ("Error flushing buffer: " ++ err) }
        | none =>
          let fs3 := GoMap.set fs2 tempName ⟨str, e.now⟩
          match e.sync with
          | some err =>
            { steps := [fs1, fs2, fs3, GoMap.delete fs3 tempName]
              files := GoMap.delete fs3 tempName
              err := some ("Error syncing file: " ++ err) }
          | none =>
            match e.rename with
            | some err =>
              { steps := [fs1, fs2, fs3, GoMap.delete fs3 tempName]
                files := GoMap.delete fs3 tempName
                err := some err }
            | none =>
              let fs4 := GoMap.set (GoMap.delete fs3 tempName) (destDir ++ [name]) ⟨str, e.now⟩
              { steps := [fs1, fs2, fs3, fs4], files := fs4, err := none }

/-- A world for `WriteStringToFile` in which every call succeeds. -/
def sampleTempEnv : TempWriteEnv :=
  { now := sampleNow, tempFile := .ok "123456", written := 0, writeString := none, flushed := 0
    flush := none, sync := none, rename := none }

/-! ## Rendering the label index -/

/-- Struct `LabelPair`. -/
structure LabelPair where
  Key : LabelKey
  Occurrences : Int
  deriving DecidableEq, Repr

/-- Type `LabelPairList`. -/
abbrev LabelPairList := List LabelPair

/-- Method `LabelPairList.Less` on the two elements it compares. Go compares
strings byte by byte; here they are compared character by character, which is
the same order for UTF-8 text. -/
def LabelPair.Less (p q : LabelPair) : Bool :=
  if p.Occurrences = q.Occurrences then
    if p.Key.Namespace = q.Key.Namespace then decide (p.Key.Label.data < q.Key.Label.data)
    else decide (p.Key.Namespace.data < q.Key.Namespace.data)
  else decide (p.Occurrences > q.Occurrences)

/-- The order `sort.Sort` leaves two elements in: `p` may stand before `q` when
`q` is not `Less` than `p`. -/
def LabelPair.NotAfter (p q : LabelPair) : Prop := q.Less p = false

instance : DecidableRel LabelPair.NotAfter :=
  fun p q => inferInstanceAs (Decidable (q.Less p = false))

/-- Go `sort.Sort(pl)`, as an insertion sort. `sort.Sort` promises a permutation
in which no element is `Less` than an element before it; the entries of a map
have distinct keys, and on such entries `Less` is a strict total order, so that
permutation is unique. -/
def sortPairs (pl : LabelPairList) : LabelPairList :=
  pl.insertionSort LabelPair.NotAfter

/-- The sort key behind `Less`: occurrences descending, then namespace, then
label, compared lexicographically. -/
def LabelPair.rank (p : LabelPair) : Lex (ℤᵒᵈ × Lex (List Char × List Char)) :=
  toLex (OrderDual.toDual p.Occurrences, toLex (p.Key.Namespace.data, p.Key.Label.data))

/-- The line `generateLabel` writes for one pair: `fmt.Sprintf("%s %s %d\n", ...)`
when the namespace is empty, `fmt.Sprintf("%s %s %s %d\n", ...)` otherwise. -/
def labelLine (cluster : String) (pair : LabelPair) : String :=
  if pair.Key.Namespace = "" then
    cluster ++ " " ++ pair.Key.Label ++ " " ++ toString pair.Occurrences ++ "\n"
  else
    cluster ++ " " ++ pair.Key.Namespace ++ " " ++ pair.Key.Label ++ " " ++
      toString pair.Occurrences ++ "\n"

/-- Go `strings.Trim(s, "\n")`: every leading and every trailing newline is
removed. -/
def trimNewlines (s : String) : String :=
  String.mk ((s.data.rdropWhile (fun c => c == '\n')).dropWhile (fun c => c == '\n'))

/-- The list `pl` that `generateLabel` fills from the label index. -/
def labelPairList (k : K8sStore R) : LabelPairList :=
  k.labelMap.map (fun e => ⟨e.1, e.2⟩)

/-- The lines `generateLabel` writes to its builder, in order. -/
def labelLines (k : K8sStore R) : List String :=
  (sortPairs (labelPairList k)).map (labelLine k.ctorConfig.Cluster)

/-- Method `generateLabel`: the text and the error. Writing to a
`strings.Builder` returns no error, so the error is always nil. -/
def generateLabel (k : K8sStore R) : String × Option String :=
  let res := (sortPairs (labelPairList k)).foldl
    (fun res pair => res ++ labelLine k.ctorConfig.Cluster pair) ""
  (trimNewlines res, none)

/-! ## The resource watcher -/

/-- A compiled `*regexp.Regexp`, as far as it is used: its method `MatchString`. -/
structure Regexp where
  MatchString : String → Bool

/-- Struct `ResourceWatcher` without its clientset; a cancel function is named by
the resource whose tasks it cancels. -/
structure ResourceWatcher where
  namespaces : List String
  excludedNamespaces : List Regexp
  cluster : String
  cancelFuncs : List String
  storeConfig : StoreConfig

/-- The loop of `NewResourceWatcher` over the patterns: `regexp.Compile` is given
as `compile`, and a pattern that does not compile ends the process in
`util.FatalIf`. -/
def compilePatterns (compile : String → Option Regexp) : List String → Option (List Regexp)
  | [] => some []
  | ns :: rest =>
    match compile ns with
    | none => none
    | some rg =>
      match compilePatterns compile rest with
      | none => none
      | some rgs => some (rg :: rgs)

/-- Function `NewResourceWatcher`; `clientErr` is the error of
`kubernetes.NewForConfig`. `none` is the end of the process in `util.FatalIf`. -/
def NewResourceWatcher (compile : String → Option Regexp) (clientErr : Option String)
    (storeConfig : StoreConfig) (excludedNamespaces : List String) : Option ResourceWatcher :=
  match clientErr with
  | some _ => none
  | none =>
    match compilePatterns compile excludedNamespaces with
    | none => none
    | some rgs =>
      some { namespaces := [], excludedNamespaces := rgs, cluster := "", cancelFuncs := []
             storeConfig := storeConfig }

/-- Function `util.IsStringExcluded`. -/
def IsStringExcluded (s : String) : List Regexp → Bool
  | [] => false
  | regexp :: rest => if regexp.MatchString s then true else IsStringExcluded s rest

/-- The loop of `FetchNamespaces` over the names of the listed namespaces. -/
def fetchNamespacesLoop (excluded : List Regexp) (namespaces : List String) :
    List String → List String
  | [] => namespaces
  | namespaceName :: rest =>
    if IsStringExcluded namespaceName excluded then fetchNamespacesLoop excluded namespaces rest
    else fetchNamespacesLoop excluded (namespaces ++ [namespaceName]) rest

/-- Method `FetchNamespaces`; `listed` is what the cluster answers to the list
request: the names of the namespaces, or an error. -/
def FetchNamespaces (r : ResourceWatcher) (listed : Except String (List String)) :
    ResourceWatcher × Option String :=
  match listed with
  | .error err => (r, some err)
  | .ok names =>
    ({ r with namespaces := fetchNamespacesLoop r.excludedNamespaces r.namespaces names }, none)

/-- Function `util.StringSliceToSet`. -/
def StringSliceToSet (lst : List String) : GoMap String Bool :=
  lst.foldl (fun res el => GoMap.set res el true) []

/-- The constructors and header constants of package `k8sresources` that the
watch table names, by their Go identifier; most of them are declared outside the
files at hand. -/
structure ResourceTable (R : Type) where
  ctor : String → Obj → CtorConfig → R
  header : String → String

/-- The literal `allWatchConfigs` of `GetWatchConfigs`. -/
def allWatchConfigs (t : ResourceTable R) (nodePollingPeriod namespacePollingPeriod : Int) :
    List (WatchConfig R) :=
  [ ⟨t.ctor "NewPodFromRuntime", t.header "PodHeader", "pods", "coreGetter", "corev1.Pod",
      true, true, 0⟩,
    ⟨t.ctor "NewConfigMapFromRuntime", t.header "ConfigMapHeader", "configmaps", "coreGetter",
      "corev1.ConfigMap", true, true, 0⟩,
    ⟨t.ctor "NewServiceFromRuntime", t.header "ServiceHeader", "services", "coreGetter",
      "corev1.Service", true, false, 0⟩,
    ⟨t.ctor "NewServiceAccountFromRuntime", t.header "ServiceAccountHeader", "serviceaccounts",
      "coreGetter", "corev1.Service", true, false, 0⟩,
    ⟨t.ctor "NewReplicaSetFromRuntime", t.header "ReplicaSetHeader", "replicasets", "appsGetter",
      "appsv1.ReplicaSet", true, false, 0⟩,
    ⟨t.ctor "NewDaemonSetFromRuntime", t.header "DaemonSetHeader", "daemonsets", "appsGetter",
      "appsv1.DaemonSet", true, false, 0⟩,
    ⟨t.ctor "NewSecretFromRuntime", t.header "SecretHeader", "secrets", "coreGetter",
      "corev1.Secret", true, false, 0⟩,
    ⟨t.ctor "NewStatefulSetFromRuntime", t.header "StatefulSetHeader", "statefulsets",
      "appsGetter", "appsv1.StatefulSet", true, false, 0⟩,
    ⟨t.ctor "NewDeploymentFromRuntime", t.header "DeploymentHeader", "deployments", "appsGetter",
      "appsv1.Deployment", true, false, 0⟩,
    ⟨t.ctor "NewEndpointsFromRuntime", t.header "EndpointsHeader", "endpoints", "coreGetter",
      "corev1.Endpoints", true, false, 0⟩,
    ⟨t.ctor "NewIngressFromRuntime", t.header "IngressHeader", "ingresses", "betaGetter",
      "betav1.Ingress", true, false, 0⟩,
    ⟨t.ctor "NewCronJobFromRuntime", t.header "CronJobHeader", "cronjobs", "batchGetterV1Beta",
      "batchbetav1.CronJob", true, false, 0⟩,
    ⟨t.ctor "NewJobFromRuntime", t.header "JobHeader", "jobs", "batchGetter", "batchv1.Job",
      true, false, 0⟩,
    ⟨t.ctor "NewHpaFromRuntime", t.header "HpaHeader", "horizontalpodautoscalers",
      "autoscalingGetter", "autoscalingv1.HorizontalPodAutoscaler", true, false, 0⟩,
    ⟨t.ctor "NewPersistentVolumeFromRuntime", t.header "PersistentVolumeHeader",
      "persistentvolumes", "coreGetter", "corev1.PersistentVolume", false, false, 0⟩,
    ⟨t.ctor "NewPersistentVolumeClaimFromRuntime", t.header "PersistentVolumeClaimHeader",
      "persistentvolumeclaims", "coreGetter", "corev1.PersistentVolumeClaim", true, false, 0⟩,
    ⟨t.ctor "NewNodeFromRuntime", t.header "NodeHeader", "nodes", "coreGetter", "corev1.Node",
      false, false, nodePollingPeriod⟩,
    ⟨t.ctor "NewNamespaceFromRuntime", t.header "NamespaceHeader", "namespaces", "coreGetter",
      "corev1.Namespace", false, false, namespacePollingPeriod⟩ ]

/-- Method `GetWatchConfigs`. -/
def GetWatchConfigs (t : ResourceTable R) (nodePollingPeriod namespacePollingPeriod : Int)
    (excludedResources : List String) : List (WatchConfig R) :=
  let excludedResourcesSet := StringSliceToSet excludedResources
  (allWatchConfigs t nodePollingPeriod namespacePollingPeriod).foldl
    (fun watchConfigs w =>
      if (GoMap.get? excludedResourcesSet w.resourceName).isSome then watchConfigs
      else watchConfigs ++ [w]) []

/-- A table whose constructors are all `sampleCtor` and whose headers are the
names of the header constants. -/
def sampleTable : ResourceTable ReplicaSet :=
  { ctor := fun _ => sampleCtor, header := fun name => name }

/-- A regular expression matching the names that start with `kube-`. -/
def kubePrefixed : Regexp :=
  { MatchString := fun s => "kube-".data.isPrefixOf s.data }

/-! ## Starting the sync of a resource -/

/-- A goroutine launched by `Start`. -/
inductive SyncTask (R : Type) where
  /-- statement `go r.pollResource(ctx, cfg, store)` -/
  | pollResource (cfg : WatchConfig R) (store : K8sStore R)
  /-- statement `go r.watchResource(ctx, cfg, store, namespaces)`, which starts one
  watch per element of `namespaces` -/
  | watchResource (cfg : WatchConfig R) (store : K8sStore R) (namespaces : List String)

/-- What a call of `Start` that returns leaves behind: the watcher, the stores it
created, the goroutines it launched, and the error it returns. -/
structure Started (R : Type) where
  watcher : ResourceWatcher
  stores : List (K8sStore R)
  tasks : List (SyncTask R)
  err : Option String

/-- Method `Start`; `mkdirErr` is what `os.MkdirAll` returns inside `NewK8sStore`.
`NewK8sStore` ends the process on an error (`none`), so the error branches after
it are never taken. -/
def Start (r : ResourceWatcher) (cfg : WatchConfig R) (ctorConfig : CtorConfig)
    (mkdirErr : Option String) : Option (Started R) :=
  let r1 := { r with cancelFuncs := r.cancelFuncs ++ [cfg.resourceName] }
  if cfg.pollingPeriod > 0 then
    match NewK8sStore cfg r1.storeConfig ctorConfig mkdirErr with
    | none => none
    | some out =>
      some { watcher := r1, stores := [out.store], tasks := [.pollResource cfg out.store]
             err := none }
  else if cfg.splitByNamespaces then
    match NewK8sStore cfg r1.storeConfig ctorConfig mkdirErr with
    | none => none
    | some out =>
      some { watcher := r1, stores := [out.store]
             tasks := [.watchResource cfg out.store r1.namespaces], err := none }
  else
    match NewK8sStore cfg r1.storeConfig ctorConfig mkdirErr with
    | none => none
    | some out =>
      some { watcher := r1, stores := [out.store]
             tasks := [.watchResource cfg out.store [""]], err := none }

/-- A watcher with two namespaces fetched. -/
def sampleWatcher : ResourceWatcher :=
  { namespaces := ["default", "monitoring"], excludedNamespaces := [kubePrefixed]
    cluster := "minikube", cancelFuncs := ["pods"], storeConfig := sampleStoreConfig }

/-! ## Helpers of `util` on slices and maps -/

/-- Function `util.JoinStringMap`; the entries of the map are visited in the
order of its list. The body does not read `exclude`. -/
def JoinStringMap (m : GoMap String String) (_exclude : GoMap String String) (sep : String) :
    List String :=
  let res := List.replicate m.length ""
  (m.foldl (fun (acc : List String × Nat) e => (acc.1.set acc.2 (e.1 ++ sep ++ e.2), acc.2 + 1))
    (res, 0)).1

/-- Function `util.ExcludeFromSlice`: `res` has the length of `sl`, a kept
element is stored at its index `k` in `sl`, `i` counts the kept elements, and
`res[:i]` is returned. -/
def ExcludeFromSlice (sl : List String) (exclude : GoMap String String) : List String :=
  let res := List.replicate sl.length ""
  let out := sl.enum.foldl
    (fun (acc : List String × Nat) kv =>
      if (GoMap.get? exclude kv.2).isSome then acc else (acc.1.set kv.1 kv.2, acc.2 + 1))
    (res, 0)
  out.1.take out.2

/-- Function `util.FilterSliceWithRegexps`: `res` has the length of `sl`, a kept
element is stored at its index `k` in `sl`, `i` counts the kept elements, and
`res[:i]` is returned. -/
def FilterSliceWithRegexps (sl : List String) (excludeRegexps : List Regexp) : List String :=
  let res := List.replicate sl.length ""
  let out := sl.enum.foldl
    (fun (acc : List String × Nat) ks =>
      if IsStringExcluded ks.2 excludeRegexps then acc else (acc.1.set ks.1 ks.2, acc.2 + 1))
    (res, 0)
  out.1.take out.2

/-- Function `util.JoinSlicesOrNone`. -/
def JoinSlicesOrNone (sl : List String) (sep : String) : String :=
  if sl.length = 0 then "None" else sep.intercalate sl

/-- Function `util.JoinSlicesWithMaxOrNone`; `none` is the panic of the slice
expression `sl[:max]` for a negative `max`. -/
def JoinSlicesWithMaxOrNone (sl : List String) (max : Int) (sep : String) : Option String :=
  if sl.length = 0 then some "None"
  else if (sl.length : Int) < max then some (sep.intercalate sl)
  else if max < 0 then none
  else
    let toDisplay := sl.take max.toNat
    some (sep.intercalate (toDisplay ++ ["..."]))

/-- Struct `Service` of package `k8sresources`; of the embedded `ResourceMeta`,
which is declared outside the files at hand, the fields read by them are kept.
The struct `Service` of `cmd/cache_builder` has the same own fields. -/
structure Service where
  Cluster : String
  Namespace : String
  Name : String
  Labels : Labels
  serviceType : String
  clusterIP : String
  ports : List String
  selectors : List String
  deriving DecidableEq, Repr

/-- Method `(*Service).HasChanged` applied to a non-nil old record; the method of
`cmd/cache_builder` has the same body. -/
def Service.HasChanged (s oldService : Service) : Bool :=
  StringSlicesEqual s.ports oldService.ports ||
    StringSlicesEqual s.selectors oldService.selectors ||
    StringMapsEqual s.Labels oldService.Labels

/-- A service `default/web` with one port, one selector and one label. -/
def serviceWeb : Service :=
  { Cluster := "minikube", Namespace := "default", Name := "web", Labels := [("app", "web")]
    serviceType := "ClusterIP", clusterIP := "10.0.0.1", ports := ["http:80"]
    selectors := ["app=web"] }

/-- The service `default/web` after its port, its selector and its label were
all replaced. -/
def serviceWebChanged : Service :=
  { serviceWeb with
    Labels := [("tier", "db")], ports := ["https:443"], selectors := ["tier=db"] }

/-- The record of `default/a` after its selector and its label were replaced, the
replica counts staying as they were. -/
def recAChanged : ReplicaSet :=
  { recA with Labels := [("tier", "db")], selectors := ["tier=db"] }

/-! ## Dumping the label file -/

/-- What a call of `dumpLabel` leaves: the store, the files and the error
returned. -/
structure LabelDump (R : Type) where
  store : K8sStore R
  files : FileSystem
  err : Option String

/-- Method `dumpLabel`; `now` is the reading of `time.Now()`, `e` what the outside
world answers to `util.WriteStringToFile`, and `labelMutexHeld` tells whether
the caller holds `labelMutex`. `generateLabel` locks `labelMutex`, and a
`sync.Mutex` cannot be locked twice: called with the mutex held, the method
never returns, which is `none`. -/
def dumpLabel (e : TempWriteEnv) (fs : FileSystem) (k : K8sStore R) (now : Int)
    (labelMutexHeld : Bool) : Option (LabelDump R) :=
  let k1 := { k with lastLabelDump := now }
  if labelMutexHeld then none
  else
    match generateLabel k1 with
    | (_, some err) =>
      some { store := k1, files := fs, err := some ("Error generating label output: " ++ err) }
    | (labelOutput, none) =>
      let run := WriteStringToFile e fs labelOutput k1.destDir k1.resourceName "label"
      match run.err with
      | some err =>
        some { store := k1, files := run.files, err := some ("Error writing label file: " ++ err) }
      | none => some { store := { k1 with labelToDump := false }, files := run.files, err := none }

/-- What a tick of `periodicLabelDump` leaves: the store, the files, and whether
`dumpLabel` was called. -/
structure LabelTick (R : Type) where
  store : K8sStore R
  files : FileSystem
  dumpLabelCalled : Bool

/-- The body `periodicLabelDump` runs when its ticker fires, between
`labelMutex.Lock()` and `labelMutex.Unlock()`; `none` when it never returns.
The error of `dumpLabel` is not read. -/
def periodicLabelDumpTick (e : TempWriteEnv) (fs : FileSystem) (k : K8sStore R) (now : Int) :
    Option (LabelTick R) :=
  if k.labelToDump then
    match dumpLabel e fs k now true with
    | none => none
    | some d => some { store := d.store, files := d.files, dumpLabelCalled := true }
  else some { store := k, files := fs, dumpLabelCalled := false }

/-- A call of a method of the store, with the values the outside world supplies
during the call. -/
inductive StoreOp (R : Type) where
  | addResource (obj : Obj)
  | addResourceList (lstRuntime : List Obj) (now : Int) (encErr : Option String)
  | updateResource (oldObj newObj : Obj) (now : Int) (encErr : Option String)
  | deleteResource (obj : Obj) (now : Int) (encErr : Option String)
  | appendNewObject (resource : R)
  | dumpFullState (now : Int) (encErr : Option String)

/-- The store after a method call and the file-system calls it made, `none` when
the call panics. -/
def applyOp [K8sResource R] (k : K8sStore R) : StoreOp R → Option (Outcome R)
  | .addResource obj => AddResource k obj
  | .addResourceList lstRuntime now encErr => AddResourceList k lstRuntime now encErr
  | .updateResource oldObj newObj now encErr => UpdateResource k oldObj newObj now encErr
  | .deleteResource obj now encErr => DeleteResource k obj now encErr
  | .appendNewObject resource => some (AppendNewObject k resource).1
  | .dumpFullState now encErr => some (DumpFullState k now encErr).1

/-- The store after a sequence of method calls. -/
def runOps [K8sResource R] (k : K8sStore R) : List (StoreOp R) → Option (K8sStore R)
  | [] => some k
  | op :: ops =>
    match applyOp k op with
    | none => none
    | some o => runOps o.store ops

/-- The world of `env` on the files `fs`: `os.Stat`, `util.FileExists` and
`ioutil.ReadFile` answer from `fs`, and `util.LoadGobFromFile` decodes the
content of the file with `decode`, a missing file being an error. -/
def FetcherEnv.decodingFiles (env : FetcherEnv R) (fs : FileSystem)
    (decode : String → GoMap String R → GoMap String R × Option String) : FetcherEnv R :=
  { env.onFiles fs with
    LoadGobFromFile := fun p init =>
      match GoMap.get? fs p with
      | some e => decode e.content init
      | none => (init, some "no such file") }

/-- A decoder that reads the text `gob of default/a` as the map holding the
record of `default/a` and rejects every other content. -/
def sampleDecode (content : String) (init : GoMap String ReplicaSet) :
    GoMap String ReplicaSet × Option String :=
  if content = "gob of default/a" then ([("default_a", recA)], none)
  else (init, some "unexpected EOF")

/-- A store that differs from `sampleStore` in its label index only. -/
def sampleStoreLabels (labelMap : GoMap LabelKey Int) : K8sStore ReplicaSet :=
  { sampleStore with labelMap := labelMap }

/-- Replica set `default/c` with the labels `a=b` set to `c` and `a` set to
`b=c`, which both render to the text `a=b=c`. -/
def objC : Obj := .accessor ⟨"default", "c", [("a=b", "c"), ("a", "b=c")]⟩ "1"

/-! # Theorems -/

/-! ## Go maps -/

namespace GoMap

variable {K V : Type} [DecidableEq K]

theorem get_set_self (m : GoMap K V) (k : K) (v : V) : (m.set k v).get? k = some v := by
  induction m with
  | nil => simp [set, get?]
  | cons e m ih =>
    obtain ⟨k1, v1⟩ := e
    by_cases h : k1 = k
    · simp [set, get?, h]
    · simp [set, get?, h, ih]

theorem get_set_of_ne (m : GoMap K V) {k k2 : K} (v : V) (h : k2 ≠ k) :
    (m.set k v).get? k2 = m.get? k2 := by
  induction m with
  | nil => simp [set, get?, Ne.symm h]
  | cons e m ih =>
    obtain ⟨k1, v1⟩ := e
    by_cases h1 : k1 = k
    · subst h1
      simp [set, get?, Ne.symm h]
    · by_cases h2 : k1 = k2
      · subst h2
        simp [set, get?, h]
      · simp [set, get?, h1, h2, ih]

theorem get_delete_self (m : GoMap K V) (k : K) : (m.delete k).get? k = none := by
  induction m with
  | nil => simp [delete, get?]
  | cons e m ih =>
    obtain ⟨k1, v1⟩ := e
    by_cases h : k1 = k
    · simpa [delete, List.filter_cons, h] using ih
    · simpa [delete, List.filter_cons, h, get?] using ih

theorem get_delete_of_ne (m : GoMap K V) {k k2 : K} (h : k2 ≠ k) :
    (m.delete k).get? k2 = m.get? k2 := by
  induction m with
  | nil => simp [delete, get?]
  | cons e m ih =>
    obtain ⟨k1, v1⟩ := e
    by_cases h1 : k1 = k
    · subst h1
      simpa [delete, List.filter_cons, get?, Ne.symm h] using ih
    · by_cases h2 : k1 = k2
      · subst h2
        simp [delete, List.filter_cons, get?, h]
      · simpa [delete, List.filter_cons, get?, h1, h2] using ih

theorem get_eq_none_iff (m : GoMap K V) (k : K) : m.get? k = none ↔ k ∉ m.keys := by
  induction m with
  | nil => simp [get?, keys]
  | cons e m ih =>
    obtain ⟨k1, v1⟩ := e
    by_cases h : k1 = k
    · simp [get?, keys, h]
    · have h2 : ¬ k = k1 := fun h3 => h h3.symm
      simpa [get?, keys, h, h2] using ih

theorem mem_of_get {m : GoMap K V} {k : K} {v : V} (h : m.get? k = some v) : (k, v) ∈ m := by
  induction m with
  | nil => simp [get?] at h
  | cons e m ih =>
    obtain ⟨k1, v1⟩ := e
    by_cases h1 : k1 = k
    · simp [get?, h1] at h
      simp [h1, h]
    · simp [get?, h1] at h
      exact List.mem_cons_of_mem _ (ih h)

theorem set_of_get_none {m : GoMap K V} {k : K} (v : V) (h : m.get? k = none) :
    m.set k v = m ++ [(k, v)] := by
  induction m with
  | nil => simp [set]
  | cons e m ih =>
    obtain ⟨k1, v1⟩ := e
    by_cases h1 : k1 = k
    · simp [get?, h1] at h
    · simp [get?, h1] at h
      simp [set, h1, ih h]

theorem keys_set_of_get_none {m : GoMap K V} {k : K} (v : V) (h : m.get? k = none) :
    (m.set k v).keys = m.keys ++ [k] := by
  simp [set_of_get_none v h, keys]

theorem keys_set_mem (m : GoMap K V) (k k2 : K) (v : V) :
    k2 ∈ (m.set k v).keys ↔ k2 = k ∨ k2 ∈ m.keys := by
  induction m with
  | nil => simp [set, keys]
  | cons e m ih =>
    obtain ⟨k1, v1⟩ := e
    by_cases h1 : k1 = k
    · subst h1
      simp [set, keys]
    · simp only [set, h1, if_false, keys, List.map_cons, List.mem_cons] at ih ⊢
      rw [ih]
      tauto

theorem nodup_keys_delete {m : GoMap K V} (k : K) (h : m.keys.Nodup) : (m.delete k).keys.Nodup := by
  unfold keys delete at *
  exact (List.Nodup.sublist (List.Sublist.map _ (List.filter_sublist m)) h)

theorem nodup_keys_set_of_get_none {m : GoMap K V} {k : K} (v : V) (h : m.keys.Nodup)
    (hk : m.get? k = none) : (m.set k v).keys.Nodup := by
  rw [keys_set_of_get_none v hk]
  have : k ∉ m.keys := (get_eq_none_iff m k).1 hk
  rw [List.nodup_append]
  refine ⟨h, by simp, ?_⟩
  intro a ha hb
  simp at hb
  subst hb
  exact this ha

end GoMap

/-! ## The label index under `updateLabelMap` -/

theorem labelCount_bumpLabel (ns : String) (delta : Int) (m : GoMap LabelKey Int)
    (e : String × String) (key : LabelKey) :
    labelCount (bumpLabel ns delta m e) key =
      labelCount m key + (if LabelKey.mk ns (renderLabel e) = key then delta else 0) := by
  unfold labelCount bumpLabel
  by_cases h : LabelKey.mk ns (renderLabel e) = key
  · subst h
    simp [GoMap.get_set_self]
  · have h2 : key ≠ LabelKey.mk ns (renderLabel e) := fun h3 => h h3.symm
    simp [GoMap.get_set_of_ne _ _ h2, h]

theorem labelCount_foldl_bump (ns : String) (delta : Int) (labels : Labels)
    (m : GoMap LabelKey Int) (key : LabelKey) :
    labelCount (labels.foldl (bumpLabel ns delta) m) key =
      labelCount m key + delta * (labelHits ns labels key : Int) := by
  induction labels generalizing m with
  | nil => simp [labelHits]
  | cons e rest ih =>
    rw [List.foldl_cons, ih, labelCount_bumpLabel]
    unfold labelHits
    rw [List.countP_cons]
    by_cases h : LabelKey.mk ns (renderLabel e) = key
    · simp [h]; ring
    · simp [h]

theorem get_bumpLabel_of_ne (ns : String) (delta : Int) (m : GoMap LabelKey Int)
    (e : String × String) (key : LabelKey) (h : LabelKey.mk ns (renderLabel e) ≠ key) :
    GoMap.get? (bumpLabel ns delta m e) key = GoMap.get? m key := by
  unfold bumpLabel
  exact GoMap.get_set_of_ne _ _ (fun h3 => h h3.symm)

theorem get_foldl_bump_of_no_hit (ns : String) (delta : Int) (labels : Labels)
    (m : GoMap LabelKey Int) (key : LabelKey)
    (h : ∀ e ∈ labels, LabelKey.mk ns (renderLabel e) ≠ key) :
    GoMap.get? (labels.foldl (bumpLabel ns delta) m) key = GoMap.get? m key := by
  induction labels generalizing m with
  | nil => simp
  | cons e rest ih =>
    rw [List.foldl_cons, ih _ (fun x hx => h x (List.mem_cons_of_mem _ hx))]
    exact get_bumpLabel_of_ne ns delta m e key (h e (List.mem_cons_self _ _))

theorem labelHits_of_nodup (ns : String) (labels : Labels) (key : LabelKey)
    (h : (labels.map renderLabel).Nodup) :
    labelHits ns labels key =
      if ns = key.Namespace ∧ key.Label ∈ labels.map renderLabel then 1 else 0 := by
  induction labels with
  | nil => simp [labelHits]
  | cons e rest ih =>
    rw [List.map_cons, List.nodup_cons] at h
    have ih2 := ih h.2
    unfold labelHits at ih2 ⊢
    rw [List.countP_cons, ih2]
    obtain ⟨kns, klabel⟩ := key
    simp only [LabelKey.mk.injEq, List.map_cons, List.mem_cons]
    have hne : renderLabel e = klabel → klabel ∉ List.map renderLabel rest := fun h2 => h2 ▸ h.1
    split_ifs with a b c d <;> simp_all
    all_goals tauto

theorem labelCount_updateLabelMap (k : K8sStore R) (ns : String) (labels : Labels) (delta : Int)
    (key : LabelKey) :
    labelCount (updateLabelMap k ns labels delta).labelMap key =
      labelCount k.labelMap key + delta * (labelHits ns labels key : Int) := by
  unfold updateLabelMap
  exact labelCount_foldl_bump ns delta labels k.labelMap key

/-! ## Counting records -/

theorem recordCount_append_one [K8sResource R] (data : GoMap String R) (k : String) (r : R)
    (key : LabelKey) :
    recordCount (data ++ [(k, r)]) key = recordCount data key + (if carriesLabel r key then 1 else 0) := by
  unfold recordCount
  rw [List.countP_append]
  simp [List.countP_cons]

theorem delete_of_not_mem_keys (m : GoMap String R) (k : String) (h : k ∉ GoMap.keys m) :
    GoMap.delete m k = m := by
  unfold GoMap.delete
  rw [List.filter_eq_self]
  intro e he
  have : e.1 ≠ k := by
    intro h2
    apply h
    unfold GoMap.keys
    exact List.mem_map.2 ⟨e, he, h2⟩
  simpa using this

theorem recordCount_delete [K8sResource R] (data : GoMap String R) (k : String) (r : R)
    (key : LabelKey) (hnd : (GoMap.keys data).Nodup) (hget : GoMap.get? data k = some r) :
    recordCount data key =
      recordCount (GoMap.delete data k) key + (if carriesLabel r key then 1 else 0) := by
  induction data with
  | nil => simp [GoMap.get?] at hget
  | cons e m ih =>
    obtain ⟨k1, v1⟩ := e
    have hnd2 : k1 ∉ GoMap.keys m ∧ (GoMap.keys m).Nodup := by
      simpa [GoMap.keys] using hnd
    by_cases h1 : k1 = k
    · subst h1
      have hr : v1 = r := by simpa [GoMap.get?] using hget
      subst hr
      have hdel : GoMap.delete ((k1, v1) :: m) k1 = m := by
        have := delete_of_not_mem_keys m k1 hnd2.1
        unfold GoMap.delete at this ⊢
        simpa [List.filter_cons] using this
      rw [hdel]
      unfold recordCount
      rw [List.countP_cons]
    · have hget2 : GoMap.get? m k = some r := by simpa [GoMap.get?, h1] using hget
      have ih2 := ih hnd2.2 hget2
      have hdel : GoMap.delete ((k1, v1) :: m) k = (k1, v1) :: GoMap.delete m k := by
        unfold GoMap.delete
        simp [List.filter_cons, h1]
      rw [hdel]
      unfold recordCount at ih2 ⊢
      rw [List.countP_cons, List.countP_cons, ih2]
      ring

/-! ## Effects of the operations -/

theorem DumpFullState_data (k : K8sStore R) (now : Int) (encErr : Option String) :
    (DumpFullState k now encErr).1.store.data = k.data := by
  simp only [DumpFullState]
  split_ifs <;> rfl

theorem DumpFullState_labelMap (k : K8sStore R) (now : Int) (encErr : Option String) :
    (DumpFullState k now encErr).1.store.labelMap = k.labelMap := by
  simp only [DumpFullState]
  split_ifs <;> rfl

theorem DumpFullState_ctor (k : K8sStore R) (now : Int) (encErr : Option String) :
    (DumpFullState k now encErr).1.store.resourceCtor = k.resourceCtor ∧
      (DumpFullState k now encErr).1.store.ctorConfig = k.ctorConfig := by
  simp only [DumpFullState]
  split_ifs <;> exact ⟨rfl, rfl⟩

theorem updateLabelMap_data (k : K8sStore R) (ns : String) (labels : Labels) (delta : Int) :
    (updateLabelMap k ns labels delta).data = k.data := rfl

theorem AddResource_eq (k : K8sStore R) (obj : Obj) (key ns : String) (labels : Labels)
    (h : resourceKey obj = some (key, ns, labels)) :
    AddResource k obj =
      some { store := updateLabelMap
               { k with data := GoMap.set k.data key (k.resourceCtor obj k.ctorConfig) } ns labels 1
             calls := [] } := by
  unfold AddResource AppendNewObject
  rw [h]

theorem DeleteResource_eq (k : K8sStore R) (obj : Obj) (now : Int) (encErr : Option String)
    (key ns : String) (labels : Labels) (h : deleteTarget obj = some (some (key, ns, labels))) :
    DeleteResource k obj now encErr =
      some (DumpFullState
        (updateLabelMap { k with data := GoMap.delete k.data key } ns labels (-1)) now encErr).1 := by
  unfold DeleteResource
  rw [h]

theorem addResourceLoop_cons (k : K8sStore R) (obj : Obj) (rest : List Obj) :
    addResourceLoop k (obj :: rest) =
      match applyCall k (.add obj) with
      | none => none
      | some k1 => addResourceLoop k1 rest := by
  unfold applyCall
  cases h : resourceKey obj with
  | none => simp [addResourceLoop, AddResource, h]
  | some t =>
    obtain ⟨key, ns, labels⟩ := t
    simp [addResourceLoop, AddResource_eq k obj key ns labels h, h]

/-! ## The label index is exact along well-formed event sequences -/

theorem labelHits_eq_carries [K8sResource R] (r : R) (ns : String) (labels : Labels)
    (key : LabelKey) (hns : K8sResource.Namespace r = ns) (hl : K8sResource.Labels r = labels)
    (hnd : (labels.map renderLabel).Nodup) :
    labelHits ns labels key = if carriesLabel r key then 1 else 0 := by
  rw [labelHits_of_nodup ns labels key hnd]
  unfold carriesLabel
  rw [hns, hl]
  by_cases h1 : ns = key.Namespace <;> by_cases h2 : key.Label ∈ labels.map renderLabel <;>
    simp [h1, h2]

theorem exact_add [K8sResource R] (k : K8sStore R) (obj : Obj) (hex : Exact k)
    (hok : addOk k obj = true) :
    ∃ k1, applyCall k (.add obj) = some k1 ∧ Exact k1 ∧
      k1.resourceCtor = k.resourceCtor ∧ k1.ctorConfig = k.ctorConfig := by
  unfold addOk metaCopied at hok
  cases h : resourceKey obj with
  | none => simp [h] at hok
  | some t =>
    obtain ⟨key, ns, labels⟩ := t
    simp only [h, Bool.and_eq_true, decide_eq_true_eq, Option.isNone_iff_eq_none] at hok
    obtain ⟨habs, ⟨hns, hl⟩, hnd⟩ := hok
    refine ⟨updateLabelMap
        { k with data := GoMap.set k.data key (k.resourceCtor obj k.ctorConfig) } ns labels 1,
      by simp [applyCall, AddResource_eq k obj key ns labels h], ?_, rfl, rfl⟩
    constructor
    · exact GoMap.nodup_keys_set_of_get_none _ hex.1 habs
    · intro lk
      rw [labelCount_updateLabelMap, updateLabelMap_data]
      simp only [GoMap.set_of_get_none _ habs]
      rw [recordCount_append_one, hex.2 lk,
        labelHits_eq_carries (k.resourceCtor obj k.ctorConfig) ns labels lk hns hl hnd]
      push_cast
      ring

theorem exact_delete [K8sResource R] (k : K8sStore R) (obj : Obj) (now : Int)
    (encErr : Option String) (hex : Exact k) (hok : deleteOk k obj = true) :
    ∃ k1, applyCall k (.delete obj now encErr) = some k1 ∧ Exact k1 ∧
      k1.resourceCtor = k.resourceCtor ∧ k1.ctorConfig = k.ctorConfig := by
  unfold deleteOk at hok
  cases h : deleteTarget obj with
  | none => simp [h] at hok
  | some t =>
    cases t with
    | none => simp [h] at hok
    | some t =>
      obtain ⟨key, ns, labels⟩ := t
      cases hg : GoMap.get? k.data key with
      | none => simp [h, hg] at hok
      | some r =>
        simp only [h, hg, Bool.and_eq_true, decide_eq_true_eq] at hok
        obtain ⟨⟨hns, hl⟩, hnd⟩ := hok
        refine ⟨(DumpFullState (updateLabelMap { k with data := GoMap.delete k.data key }
            ns labels (-1)) now encErr).1.store,
          by simp [applyCall, DeleteResource_eq k obj now encErr key ns labels h], ?_, ?_, ?_⟩
        · constructor
          · rw [DumpFullState_data, updateLabelMap_data]
            exact GoMap.nodup_keys_delete key hex.1
          · intro lk
            rw [DumpFullState_data, DumpFullState_labelMap, labelCount_updateLabelMap,
              updateLabelMap_data]
            have hrc := recordCount_delete k.data key r lk hex.1 hg
            rw [hex.2 lk, labelHits_eq_carries r ns labels lk hns hl hnd, hrc]
            push_cast
            ring
        · exact (DumpFullState_ctor _ now encErr).1
        · exact (DumpFullState_ctor _ now encErr).2

theorem exact_runCalls [K8sResource R] (calls : List Call) (k : K8sStore R) (hex : Exact k)
    (hwf : wellFormed k calls = true) :
    ∃ k1, runCalls k calls = some k1 ∧ Exact k1 := by
  induction calls generalizing k with
  | nil => exact ⟨k, rfl, hex⟩
  | cons c cs ih =>
    cases c with
    | add obj =>
      simp only [wellFormed, Bool.and_eq_true] at hwf
      obtain ⟨k1, hk1, hex1, -, -⟩ := exact_add k obj hex hwf.1
      have hwf2 := hwf.2
      rw [hk1] at hwf2
      obtain ⟨k2, hk2, hex2⟩ := ih k1 hex1 hwf2
      exact ⟨k2, by simp [runCalls, hk1, hk2], hex2⟩
    | delete obj now encErr =>
      simp only [wellFormed, Bool.and_eq_true] at hwf
      obtain ⟨k1, hk1, hex1, -, -⟩ := exact_delete k obj now encErr hex hwf.1
      have hwf2 := hwf.2
      rw [hk1] at hwf2
      obtain ⟨k2, hk2, hex2⟩ := ih k1 hex1 hwf2
      exact ⟨k2, by simp [runCalls, hk1, hk2], hex2⟩

/-! ## The loop of `AddResourceList` -/

theorem get_isSome_iff_mem_keys (m : GoMap String R) (key : String) :
    (GoMap.get? m key).isSome ↔ key ∈ GoMap.keys m := by
  have h := GoMap.get_eq_none_iff m key
  cases hg : GoMap.get? m key with
  | none =>
    rw [hg] at h
    simpa using h.1 rfl
  | some v =>
    rw [hg] at h
    simp only [Option.isSome_some, true_iff]
    by_contra hc
    exact absurd (h.2 hc) (by simp)

theorem metaCopied_congr [K8sResource R] (k k1 : K8sStore R) (obj : Obj)
    (hc : k1.resourceCtor = k.resourceCtor) (hcfg : k1.ctorConfig = k.ctorConfig) :
    metaCopied k1 obj = metaCopied k obj := by
  unfold metaCopied
  rw [hc, hcfg]

theorem addResourceLoop_total (lst : List Obj) (k : K8sStore R)
    (h : ∀ obj ∈ lst, (resourceKey obj).isSome = true) :
    ∃ k1, addResourceLoop k lst = some k1 ∧
      (∀ key, key ∈ GoMap.keys k1.data ↔
        key ∈ GoMap.keys k.data ∨ ∃ obj ∈ lst, keyOf obj = some key) ∧
      (∀ lk, (∀ obj ∈ lst, objCarries obj lk = false) →
        GoMap.get? k1.labelMap lk = GoMap.get? k.labelMap lk) := by
  induction lst generalizing k with
  | nil => exact ⟨k, rfl, by simp, fun _ _ => rfl⟩
  | cons o rest ih =>
    have ho := h o (List.mem_cons_self _ _)
    cases hk : resourceKey o with
    | none => simp [hk] at ho
    | some t =>
      obtain ⟨key, ns, labels⟩ := t
      obtain ⟨k1, hk1, hkeys, hlab⟩ :=
        ih (updateLabelMap { k with data := GoMap.set k.data key (k.resourceCtor o k.ctorConfig) }
          ns labels 1) (fun x hx => h x (List.mem_cons_of_mem _ hx))
      refine ⟨k1, by simp [addResourceLoop, hk, hk1], ?_, ?_⟩
      · intro key2
        rw [hkeys key2, updateLabelMap_data]
        simp only [GoMap.keys_set_mem, List.mem_cons, exists_eq_or_imp, keyOf, hk, Option.map_some',
          Option.some.injEq]
        constructor
        · rintro ((h1 | h1) | h1)
          · exact Or.inr (Or.inl h1.symm)
          · exact Or.inl h1
          · exact Or.inr (Or.inr h1)
        · rintro (h1 | h1 | h1)
          · exact Or.inl (Or.inr h1)
          · exact Or.inl (Or.inl h1.symm)
          · exact Or.inr h1
      · intro lk hno
        rw [hlab lk (fun x hx => hno x (List.mem_cons_of_mem _ hx))]
        have h0 := hno o (List.mem_cons_self _ _)
        unfold objCarries at h0
        simp only [hk, Bool.and_eq_false_imp, decide_eq_true_eq, decide_eq_false_iff_not] at h0
        unfold updateLabelMap
        apply get_foldl_bump_of_no_hit
        intro e he heq
        have hns : ns = lk.Namespace := by rw [← heq]
        apply h0 hns
        rw [← heq]
        exact List.mem_map.2 ⟨e, he, rfl⟩

theorem exact_addResourceLoop [K8sResource R] (lst : List Obj) (k : K8sStore R) (hex : Exact k)
    (hmeta : ∀ obj ∈ lst, metaCopied k obj = true)
    (hfresh : ∀ obj ∈ lst, ∀ key, keyOf obj = some key → GoMap.get? k.data key = none)
    (hnd : (lst.map keyOf).Nodup) :
    ∃ k1, addResourceLoop k lst = some k1 ∧ Exact k1 := by
  induction lst generalizing k with
  | nil => exact ⟨k, rfl, hex⟩
  | cons o rest ih =>
    have hm := hmeta o (List.mem_cons_self _ _)
    rw [List.map_cons, List.nodup_cons] at hnd
    cases hk : resourceKey o with
    | none => simp [metaCopied, hk] at hm
    | some t =>
      obtain ⟨key, ns, labels⟩ := t
      have hkey : keyOf o = some key := by simp [keyOf, hk]
      have habs := hfresh o (List.mem_cons_self _ _) key hkey
      have hok : addOk k o = true := by simp [addOk, hk, habs, hm]
      obtain ⟨k1, hk1, hex1, hc, hcfg⟩ := exact_add k o hex hok
      have hdata : k1.data = GoMap.set k.data key (k.resourceCtor o k.ctorConfig) := by
        simp [applyCall, AddResource_eq k o key ns labels hk] at hk1
        rw [← hk1, updateLabelMap_data]
      obtain ⟨k2, hk2, hex2⟩ := ih k1 hex1
        (fun x hx => by
          rw [metaCopied_congr k k1 x hc hcfg]
          exact hmeta x (List.mem_cons_of_mem _ hx))
        (fun x hx key2 hkey2 => by
          have hne : key2 ≠ key := by
            intro heq
            apply hnd.1
            rw [hkey, ← heq, ← hkey2]
            exact List.mem_map.2 ⟨x, hx, rfl⟩
          rw [hdata, GoMap.get_set_of_ne _ _ hne]
          exact hfresh x (List.mem_cons_of_mem _ hx) key2 hkey2)
        hnd.2
      exact ⟨k2, by rw [addResourceLoop_cons, hk1]; exact hk2, hex2⟩

/-! ## C1 -/

/-- Counterexample to C1 as stated: on a freshly created store two `AddResource`
calls for the same object leave one record in the data map, while the label
index counts its label twice. -/
theorem label_index_overcounts_repeated_add :
    ∃ out k, NewK8sStore sampleConfig sampleStoreConfig ⟨"minikube"⟩ none = some out ∧
      runCalls out.store [.add objA, .add objA] = some k ∧
      labelCount k.labelMap ⟨"default", "app=web"⟩ = 2 ∧
      recordCount k.data ⟨"default", "app=web"⟩ = 1 :=
  ⟨_, _, rfl, rfl, by decide, by decide⟩

/-- C1 (amended): for every sequence of `AddResource` and `DeleteResource` calls
applied to a freshly created store in which every add is for a key not
currently stored (with a converter that copies namespace and labels, and labels
that render to distinct texts) and every delete is for a stored key and carries
the namespace and labels of the stored record, the calls all return and, for
every namespace and label, the count in the label index (absent counting as 0)
equals the number of records in the data map that are in the namespace and
carry the label. -/
theorem label_index_exact_after_events [K8sResource R] (cfg : WatchConfig R)
    (storeConfig : StoreConfig) (ctorConfig : CtorConfig) (out : Outcome R) (calls : List Call)
    (hnew : NewK8sStore cfg storeConfig ctorConfig none = some out)
    (hwf : wellFormed out.store calls = true) :
    ∃ k, runCalls out.store calls = some k ∧
      ∀ key : LabelKey, labelCount k.labelMap key = (recordCount k.data key : Int) := by
  have hex : Exact out.store := by
    simp only [NewK8sStore, Option.some.injEq] at hnew
    subst hnew
    exact ⟨by simp [GoMap.keys], fun key => by simp [labelCount, recordCount, GoMap.get?]⟩
  obtain ⟨k, hk, hex1⟩ := exact_runCalls calls out.store hex hwf
  exact ⟨k, hk, hex1.2⟩

/-- Concrete run for C1 (amended): add `default/a`, add `default/b`, delete
`default/a` on a fresh store. -/
theorem label_index_exact_after_events_witness :
    (NewK8sStore sampleConfig sampleStoreConfig ⟨"minikube"⟩ none =
        some ⟨sampleStore, [StoreCall.mkdirAll ["/tmp/cache", "minikube"]]⟩ ∧
      wellFormed sampleStore [.add objA, .add objB, .delete objA sampleNow none] = true) ∧
    ∃ k, runCalls sampleStore [.add objA, .add objB, .delete objA sampleNow none] = some k ∧
      ∀ key : LabelKey, labelCount k.labelMap key = (recordCount k.data key : Int) :=
  ⟨⟨rfl, by decide⟩,
    label_index_exact_after_events sampleConfig sampleStoreConfig ⟨"minikube"⟩
      ⟨sampleStore, [StoreCall.mkdirAll ["/tmp/cache", "minikube"]]⟩
      [.add objA, .add objB, .delete objA sampleNow none] rfl (by decide)⟩

/-! ## C2 -/

/-- C2: for every prior store state and every list whose objects all have a key,
`AddResourceList` returns, and afterwards a key is present in the data map if
and only if it is the `resourceKey` of some object of the list, and a
(namespace, label) pair carried by no object of the list has no entry in the
label index. -/
theorem AddResourceList_replaces_state (k : K8sStore R) (lst : List Obj) (now : Int)
    (encErr : Option String) (hkey : ∀ obj ∈ lst, (resourceKey obj).isSome = true) :
    ∃ out, AddResourceList k lst now encErr = some out ∧
      (∀ key, (GoMap.get? out.store.data key).isSome = true ↔
        ∃ obj ∈ lst, keyOf obj = some key) ∧
      (∀ lk, (∀ obj ∈ lst, objCarries obj lk = false) →
        GoMap.get? out.store.labelMap lk = none) := by
  obtain ⟨k1, hk1, hkeys, hlab⟩ :=
    addResourceLoop_total lst (resetLabelMap { k with data := [] }) hkey
  refine ⟨(DumpFullState k1 now encErr).1, by simp [AddResourceList, hk1], ?_, ?_⟩
  · intro key
    rw [DumpFullState_data, get_isSome_iff_mem_keys, hkeys key]
    simp [resetLabelMap, GoMap.keys]
  · intro lk hno
    rw [DumpFullState_labelMap, hlab lk hno]
    rfl

/-- Concrete run for C2: the store holds `default/a` and `default/b`, the list
holds `default/a` only; afterwards `default_b` is absent and so is the count of
`tier=db`, the label only `default/b` carries. -/
theorem AddResourceList_replaces_state_witness :
    (∀ obj ∈ [objA], (resourceKey obj).isSome = true) ∧
    (∃ out, AddResourceList (sampleStoreAB 0) [objA] sampleNow none = some out ∧
      (∀ key, (GoMap.get? out.store.data key).isSome = true ↔
        ∃ obj ∈ [objA], keyOf obj = some key) ∧
      (∀ lk, (∀ obj ∈ [objA], objCarries obj lk = false) →
        GoMap.get? out.store.labelMap lk = none)) ∧
    (AddResourceList (sampleStoreAB 0) [objA] sampleNow none).map
        (fun out => (GoMap.get? out.store.data "default_a", GoMap.get? out.store.data "default_b",
          GoMap.get? out.store.labelMap ⟨"default", "tier=db"⟩)) =
      some (some recA, none, none) :=
  ⟨by decide, AddResourceList_replaces_state (sampleStoreAB 0) [objA] sampleNow none (by decide),
    by decide⟩

/-! ## C3 -/

/-- Counterexample to C3 as stated: a list holding the same object twice leaves
one record in the data map, while the rebuilt label index counts its label
twice. -/
theorem AddResourceList_overcounts_duplicates :
    (AddResourceList sampleStore [objA, objA] sampleNow none).map
        (fun out => (labelCount out.store.labelMap ⟨"default", "app=web"⟩,
          recordCount out.store.data ⟨"default", "app=web"⟩)) =
      some (2, 1) := by
  decide

/-- C3 (amended): for every list whose objects have pairwise distinct keys (and
are converted with namespace and labels copied, their labels rendering to
distinct texts), `AddResourceList` returns and afterwards, for every namespace
and label, the count in the label index equals the number of entries of the
resulting data map that are in the namespace and carry the label. -/
theorem AddResourceList_label_index_exact [K8sResource R] (k : K8sStore R) (lst : List Obj)
    (now : Int) (encErr : Option String)
    (hmeta : ∀ obj ∈ lst, metaCopied k obj = true)
    (hkeys : (lst.map keyOf).Nodup) :
    ∃ out, AddResourceList k lst now encErr = some out ∧
      ∀ key : LabelKey,
        labelCount out.store.labelMap key = (recordCount out.store.data key : Int) := by
  have hex : Exact (resetLabelMap { k with data := [] }) :=
    ⟨by simp [resetLabelMap, GoMap.keys],
      fun key => by simp [resetLabelMap, labelCount, recordCount, GoMap.get?]⟩
  obtain ⟨k1, hk1, hex1⟩ := exact_addResourceLoop lst (resetLabelMap { k with data := [] }) hex
    (fun x hx => by
      rw [metaCopied_congr k (resetLabelMap { k with data := [] }) x rfl rfl]
      exact hmeta x hx)
    (fun _ _ _ _ => rfl) hkeys
  refine ⟨(DumpFullState k1 now encErr).1, by simp [AddResourceList, hk1], ?_⟩
  intro key
  rw [DumpFullState_data, DumpFullState_labelMap]
  exact hex1.2 key

/-- Concrete run for C3 (amended): the list holds `default/a` and `default/b`. -/
theorem AddResourceList_label_index_exact_witness :
    ((∀ obj ∈ [objA, objB], metaCopied (sampleStoreAB 0) obj = true) ∧
      ([objA, objB].map keyOf).Nodup) ∧
    ∃ out, AddResourceList (sampleStoreAB 0) [objA, objB] sampleNow none = some out ∧
      ∀ key : LabelKey,
        labelCount out.store.labelMap key = (recordCount out.store.data key : Int) :=
  ⟨⟨by decide, by decide⟩,
    AddResourceList_label_index_exact (sampleStoreAB 0) [objA, objB] sampleNow none
      (by decide) (by decide)⟩

/-! ## C4 -/

theorem timeSub_lt_iff (t u d : Int) (hlo : minDuration < d) (hhi : d ≤ maxDuration) :
    timeSub t u < d ↔ t - u < d := by
  unfold timeSub
  split_ifs with h1 h2
  · constructor
    · intro _; omega
    · intro _; exact hlo
  · constructor
    · intro h; omega
    · intro h; omega
  · exact Iff.rfl

/-- C4: for every store state and clock value, `DumpFullState` behaves as
follows. If `now.Sub(lastFullDump)` (Go's saturating difference, which compares
with `TimeBetweenFullDump` as the exact difference does whenever
`TimeBetweenFullDump` is above the smallest duration) is below
`TimeBetweenFullDump`, it returns no error, makes no file-system call and leaves
the store, `lastFullDump` included, unchanged. Otherwise it makes exactly one
call, `EncodeToFile` of the current data map to `destDir/<resourceName>_resource`,
sets `lastFullDump` to `now`, changes nothing else and returns the error of that
call. In neither case does it change the data map or the label index. -/
theorem DumpFullState_debounced (k : K8sStore R) (now : Int) (encErr : Option String) :
    (timeSub now k.lastFullDump < k.storeConfig.TimeBetweenFullDump →
      DumpFullState k now encErr = ({ store := k, calls := [] }, none)) ∧
    (¬ timeSub now k.lastFullDump < k.storeConfig.TimeBetweenFullDump →
      (DumpFullState k now encErr).1.calls =
          [StoreCall.encodeToFile k.data (k.destDir ++ [k.resourceName ++ "_" ++ "resource"])] ∧
        (DumpFullState k now encErr).1.store = { k with lastFullDump := now } ∧
        (DumpFullState k now encErr).2 = encErr) ∧
    (DumpFullState k now encErr).1.store.data = k.data ∧
    (DumpFullState k now encErr).1.store.labelMap = k.labelMap ∧
    (minDuration < k.storeConfig.TimeBetweenFullDump →
      k.storeConfig.TimeBetweenFullDump ≤ maxDuration →
      (timeSub now k.lastFullDump < k.storeConfig.TimeBetweenFullDump ↔
        now - k.lastFullDump < k.storeConfig.TimeBetweenFullDump)) := by
  refine ⟨?_, ?_, DumpFullState_data k now encErr, DumpFullState_labelMap k now encErr,
    fun hlo hhi => timeSub_lt_iff _ _ _ hlo hhi⟩
  · intro h
    simp only [DumpFullState, h, if_true]
  · intro h
    have hd : DumpFullState k now encErr =
        ({ store := { k with lastFullDump := now }
           calls := [StoreCall.encodeToFile k.data (getFilePath k "resource")] }, encErr) := by
      simp only [DumpFullState, h, if_false]
      rfl
    rw [hd]
    exact ⟨rfl, rfl, rfl⟩

/-- Concrete runs for C4: the sample store holding two records, dumped one second
ago (debounced) and eleven seconds ago (written). -/
theorem DumpFullState_debounced_witness :
    (timeSub sampleNow (sampleNow - 1000000000) < 10000000000 ∧
      DumpFullState (sampleStoreAB (sampleNow - 1000000000)) sampleNow none =
        ({ store := sampleStoreAB (sampleNow - 1000000000), calls := [] }, none)) ∧
    (¬ timeSub sampleNow (sampleNow - 11000000000) < 10000000000 ∧
      (DumpFullState (sampleStoreAB (sampleNow - 11000000000)) sampleNow (some "disk full")).1.calls =
        [StoreCall.encodeToFile [("default_a", recA), ("default_b", recB)]
          ["/tmp/cache", "minikube", "replicasets_resource"]] ∧
      (DumpFullState (sampleStoreAB (sampleNow - 11000000000)) sampleNow
        (some "disk full")).1.store.lastFullDump = sampleNow ∧
      (DumpFullState (sampleStoreAB (sampleNow - 11000000000)) sampleNow (some "disk full")).2 =
        some "disk full") :=
  ⟨⟨by decide,
      (DumpFullState_debounced (sampleStoreAB (sampleNow - 1000000000)) sampleNow none).1
        (by decide)⟩,
    by decide,
    ((DumpFullState_debounced (sampleStoreAB (sampleNow - 11000000000)) sampleNow
      (some "disk full")).2.1 (by decide)).1,
    by rw [((DumpFullState_debounced (sampleStoreAB (sampleNow - 11000000000)) sampleNow
      (some "disk full")).2.1 (by decide)).2.1],
    ((DumpFullState_debounced (sampleStoreAB (sampleNow - 11000000000)) sampleNow
      (some "disk full")).2.1 (by decide)).2.2⟩

/-! ## C5 -/

theorem DumpFullState_storeConfig (k : K8sStore R) (now : Int) (encErr : Option String) :
    (DumpFullState k now encErr).1.store.storeConfig = k.storeConfig := by
  simp only [DumpFullState]
  split_ifs <;> rfl

theorem le_sub_of_not_timeSub_lt (t u d : Int) (hle : u ≤ t) (h : ¬ timeSub t u < d) :
    u + d ≤ t := by
  unfold timeSub at h
  have hmin : minDuration < 0 := by decide
  split_ifs at h with h1 h2
  · omega
  · omega
  · omega

theorem dumpWriteTimes_cons (k : K8sStore R) (now : Int) (encErr : Option String)
    (rest : List (Int × Option String)) :
    dumpWriteTimes k ((now, encErr) :: rest) =
      if timeSub now k.lastFullDump < k.storeConfig.TimeBetweenFullDump then
        dumpWriteTimes k rest
      else now :: dumpWriteTimes { k with lastFullDump := now } rest := by
  by_cases h : timeSub now k.lastFullDump < k.storeConfig.TimeBetweenFullDump
  · simp [dumpWriteTimes, DumpFullState, h]
  · simp [dumpWriteTimes, DumpFullState, h]

theorem dumpWriteTimes_after_last (calls : List (Int × Option String)) (k : K8sStore R)
    (hsorted : List.Pairwise (fun a b => a.1 ≤ b.1) calls)
    (hlast : ∀ c ∈ calls, k.lastFullDump ≤ c.1) :
    (∀ t ∈ dumpWriteTimes k calls, k.lastFullDump + k.storeConfig.TimeBetweenFullDump ≤ t) ∧
      List.Pairwise (fun t1 t2 => t1 + k.storeConfig.TimeBetweenFullDump ≤ t2)
        (dumpWriteTimes k calls) := by
  induction calls generalizing k with
  | nil => simp [dumpWriteTimes]
  | cons c rest ih =>
    obtain ⟨now, encErr⟩ := c
    rw [List.pairwise_cons] at hsorted
    rw [dumpWriteTimes_cons]
    have hnow : k.lastFullDump ≤ now := hlast (now, encErr) (List.mem_cons_self _ _)
    split_ifs with h
    · exact ih k hsorted.2 (fun c hc => hlast c (List.mem_cons_of_mem _ hc))
    · have hgap := le_sub_of_not_timeSub_lt now k.lastFullDump _ hnow h
      obtain ⟨h1, h2⟩ := ih { k with lastFullDump := now } hsorted.2
        (fun c hc => hsorted.1 c hc)
      constructor
      · intro t ht
        rcases List.mem_cons.1 ht with ht | ht
        · rw [ht]; exact hgap
        · have := h1 t ht
          simp only at this
          omega
      · exact List.pairwise_cons.2 ⟨fun t ht => h1 t ht, h2⟩

theorem dumpWriteTimes_spaced (calls : List (Int × Option String)) (k : K8sStore R)
    (hsorted : List.Pairwise (fun a b => a.1 ≤ b.1) calls) :
    List.Pairwise (fun t1 t2 => t1 + k.storeConfig.TimeBetweenFullDump ≤ t2)
      (dumpWriteTimes k calls) := by
  induction calls generalizing k with
  | nil => simp [dumpWriteTimes]
  | cons c rest ih =>
    obtain ⟨now, encErr⟩ := c
    rw [List.pairwise_cons] at hsorted
    rw [dumpWriteTimes_cons]
    split_ifs with h
    · exact ih k hsorted.2
    · obtain ⟨h1, h2⟩ := dumpWriteTimes_after_last rest { k with lastFullDump := now } hsorted.2
        (fun c hc => hsorted.1 c hc)
      exact List.pairwise_cons.2 ⟨fun t ht => h1 t ht, h2⟩

/-- C5: in every sequence of `DumpFullState` calls on one store made at
non-decreasing clock values, any two calls that both reach `EncodeToFile` are
at least `TimeBetweenFullDump` apart; and on a freshly created store (with
`TimeBetweenFullDump` a `time.Duration` and a clock at or after the Unix epoch)
two calls at times `t1 ≤ t2` with `t2 - t1 < TimeBetweenFullDump` make exactly
one write, the first. -/
theorem full_dumps_spaced :
    (∀ (R : Type) (k : K8sStore R) (calls : List (Int × Option String)),
      List.Pairwise (fun a b => a.1 ≤ b.1) calls →
      List.Pairwise (fun t1 t2 => t1 + k.storeConfig.TimeBetweenFullDump ≤ t2)
        (dumpWriteTimes k calls)) ∧
    (∀ (R : Type) (cfg : WatchConfig R) (storeConfig : StoreConfig) (ctorConfig : CtorConfig)
      (out : Outcome R) (t1 t2 : Int) (e1 e2 : Option String),
      NewK8sStore cfg storeConfig ctorConfig none = some out →
      storeConfig.TimeBetweenFullDump ≤ maxDuration → unixEpoch ≤ t1 → t1 ≤ t2 →
      t2 - t1 < storeConfig.TimeBetweenFullDump →
      dumpWriteTimes out.store [(t1, e1), (t2, e2)] = [t1]) := by
  refine ⟨fun R k calls hs => dumpWriteTimes_spaced calls k hs, ?_⟩
  intro R cfg storeConfig ctorConfig out t1 t2 e1 e2 hnew hmax hepoch hle hlt
  simp only [NewK8sStore, Option.some.injEq] at hnew
  subst hnew
  have hep : maxDuration < unixEpoch := by decide
  have hmin : minDuration < 0 := by decide
  have hmx : 0 < maxDuration := by decide
  have hfirst : ¬ timeSub t1 0 < storeConfig.TimeBetweenFullDump := by
    unfold timeSub
    split_ifs with h1 h2 <;> omega
  have hsecond : timeSub t2 t1 < storeConfig.TimeBetweenFullDump := by
    unfold timeSub
    split_ifs with h1 h2 <;> omega
  rw [dumpWriteTimes_cons]
  simp only [hfirst, if_false]
  rw [dumpWriteTimes_cons]
  simp only [hsecond, if_true, dumpWriteTimes]

/-- Concrete runs for C5: on the sample store (ten seconds between full dumps),
calls at seconds 0, 4, 12 and 13 of the sample clock write at 0 and 12; on a
fresh store two calls four seconds apart write once. -/
theorem full_dumps_spaced_witness :
    (List.Pairwise (fun a b : Int × Option String => a.1 ≤ b.1)
        [(sampleNow, none), (sampleNow + 4000000000, none), (sampleNow + 12000000000, none),
          (sampleNow + 13000000000, none)] ∧
      dumpWriteTimes sampleStore
          [(sampleNow, none), (sampleNow + 4000000000, none), (sampleNow + 12000000000, none),
            (sampleNow + 13000000000, none)] = [sampleNow, sampleNow + 12000000000] ∧
      List.Pairwise (fun t1 t2 => t1 + sampleStore.storeConfig.TimeBetweenFullDump ≤ t2)
        (dumpWriteTimes sampleStore
          [(sampleNow, none), (sampleNow + 4000000000, none), (sampleNow + 12000000000, none),
            (sampleNow + 13000000000, none)])) ∧
    dumpWriteTimes sampleStore [(sampleNow, none), (sampleNow + 4000000000, some "disk full")] =
      [sampleNow] :=
  ⟨⟨by decide, by decide,
      full_dumps_spaced.1 ReplicaSet sampleStore _ (by decide)⟩,
    full_dumps_spaced.2 ReplicaSet sampleConfig sampleStoreConfig ⟨"minikube"⟩
      ⟨sampleStore, [StoreCall.mkdirAll ["/tmp/cache", "minikube"]]⟩
      sampleNow (sampleNow + 4000000000) none (some "disk full") rfl (by decide) (by decide)
      (by decide) (by decide)⟩

/-! ## C6 -/

/-- Counterexample to C6 as stated: `default_a` is already stored, and `AddResource`
of `default/a` still raises the count of its label `app=web` from 2 to 3. -/
theorem AddResource_recounts_present_key :
    (GoMap.get? (sampleStoreAB 0).data "default_a").isSome = true ∧
    labelCount (sampleStoreAB 0).labelMap ⟨"default", "app=web"⟩ = 2 ∧
    (AddResource (sampleStoreAB 0) objA).map
        (fun out => labelCount out.store.labelMap ⟨"default", "app=web"⟩) = some 3 := by
  decide

/-- C6 (amended): for every store state and object with key `key`, `AddResource`
returns; afterwards the data map holds the converted record under `key` and
every other key is unchanged; and, whether or not `key` was present before, the
count of every (namespace, label) pair grows by the number of labels of the
object indexed under it, which, when the labels of the object render to
distinct texts, is exactly 1 for each label of the object in the namespace of
the object and 0 for every other pair. -/
theorem AddResource_effect (k : K8sStore R) (obj : Obj) (key ns : String) (labels : Labels)
    (h : resourceKey obj = some (key, ns, labels)) :
    ∃ out, AddResource k obj = some out ∧
      GoMap.get? out.store.data key = some (k.resourceCtor obj k.ctorConfig) ∧
      (∀ key2, key2 ≠ key → GoMap.get? out.store.data key2 = GoMap.get? k.data key2) ∧
      (∀ lk, labelCount out.store.labelMap lk =
        labelCount k.labelMap lk + (labelHits ns labels lk : Int)) ∧
      ((labels.map renderLabel).Nodup → ∀ lk, labelCount out.store.labelMap lk =
        labelCount k.labelMap lk +
          (if ns = lk.Namespace ∧ lk.Label ∈ labels.map renderLabel then 1 else 0)) := by
  refine ⟨_, AddResource_eq k obj key ns labels h, ?_, ?_, ?_, ?_⟩
  · exact GoMap.get_set_self _ _ _
  · intro key2 hne
    exact GoMap.get_set_of_ne _ _ hne
  · intro lk
    rw [labelCount_updateLabelMap]
    ring
  · intro hnd lk
    rw [labelCount_updateLabelMap, labelHits_of_nodup ns labels lk hnd]
    split_ifs <;> simp

/-- Concrete runs for C6 (amended): `default/b` is added to a fresh store and to
the store that already holds it. -/
theorem AddResource_effect_witness :
    resourceKey objB = some ("default_b", "default", [("app", "web"), ("tier", "db")]) ∧
    (∃ out, AddResource sampleStore objB = some out ∧
      GoMap.get? out.store.data "default_b" = some recB ∧
      labelCount out.store.labelMap ⟨"default", "tier=db"⟩ = 1) ∧
    (∃ out, AddResource (sampleStoreAB 0) objB = some out ∧
      GoMap.get? out.store.data "default_a" = some recA ∧
      labelCount out.store.labelMap ⟨"default", "tier=db"⟩ = 2) := by
  refine ⟨rfl, ?_, ?_⟩
  · obtain ⟨out, h1, h2, -, -, h5⟩ := AddResource_effect sampleStore objB "default_b" "default"
      [("app", "web"), ("tier", "db")] rfl
    refine ⟨out, h1, h2, ?_⟩
    rw [h5 (by decide)]
    decide
  · obtain ⟨out, h1, -, h3, -, h5⟩ := AddResource_effect (sampleStoreAB 0) objB "default_b"
      "default" [("app", "web"), ("tier", "db")] rfl
    refine ⟨out, h1, ?_, ?_⟩
    · rw [h3 "default_a" (by decide)]
      rfl
    · rw [h5 (by decide)]
      decide

/-! ## C7 -/

/-- C7: for every store state and call `UpdateResource(old, new)` where the key of
`new` is present in the data map (and `HasChanged` of the converted new record
against the stored record returns), the call returns and does not modify the
label index. If `HasChanged` is false, the store (data map, label index,
`lastFullDump`) is unchanged and no file-system call is made. If it is true, the
converted record is stored under the key, every other key is unchanged, and the
result is that of `DumpFullState` (debounced) on the updated store. -/
theorem UpdateResource_effect [K8sResource R] (k : K8sStore R) (oldObj newObj : Obj) (now : Int)
    (encErr : Option String) (key ns : String) (labels : Labels) (stored : R) (changed : Bool)
    (h : resourceKey newObj = some (key, ns, labels))
    (hpresent : GoMap.get? k.data key = some stored)
    (hc : K8sResource.HasChanged (k.resourceCtor newObj k.ctorConfig) (some stored) =
      some changed) :
    ∃ out, UpdateResource k oldObj newObj now encErr = some out ∧
      out.store.labelMap = k.labelMap ∧
      (changed = false → out.store = k ∧ out.calls = []) ∧
      (changed = true →
        GoMap.get? out.store.data key = some (k.resourceCtor newObj k.ctorConfig) ∧
        (∀ key2, key2 ≠ key → GoMap.get? out.store.data key2 = GoMap.get? k.data key2) ∧
        out = (DumpFullState
          { k with data := GoMap.set k.data key (k.resourceCtor newObj k.ctorConfig) }
          now encErr).1) := by
  cases changed with
  | false =>
    refine ⟨{ store := k, calls := [] }, by simp [UpdateResource, h, hpresent, hc], rfl,
      fun _ => ⟨rfl, rfl⟩, fun hf => by simp at hf⟩
  | true =>
    refine ⟨(DumpFullState
        { k with data := GoMap.set k.data key (k.resourceCtor newObj k.ctorConfig) }
        now encErr).1, by simp [UpdateResource, h, hpresent, hc], ?_, fun hf => by simp at hf,
      fun _ => ⟨?_, ?_, rfl⟩⟩
    · rw [DumpFullState_labelMap]
    · rw [DumpFullState_data]
      exact GoMap.get_set_self _ _ _
    · intro key2 hne
      rw [DumpFullState_data]
      exact GoMap.get_set_of_ne _ _ hne

/-- Concrete runs for C7. First, `default/a` is stored with one replica and
updated to three replicas, eleven seconds after the last full dump: the record
is replaced and a dump is made. Second, the stored record of `default/a` has the
same replica counts as the update but other labels and selectors, for which
`HasChanged` of `ReplicaSet` is false: nothing changes. -/
theorem UpdateResource_effect_witness :
    ((resourceKey objA3 = some ("default_a", "default", [("app", "web")]) ∧
        GoMap.get? (sampleStoreAB (sampleNow - 11000000000)).data "default_a" = some recA ∧
        K8sResource.HasChanged (sampleCtor objA3 ⟨"minikube"⟩) (some recA) = some true) ∧
      ∃ out, UpdateResource (sampleStoreAB (sampleNow - 11000000000)) objA objA3 sampleNow none =
          some out ∧
        out.store.labelMap = (sampleStoreAB (sampleNow - 11000000000)).labelMap ∧
        GoMap.get? out.store.data "default_a" = some { recA with
          replicas := "3", readyReplicas := "3", availableReplicas := "3" } ∧
        GoMap.get? out.store.data "default_b" = some recB ∧
        out.store.lastFullDump = sampleNow) ∧
    ((resourceKey objA = some ("default_a", "default", [("app", "web")]) ∧
        GoMap.get? sampleStoreOld.data "default_a" = some recAOld ∧
        K8sResource.HasChanged (sampleCtor objA ⟨"minikube"⟩) (some recAOld) = some false) ∧
      ∃ out, UpdateResource sampleStoreOld objA objA sampleNow none = some out ∧
        out.store = sampleStoreOld ∧ out.calls = []) := by
  refine ⟨⟨⟨rfl, rfl, by decide⟩, ?_⟩, ⟨⟨rfl, rfl, by decide⟩, ?_⟩⟩
  · obtain ⟨out, h1, h2, -, h4⟩ := UpdateResource_effect
      (sampleStoreAB (sampleNow - 11000000000)) objA objA3 sampleNow none "default_a" "default"
      [("app", "web")] recA true rfl rfl (by decide)
    obtain ⟨h5, h6, h7⟩ := h4 rfl
    refine ⟨out, h1, h2, h5, ?_, ?_⟩
    · rw [h6 "default_b" (by decide)]
      rfl
    · rw [h7]
      decide
  · obtain ⟨out, h1, -, h3, -⟩ := UpdateResource_effect sampleStoreOld objA objA sampleNow none
      "default_a" "default" [("app", "web")] recAOld false rfl rfl (by decide)
    obtain ⟨h5, h6⟩ := h3 rfl
    exact ⟨out, h1, h5, h6⟩

/-! ## C8 -/

/-- Counterexample to C8 as stated: `default_a` is not stored, and `DeleteResource`
of `default/a` still lowers the count of its label `app=web` from 0 to -1. -/
theorem DeleteResource_decrements_absent_key :
    GoMap.get? sampleStore.data "default_a" = none ∧
    labelCount sampleStore.labelMap ⟨"default", "app=web"⟩ = 0 ∧
    (DeleteResource sampleStore objA sampleNow none).map
        (fun out => labelCount out.store.labelMap ⟨"default", "app=web"⟩) = some (-1) := by
  decide

/-- C8 (amended): for every store state and delete event that the type switch of
`DeleteResource` resolves to a key `key` with namespace `ns` and labels `labels`
(an `ObjectMetaAccessor`, or a `DeletedFinalStateUnknown` wrapping an object),
`DeleteResource` returns; afterwards `key` is absent from the data map and every
other key maps to the same record as before; and, whether or not `key` was
present, the count of every (namespace, label) pair drops by the number of
labels of the event's object indexed under it, which, when those labels render
to distinct texts, is exactly 1 for each label of the event's object in its
namespace and 0 for every other pair. -/
theorem DeleteResource_effect (k : K8sStore R) (obj : Obj) (now : Int) (encErr : Option String)
    (key ns : String) (labels : Labels)
    (h : deleteTarget obj = some (some (key, ns, labels))) :
    ∃ out, DeleteResource k obj now encErr = some out ∧
      GoMap.get? out.store.data key = none ∧
      (∀ key2, key2 ≠ key → GoMap.get? out.store.data key2 = GoMap.get? k.data key2) ∧
      (∀ lk, labelCount out.store.labelMap lk =
        labelCount k.labelMap lk - (labelHits ns labels lk : Int)) ∧
      ((labels.map renderLabel).Nodup → ∀ lk, labelCount out.store.labelMap lk =
        labelCount k.labelMap lk -
          (if ns = lk.Namespace ∧ lk.Label ∈ labels.map renderLabel then 1 else 0)) := by
  refine ⟨_, DeleteResource_eq k obj now encErr key ns labels h, ?_, ?_, ?_, ?_⟩
  · rw [DumpFullState_data]
    exact GoMap.get_delete_self _ _
  · intro key2 hne
    rw [DumpFullState_data]
    exact GoMap.get_delete_of_ne _ hne
  · intro lk
    rw [DumpFullState_labelMap, labelCount_updateLabelMap]
    ring
  · intro hnd lk
    rw [DumpFullState_labelMap, labelCount_updateLabelMap, labelHits_of_nodup ns labels lk hnd]
    split_ifs
    · push_cast
      ring
    · simp

/-- Concrete runs for C8 (amended): `default/a` is deleted from the store holding
`default/a` and `default/b`, once delivered as the object itself and once
wrapped in a `DeletedFinalStateUnknown`. -/
theorem DeleteResource_effect_witness :
    (deleteTarget objA = some (some ("default_a", "default", [("app", "web")])) ∧
      ∃ out, DeleteResource (sampleStoreAB 0) objA sampleNow none = some out ∧
        GoMap.get? out.store.data "default_a" = none ∧
        GoMap.get? out.store.data "default_b" = some recB ∧
        labelCount out.store.labelMap ⟨"default", "app=web"⟩ = 1 ∧
        labelCount out.store.labelMap ⟨"default", "tier=db"⟩ = 1) ∧
    (deleteTarget (.deletedFinalStateUnknown "default/a" objA) =
        some (some ("default_a", "default", [("app", "web")])) ∧
      ∃ out, DeleteResource (sampleStoreAB 0) (.deletedFinalStateUnknown "default/a" objA)
          sampleNow none = some out ∧
        GoMap.get? out.store.data "default_a" = none ∧
        labelCount out.store.labelMap ⟨"default", "app=web"⟩ = 1) := by
  refine ⟨⟨rfl, ?_⟩, ⟨rfl, ?_⟩⟩
  · obtain ⟨out, h1, h2, h3, -, h5⟩ := DeleteResource_effect (sampleStoreAB 0) objA sampleNow none
      "default_a" "default" [("app", "web")] rfl
    refine ⟨out, h1, h2, ?_, ?_, ?_⟩
    · rw [h3 "default_b" (by decide)]
      rfl
    · rw [h5 (by decide)]
      decide
    · rw [h5 (by decide)]
      decide
  · obtain ⟨out, h1, h2, -, -, h5⟩ := DeleteResource_effect (sampleStoreAB 0)
      (.deletedFinalStateUnknown "default/a" objA) sampleNow none
      "default_a" "default" [("app", "web")] rfl
    refine ⟨out, h1, h2, ?_⟩
    rw [h5 (by decide)]
    decide

/-! ## C9 -/

/-- C9 fails on the code: `AddResource` never makes a file-system call, because
`AppendNewObject` has no body left; in particular, adding `default/a`, whose key
is not stored, to the sample store writes nothing. -/
theorem AddResource_writes_nothing :
    (∀ (R : Type) (k : K8sStore R) (obj : Obj) (out : Outcome R),
      AddResource k obj = some out → out.calls = []) ∧
    GoMap.get? sampleStore.data "default_a" = none ∧
    (AddResource sampleStore objA).map (fun out => out.calls.length) = some 0 := by
  refine ⟨?_, rfl, rfl⟩
  intro R k obj out h
  cases hk : resourceKey obj with
  | none => simp [AddResource, hk] at h
  | some t =>
    obtain ⟨key, ns, labels⟩ := t
    rw [AddResource_eq k obj key ns labels hk] at h
    simp only [Option.some.injEq] at h
    rw [← h]

/-! ## C10 -/

/-- C10: for every resource type whose cache file exists with a modification age
of at most `minimumCache`, `checkLocalCache` returns what `LoadGobFromFile`
decodes from that file (and its error), and the only calls it makes are the
`os.Stat` and the decoding of the cache file: no network request, and no read
of the `lastModified` file. -/
theorem checkLocalCache_fresh_file (env : FetcherEnv R) (f : Fetcher) (endpoint r : String)
    (modTime : Int)
    (hstat : env.Stat [f.fetcherCachePath, f.context, r] = some modTime)
    (hage : timeSub env.now modTime ≤ f.minimumCache) :
    (checkLocalCache env f endpoint r).resources =
        some (env.LoadGobFromFile [f.fetcherCachePath, f.context, r] []).1 ∧
      (checkLocalCache env f endpoint r).err =
        (env.LoadGobFromFile [f.fetcherCachePath, f.context, r] []).2 ∧
      (checkLocalCache env f endpoint r).calls =
        [.stat [f.fetcherCachePath, f.context, r], .loadGob [f.fetcherCachePath, f.context, r]] ∧
      (∀ c ∈ (checkLocalCache env f endpoint r).calls, c.isNetwork = false) ∧
      (∀ p, FetchCall.fileExists p ∉ (checkLocalCache env f endpoint r).calls ∧
        FetchCall.readFile p ∉ (checkLocalCache env f endpoint r).calls) := by
  have hc : checkLocalCache env f endpoint r =
      { resources := some (env.LoadGobFromFile [f.fetcherCachePath, f.context, r] []).1
        err := (env.LoadGobFromFile [f.fetcherCachePath, f.context, r] []).2
        calls := [.stat [f.fetcherCachePath, f.context, r],
          .loadGob [f.fetcherCachePath, f.context, r]] } := by
    simp only [checkLocalCache, hstat, hage, if_true]
  rw [hc]
  refine ⟨rfl, rfl, rfl, ?_, ?_⟩
  · intro c hcm
    simp only [List.mem_cons, List.mem_singleton, List.not_mem_nil, or_false] at hcm
    rcases hcm with hcm | hcm <;> rw [hcm] <;> rfl
  · intro p
    simp

/-- Concrete run for C10: `minimumCache` is five minutes and the cache file is one
minute old. -/
theorem checkLocalCache_fresh_file_witness :
    ((sampleEnv 60000000000).Stat ["/tmp/fetcher", "minikube", "replicasets"] =
        some (sampleNow - 60000000000) ∧
      timeSub (sampleEnv 60000000000).now (sampleNow - 60000000000) ≤
        sampleFetcher.minimumCache) ∧
    (checkLocalCache (sampleEnv 60000000000) sampleFetcher "http://server" "replicasets").resources =
      some [("default_a", recA)] ∧
    (checkLocalCache (sampleEnv 60000000000) sampleFetcher "http://server" "replicasets").err =
      none ∧
    (checkLocalCache (sampleEnv 60000000000) sampleFetcher "http://server" "replicasets").calls =
      [.stat ["/tmp/fetcher", "minikube", "replicasets"],
        .loadGob ["/tmp/fetcher", "minikube", "replicasets"]] :=
  have h := checkLocalCache_fresh_file (sampleEnv 60000000000) sampleFetcher "http://server"
    "replicasets" (sampleNow - 60000000000) (by decide) (by decide)
  ⟨⟨by decide, by decide⟩, h.1, h.2.1, h.2.2.1⟩

/-! ## C11 -/

theorem loadLastModifiedTimes_calls_local (env : FetcherEnv R) (f : Fetcher) :
    ∀ c ∈ (loadLastModifiedTimes env f).2, c.isNetwork = false := by
  intro c hc
  simp only [loadLastModifiedTimes] at hc
  split_ifs at hc
  · simp only [List.mem_singleton] at hc
    rw [hc]; rfl
  · split at hc <;>
      (simp only [List.mem_cons, List.mem_singleton, List.not_mem_nil, or_false] at hc
       rcases hc with hc | hc <;> rw [hc] <;> rfl)

/-- C11: for every resource type whose cache file exists with an age above
`minimumCache` and whose `lastModified` map loads without error: if the map has
an entry for the type, the metadata request succeeds and its `Last-Modified`
header parses to a time equal to the entry, `checkLocalCache` returns what
`LoadGobFromFile` decodes from the cache file and makes no full-content request;
if it parses to a different time, it returns a nil map and a nil error. If the
map has no entry for the type, it makes no metadata request and returns a nil
map and a nil error. -/
theorem checkLocalCache_stale_file (env : FetcherEnv R) (f : Fetcher) (endpoint r : String)
    (modTime : Int) (times : Option (GoMap String Int)) (loadCalls : List FetchCall)
    (hstat : env.Stat [f.fetcherCachePath, f.context, r] = some modTime)
    (hage : f.minimumCache < timeSub env.now modTime)
    (hload : loadLastModifiedTimes env f = ((times, none), loadCalls)) :
    (∀ (stored : Int) (headers : Header) (t : Int),
      GoMap.get? (times.getD []) r = some stored →
      env.HeadFromHttpServer (env.getResourceHttpPath endpoint r) = .ok headers →
      env.parseTime (Header.Get headers "Last-Modified") = some t →
      (t = stored →
        (checkLocalCache env f endpoint r).resources =
            some (env.LoadGobFromFile [f.fetcherCachePath, f.context, r] []).1 ∧
          (checkLocalCache env f endpoint r).err =
            (env.LoadGobFromFile [f.fetcherCachePath, f.context, r] []).2 ∧
          ∀ url, FetchCall.get url ∉ (checkLocalCache env f endpoint r).calls) ∧
      (t ≠ stored →
        (checkLocalCache env f endpoint r).resources = none ∧
          (checkLocalCache env f endpoint r).err = none)) ∧
    (GoMap.get? (times.getD []) r = none →
      (checkLocalCache env f endpoint r).resources = none ∧
        (checkLocalCache env f endpoint r).err = none ∧
        ∀ url, FetchCall.head url ∉ (checkLocalCache env f endpoint r).calls) := by
  have hnot : ¬ timeSub env.now modTime ≤ f.minimumCache := not_le.2 hage
  have hlocal := loadLastModifiedTimes_calls_local env f
  rw [hload] at hlocal
  constructor
  · intro stored headers t hget hhead hparse
    have hlm : (getLastModifiedFromHeader env headers).1 = t := by
      simp [getLastModifiedFromHeader, hparse]
    constructor
    · intro heq
      have hc : checkLocalCache env f endpoint r =
          { resources := some (env.LoadGobFromFile [f.fetcherCachePath, f.context, r] []).1
            err := (env.LoadGobFromFile [f.fetcherCachePath, f.context, r] []).2
            calls := .stat [f.fetcherCachePath, f.context, r] :: loadCalls ++
              [.head (env.getResourceHttpPath endpoint r),
                .loadGob [f.fetcherCachePath, f.context, r]] } := by
        simp only [checkLocalCache, hstat, hnot, if_false, hload, hget, hhead, hlm, heq, if_true]
      rw [hc]
      refine ⟨rfl, rfl, ?_⟩
      intro url hmem
      have hno : FetchCall.get url ∉ loadCalls := fun hm => by
        have := hlocal _ hm
        simp [FetchCall.isNetwork] at this
      simp [hno] at hmem
    · intro hne
      have hc : checkLocalCache env f endpoint r =
          { resources := none, err := none
            calls := .stat [f.fetcherCachePath, f.context, r] :: loadCalls ++
              [.head (env.getResourceHttpPath endpoint r)] } := by
        simp only [checkLocalCache, hstat, hnot, if_false, hload, hget, hhead, hlm, hne]
      rw [hc]
      exact ⟨rfl, rfl⟩
  · intro hget
    have hc : checkLocalCache env f endpoint r =
        { resources := none, err := none
          calls := .stat [f.fetcherCachePath, f.context, r] :: loadCalls } := by
      simp only [checkLocalCache, hstat, hnot, if_false, hload, hget]
    rw [hc]
    refine ⟨rfl, rfl, ?_⟩
    intro url hmem
    have hno : FetchCall.head url ∉ loadCalls := fun hm => by
      have := hlocal _ hm
      simp [FetchCall.isNetwork] at this
    simp [hno] at hmem

/-- Concrete runs for C11: the cache file is ten minutes old, `minimumCache` is
five minutes, and the stored entry for `replicasets` is `sampleModified`. The
server reports the same time (the cached content is returned, without a
full-content request), then a time one second later (nil, nil); last, the map
has no entry (nil, nil, no metadata request). -/
theorem checkLocalCache_stale_file_witness :
    ((staleEnv (some [("replicasets", sampleModified)])
          (.ok [("Last-Modified", ["Thu, 29 Oct 2026 05:20:00 GMT"])])).Stat
          ["/tmp/fetcher", "minikube", "replicasets"] = some (sampleNow - 600000000000) ∧
      sampleFetcher.minimumCache < timeSub sampleNow (sampleNow - 600000000000)) ∧
    ((checkLocalCache (staleEnv (some [("replicasets", sampleModified)])
          (.ok [("Last-Modified", ["Thu, 29 Oct 2026 05:20:00 GMT"])])) sampleFetcher
          "http://server" "replicasets").resources = some [("default_a", recA)] ∧
      (checkLocalCache (staleEnv (some [("replicasets", sampleModified)])
          (.ok [("Last-Modified", ["Thu, 29 Oct 2026 05:20:00 GMT"])])) sampleFetcher
          "http://server" "replicasets").err = none ∧
      ∀ url, FetchCall.get url ∉
        (checkLocalCache (staleEnv (some [("replicasets", sampleModified)])
          (.ok [("Last-Modified", ["Thu, 29 Oct 2026 05:20:00 GMT"])])) sampleFetcher
          "http://server" "replicasets").calls) ∧
    ((checkLocalCache (staleEnv (some [("replicasets", sampleModified + 1000000000)])
          (.ok [("Last-Modified", ["Thu, 29 Oct 2026 05:20:00 GMT"])])) sampleFetcher
          "http://server" "replicasets").resources = none ∧
      (checkLocalCache (staleEnv (some [("replicasets", sampleModified + 1000000000)])
          (.ok [("Last-Modified", ["Thu, 29 Oct 2026 05:20:00 GMT"])])) sampleFetcher
          "http://server" "replicasets").err = none) ∧
    ((checkLocalCache (staleEnv (some [])
          (.ok [("Last-Modified", ["Thu, 29 Oct 2026 05:20:00 GMT"])])) sampleFetcher
          "http://server" "replicasets").resources = none ∧
      (checkLocalCache (staleEnv (some [])
          (.ok [("Last-Modified", ["Thu, 29 Oct 2026 05:20:00 GMT"])])) sampleFetcher
          "http://server" "replicasets").err = none ∧
      ∀ url, FetchCall.head url ∉
        (checkLocalCache (staleEnv (some [])
          (.ok [("Last-Modified", ["Thu, 29 Oct 2026 05:20:00 GMT"])])) sampleFetcher
          "http://server" "replicasets").calls) :=
  ⟨⟨by decide, by decide⟩,
    ((checkLocalCache_stale_file (staleEnv (some [("replicasets", sampleModified)])
        (.ok [("Last-Modified", ["Thu, 29 Oct 2026 05:20:00 GMT"])])) sampleFetcher
        "http://server" "replicasets" (sampleNow - 600000000000) _ _ (by decide) (by decide)
        rfl).1 sampleModified _ sampleModified rfl rfl rfl).1 rfl,
    ((checkLocalCache_stale_file (staleEnv (some [("replicasets", sampleModified + 1000000000)])
        (.ok [("Last-Modified", ["Thu, 29 Oct 2026 05:20:00 GMT"])])) sampleFetcher
        "http://server" "replicasets" (sampleNow - 600000000000) _ _ (by decide) (by decide)
        rfl).1 (sampleModified + 1000000000) _ sampleModified rfl rfl rfl).2 (by decide),
    (checkLocalCache_stale_file (staleEnv (some [])
        (.ok [("Last-Modified", ["Thu, 29 Oct 2026 05:20:00 GMT"])])) sampleFetcher
        "http://server" "replicasets" (sampleNow - 600000000000) _ _ (by decide) (by decide)
        rfl).2 rfl⟩

/-! ## C12 -/

/-- C12 fails on the code: when the cache file is older than `minimumCache`, the
stored entry is not the zero time, the metadata request succeeds and its
`Last-Modified` header does not parse, `checkLocalCache` returns a nil map and a
nil error, the error of `getLastModifiedFromHeader` being dropped. In the
concrete run the response has no `Last-Modified` header at all. -/
theorem checkLocalCache_drops_parse_error :
    (∀ (R : Type) (env : FetcherEnv R) (f : Fetcher) (endpoint r : String) (modTime : Int)
      (times : Option (GoMap String Int)) (loadCalls : List FetchCall) (stored : Int)
      (headers : Header),
      env.Stat [f.fetcherCachePath, f.context, r] = some modTime →
      f.minimumCache < timeSub env.now modTime →
      loadLastModifiedTimes env f = ((times, none), loadCalls) →
      GoMap.get? (times.getD []) r = some stored →
      env.HeadFromHttpServer (env.getResourceHttpPath endpoint r) = .ok headers →
      env.parseTime (Header.Get headers "Last-Modified") = none →
      stored ≠ 0 →
      (getLastModifiedFromHeader env headers).2 = some "invalid lastModified timestamp" ∧
        (checkLocalCache env f endpoint r).resources = none ∧
        (checkLocalCache env f endpoint r).err = none) ∧
    ((staleEnv (some [("replicasets", sampleModified)]) (.ok [])).parseTime
        (Header.Get [] "Last-Modified") = none ∧
      (checkLocalCache (staleEnv (some [("replicasets", sampleModified)]) (.ok []))
        sampleFetcher "http://server" "replicasets").resources = none ∧
      (checkLocalCache (staleEnv (some [("replicasets", sampleModified)]) (.ok []))
        sampleFetcher "http://server" "replicasets").err = none) := by
  refine ⟨?_, by decide, by decide, by decide⟩
  intro R env f endpoint r modTime times loadCalls stored headers hstat hage hload hget hhead
    hparse hne
  have hnot : ¬ timeSub env.now modTime ≤ f.minimumCache := not_le.2 hage
  have hlm : (getLastModifiedFromHeader env headers).1 = 0 := by
    simp [getLastModifiedFromHeader, hparse]
  have hne2 : ¬ (0 : Int) = stored := fun h => hne h.symm
  refine ⟨by simp [getLastModifiedFromHeader, hparse], ?_, ?_⟩ <;>
    simp only [checkLocalCache, hstat, hnot, if_false, hload, hget, hhead, hlm, hne2]

/-! ## C13 -/

/-- C13 fails on the code: the cache file is ten minutes old with `minimumCache`
five minutes, the stored entry for `replicasets` is the zero time, and the
metadata response has no `Last-Modified` header, so nothing parses; the zero
time that `getLastModifiedFromHeader` returns with its (dropped) error equals
the stored entry, and `checkLocalCache` returns the cached content. -/
theorem checkLocalCache_serves_unvalidated :
    sampleFetcher.minimumCache < timeSub sampleNow (sampleNow - 600000000000) ∧
    (staleEnv (some [("replicasets", 0)]) (.ok [])).parseTime
      (Header.Get [] "Last-Modified") = none ∧
    (getLastModifiedFromHeader (staleEnv (some [("replicasets", 0)]) (.ok [])) []).2 =
      some "invalid lastModified timestamp" ∧
    (checkLocalCache (staleEnv (some [("replicasets", 0)]) (.ok []))
      sampleFetcher "http://server" "replicasets").resources = some [("default_a", recA)] ∧
    (checkLocalCache (staleEnv (some [("replicasets", 0)]) (.ok []))
      sampleFetcher "http://server" "replicasets").err = none := by
  decide

/-! ## C14 -/

theorem osWriteFile_success (fs fs1 : FileSystem) (path : List String) (data : String)
    (now : Int) (o : WriteOutcome) (h : osWriteFile fs path data now o = (fs1, none)) :
    fs1 = GoMap.set fs path ⟨data, now⟩ := by
  cases o with
  | ok =>
    simp only [osWriteFile, Prod.mk.injEq, and_true] at h
    exact h.symm
  | openFailed err => simp [osWriteFile] at h
  | writeFailed err written => simp [osWriteFile] at h

theorem loadLastModifiedTimes_onFiles_congr (env : FetcherEnv R) (f : Fetcher)
    (fs fs1 : FileSystem)
    (h : GoMap.get? fs1 (getLastModifiedTimesPath f) = GoMap.get? fs (getLastModifiedTimesPath f)) :
    loadLastModifiedTimes (env.onFiles fs1) f = loadLastModifiedTimes (env.onFiles fs) f := by
  simp only [loadLastModifiedTimes, FetcherEnv.onFiles, h]

theorem loadLastModifiedTimes_onFiles_of_file (env : FetcherEnv R) (f : Fetcher)
    (fs : FileSystem) (file : File)
    (h : GoMap.get? fs (getLastModifiedTimesPath f) = some file) :
    (loadLastModifiedTimes (env.onFiles fs) f).1 = env.unmarshalTimes file.content := by
  simp [loadLastModifiedTimes, FetcherEnv.onFiles, h]

/-- C14: for every payload, resource type (other than the name `lastModified` of
the timestamp file itself) and response headers, whenever `writeResourceToCache`
returns no error, the cache file holds exactly the payload, the `Last-Modified`
value of the headers parsed to a time `t`, and the `lastModified` file holds the
encoding of the previously stored map with the entry of the resource type set
to `t`; so, when that encoding decodes to the map it encodes, the stored entry
of the resource type is `t` and the stored entry of every other resource type
is what it was. -/
theorem writeResourceToCache_success (env : FetcherEnv R) (w : CacheWriteEnv) (f : Fetcher)
    (fs fs1 : FileSystem) (headers : Header) (b r : String)
    (hr : r ≠ "lastModified")
    (hret : writeResourceToCache env w f fs headers b r = some (fs1, none)) :
    (GoMap.get? fs1 [f.fetcherCachePath, f.context, r]).map File.content = some b ∧
    ∃ (old : GoMap String Int) (t : Int),
      (loadLastModifiedTimes (env.onFiles fs) f).1 = (some old, none) ∧
      env.parseTime (Header.Get headers "Last-Modified") = some t ∧
      (GoMap.get? fs1 (getLastModifiedTimesPath f)).map File.content =
        some (w.marshalTimes (GoMap.set old r t)).1 ∧
      ∀ decoded : GoMap String Int,
        env.unmarshalTimes (w.marshalTimes (GoMap.set old r t)).1 = (some decoded, none) →
        (∀ key, GoMap.get? decoded key = GoMap.get? (GoMap.set old r t) key) →
        ∃ new : GoMap String Int,
          (loadLastModifiedTimes (env.onFiles fs1) f).1 = (some new, none) ∧
          GoMap.get? new r = some t ∧
          ∀ r2, r2 ≠ r → GoMap.get? new r2 = GoMap.get? old r2 := by
  have hpath : getLastModifiedTimesPath f ≠ [f.fetcherCachePath, f.context, r] := by
    intro h
    simp only [getLastModifiedTimesPath, List.cons.injEq, and_true, true_and] at h
    exact hr h.symm
  unfold writeResourceToCache at hret
  cases hmk : w.mkdirAll with
  | some err => simp [hmk] at hret
  | none =>
    simp only [hmk] at hret
    cases hw : osWriteFile fs [f.fetcherCachePath, f.context, r] b w.now w.writeCache with
    | mk fs2 werr =>
      cases werr with
      | some err => simp [hw] at hret
      | none =>
        have hfs2 := osWriteFile_success fs fs2 _ b w.now w.writeCache hw
        simp only [hw] at hret
        cases hp : env.parseTime (Header.Get headers "Last-Modified") with
        | none => simp [getLastModifiedFromHeader, hp] at hret
        | some t =>
          simp only [getLastModifiedFromHeader, hp] at hret
          have hload : loadLastModifiedTimes (env.onFiles fs2) f =
              loadLastModifiedTimes (env.onFiles fs) f := by
            apply loadLastModifiedTimes_onFiles_congr
            rw [hfs2]
            exact GoMap.get_set_of_ne _ _ hpath
          unfold updateLastModifiedTimes at hret
          rw [hload] at hret
          cases hl : (loadLastModifiedTimes (env.onFiles fs) f).1 with
          | mk times lerr =>
            cases lerr with
            | some err => simp [hl] at hret
            | none =>
              cases times with
              | none => simp [hl] at hret
              | some old =>
                simp only [hl, Option.some.injEq] at hret
                have hfs1 := osWriteFile_success fs2 fs1 _ _ w.now w.writeTimes hret
                have hcache : GoMap.get? fs1 [f.fetcherCachePath, f.context, r] =
                    some ⟨b, w.now⟩ := by
                  rw [hfs1, GoMap.get_set_of_ne _ _ (Ne.symm hpath), hfs2]
                  exact GoMap.get_set_self _ _ _
                have htimes : GoMap.get? fs1 (getLastModifiedTimesPath f) =
                    some ⟨(w.marshalTimes (GoMap.set old r t)).1, w.now⟩ := by
                  rw [hfs1]
                  exact GoMap.get_set_self _ _ _
                refine ⟨by rw [hcache]; rfl, old, t, rfl, rfl, by rw [htimes]; rfl, ?_⟩
                intro decoded hdec hsame
                refine ⟨decoded, ?_, ?_, ?_⟩
                · rw [loadLastModifiedTimes_onFiles_of_file env f fs1 _ htimes]
                  exact hdec
                · rw [hsame r]
                  exact GoMap.get_set_self _ _ _
                · intro r2 hne
                  rw [hsame r2]
                  exact GoMap.get_set_of_ne _ _ hne

/-- Concrete run for C14: on an empty cache directory the payload of
`replicasets` is written with a `Last-Modified` header that parses to
`sampleModified`. -/
theorem writeResourceToCache_success_witness :
    ("replicasets" ≠ "lastModified" ∧
      writeResourceToCache (staleEnv (some [("replicasets", sampleModified)]) (.ok []))
          sampleWriteEnv sampleFetcher []
          [("Last-Modified", ["Thu, 29 Oct 2026 05:20:00 GMT"])] "payload" "replicasets" =
        some ([(["/tmp/fetcher", "minikube", "replicasets"], ⟨"payload", sampleNow⟩),
            (["/tmp/fetcher", "minikube", "lastModified"], ⟨"stored times", sampleNow⟩)],
          none)) ∧
    (GoMap.get? ([(["/tmp/fetcher", "minikube", "replicasets"], ⟨"payload", sampleNow⟩),
        (["/tmp/fetcher", "minikube", "lastModified"], ⟨"stored times", sampleNow⟩)] :
          FileSystem)
      ["/tmp/fetcher", "minikube", "replicasets"]).map File.content = some "payload" :=
  ⟨⟨by decide, by decide⟩,
    (writeResourceToCache_success (staleEnv (some [("replicasets", sampleModified)]) (.ok []))
      sampleWriteEnv sampleFetcher [] _ [("Last-Modified", ["Thu, 29 Oct 2026 05:20:00 GMT"])]
      "payload" "replicasets" (by decide) (by decide)).1⟩

/-! ## C15 -/

theorem tempName_ne_final (destDir : List String) (resourceName suffix random : String) :
    destDir ++ [resourceName ++ "_" ++ suffix] ≠
      destDir ++ ["_" ++ resourceName ++ "_" ++ suffix ++ random] := by
  intro h
  have h1 := List.append_cancel_left h
  simp only [List.cons.injEq, and_true] at h1
  have h2 := congrArg String.length h1
  simp only [String.length_append] at h2
  have h3 : "_".length = 1 := rfl
  omega

/-- Counterexample to C15 as stated: the final path holds `a` before the call
and the string written is `ab`; after the temporary file is created, while the
call is under way, the final path still holds `a`, a strict prefix of `ab`. -/
theorem WriteStringToFile_old_content_visible :
    ∃ s ∈ (WriteStringToFile sampleTempEnv
        [(["/tmp/cache", "minikube", "pods_label"], ⟨"a", 0⟩)] "ab"
        ["/tmp/cache", "minikube"] "pods" "label").steps,
      (GoMap.get? s ["/tmp/cache", "minikube", "pods_label"]).map File.content = some "a" ∧
      "a".data <+: "ab".data ∧ "a" ≠ "ab" :=
  ⟨_, List.mem_cons_self _ _, by decide, by decide, by decide⟩

/-- C15 (amended): over a file system in which temp-file creation, write, flush,
sync and rename may each fail: if `WriteStringToFile` returns an error, every
path, the final path `destDir/<resourceName>_<suffix>` and the path of the
temporary file among them, holds what it held before the call (so the
temporary file it created is gone); if it returns no error, the final path
holds exactly `str`. After every intermediate step the final path holds either
what it held before the call or exactly `str`, never a partly written `str`. -/
theorem WriteStringToFile_atomic (e : TempWriteEnv) (fs : FileSystem) (str : String)
    (destDir : List String) (resourceName suffix : String) :
    ((WriteStringToFile e fs str destDir resourceName suffix).err ≠ none →
      ∀ p, GoMap.get? (WriteStringToFile e fs str destDir resourceName suffix).files p =
        GoMap.get? fs p) ∧
    ((WriteStringToFile e fs str destDir resourceName suffix).err = none →
      (GoMap.get? (WriteStringToFile e fs str destDir resourceName suffix).files
        (destDir ++ [resourceName ++ "_" ++ suffix])).map File.content = some str) ∧
    (∀ s ∈ (WriteStringToFile e fs str destDir resourceName suffix).steps,
      GoMap.get? s (destDir ++ [resourceName ++ "_" ++ suffix]) =
          GoMap.get? fs (destDir ++ [resourceName ++ "_" ++ suffix]) ∨
        (GoMap.get? s (destDir ++ [resourceName ++ "_" ++ suffix])).map File.content =
          some str) := by
  unfold WriteStringToFile
  cases htemp : e.tempFile with
  | error err => simp
  | ok random =>
    have hne := tempName_ne_final destDir resourceName suffix random
    cases hex : GoMap.get? fs (destDir ++ ["_" ++ resourceName ++ "_" ++ suffix ++ random]) with
    | some file => simp [hex]
    | none =>
      have hfiles : ∀ (x y : File) (p : List String),
          GoMap.get? (GoMap.delete (GoMap.set (GoMap.set fs
            (destDir ++ ["_" ++ resourceName ++ "_" ++ suffix ++ random]) x)
            (destDir ++ ["_" ++ resourceName ++ "_" ++ suffix ++ random]) y)
            (destDir ++ ["_" ++ resourceName ++ "_" ++ suffix ++ random])) p =
          GoMap.get? fs p := by
        intro x y p
        by_cases hp : p = destDir ++ ["_" ++ resourceName ++ "_" ++ suffix ++ random]
        · rw [hp, GoMap.get_delete_self, hex]
        · rw [GoMap.get_delete_of_ne _ hp, GoMap.get_set_of_ne _ _ hp,
            GoMap.get_set_of_ne _ _ hp]
      have hfiles3 : ∀ (x y z : File) (p : List String),
          GoMap.get? (GoMap.delete (GoMap.set (GoMap.set (GoMap.set fs
            (destDir ++ ["_" ++ resourceName ++ "_" ++ suffix ++ random]) x)
            (destDir ++ ["_" ++ resourceName ++ "_" ++ suffix ++ random]) y)
            (destDir ++ ["_" ++ resourceName ++ "_" ++ suffix ++ random]) z)
            (destDir ++ ["_" ++ resourceName ++ "_" ++ suffix ++ random])) p =
          GoMap.get? fs p := by
        intro x y z p
        by_cases hp : p = destDir ++ ["_" ++ resourceName ++ "_" ++ suffix ++ random]
        · rw [hp, GoMap.get_delete_self, hex]
        · rw [GoMap.get_delete_of_ne _ hp, GoMap.get_set_of_ne _ _ hp,
            GoMap.get_set_of_ne _ _ hp, GoMap.get_set_of_ne _ _ hp]
      have hset : ∀ (m : FileSystem) (x : File),
          GoMap.get? (GoMap.set m (destDir ++ ["_" ++ resourceName ++ "_" ++ suffix ++ random]) x)
            (destDir ++ [resourceName ++ "_" ++ suffix]) =
          GoMap.get? m (destDir ++ [resourceName ++ "_" ++ suffix]) :=
        fun m x => GoMap.get_set_of_ne _ _ hne
      simp only [hex, Option.isSome_none, Bool.false_eq_true, if_false]
      cases e.writeString with
      | some err =>
        refine ⟨fun _ p => hfiles _ _ p, fun h => by simp at h, ?_⟩
        intro s hs
        simp only [List.mem_cons, List.mem_singleton, List.not_mem_nil, or_false] at hs
        rcases hs with hs | hs | hs <;> subst hs
        · exact Or.inl (hset _ _)
        · exact Or.inl (by rw [hset, hset])
        · exact Or.inl (hfiles _ _ _)
      | none =>
        cases e.flush with
        | some err =>
          refine ⟨fun _ p => hfiles3 _ _ _ p, fun h => by simp at h, ?_⟩
          intro s hs
          simp only [List.mem_cons, List.mem_singleton, List.not_mem_nil, or_false] at hs
          rcases hs with hs | hs | hs | hs <;> subst hs
          · exact Or.inl (hset _ _)
          · exact Or.inl (by rw [hset, hset])
          · exact Or.inl (by rw [hset, hset, hset])
          · exact Or.inl (hfiles3 _ _ _ _)
        | none =>
          cases e.sync with
          | some err =>
            refine ⟨fun _ p => hfiles3 _ _ _ p, fun h => by simp at h, ?_⟩
            intro s hs
            simp only [List.mem_cons, List.mem_singleton, List.not_mem_nil, or_false] at hs
            rcases hs with hs | hs | hs | hs <;> subst hs
            · exact Or.inl (hset _ _)
            · exact Or.inl (by rw [hset, hset])
            · exact Or.inl (by rw [hset, hset, hset])
            · exact Or.inl (hfiles3 _ _ _ _)
          | none =>
            cases e.rename with
            | some err =>
              refine ⟨fun _ p => hfiles3 _ _ _ p, fun h => by simp at h, ?_⟩
              intro s hs
              simp only [List.mem_cons, List.mem_singleton, List.not_mem_nil, or_false] at hs
              rcases hs with hs | hs | hs | hs <;> subst hs
              · exact Or.inl (hset _ _)
              · exact Or.inl (by rw [hset, hset])
              · exact Or.inl (by rw [hset, hset, hset])
              · exact Or.inl (hfiles3 _ _ _ _)
            | none =>
              refine ⟨fun h => by simp at h, fun _ => by rw [GoMap.get_set_self]; rfl, ?_⟩
              intro s hs
              simp only [List.mem_cons, List.mem_singleton, List.not_mem_nil, or_false] at hs
              rcases hs with hs | hs | hs | hs <;> subst hs
              · exact Or.inl (hset _ _)
              · exact Or.inl (by rw [hset, hset])
              · exact Or.inl (by rw [hset, hset, hset])
              · exact Or.inr (by rw [GoMap.get_set_self]; rfl)

/-- Concrete runs for C15 (amended): the final path holds `a` and `ab` is written,
once with a failing rename (the final path still holds `a` and the temporary
file is gone) and once with every call succeeding. -/
theorem WriteStringToFile_atomic_witness :
    ((WriteStringToFile { sampleTempEnv with rename := some "permission denied" }
          [(["/tmp/cache", "minikube", "pods_label"], ⟨"a", 0⟩)] "ab"
          ["/tmp/cache", "minikube"] "pods" "label").err ≠ none ∧
      ∀ p, GoMap.get? (WriteStringToFile { sampleTempEnv with rename := some "permission denied" }
          [(["/tmp/cache", "minikube", "pods_label"], ⟨"a", 0⟩)] "ab"
          ["/tmp/cache", "minikube"] "pods" "label").files p =
        GoMap.get? ([(["/tmp/cache", "minikube", "pods_label"], ⟨"a", 0⟩)] : FileSystem) p) ∧
    ((WriteStringToFile sampleTempEnv
          [(["/tmp/cache", "minikube", "pods_label"], ⟨"a", 0⟩)] "ab"
          ["/tmp/cache", "minikube"] "pods" "label").err = none ∧
      (GoMap.get? (WriteStringToFile sampleTempEnv
          [(["/tmp/cache", "minikube", "pods_label"], ⟨"a", 0⟩)] "ab"
          ["/tmp/cache", "minikube"] "pods" "label").files
        (["/tmp/cache", "minikube"] ++ ["pods" ++ "_" ++ "label"])).map File.content =
        some "ab") :=
  ⟨⟨by decide,
      (WriteStringToFile_atomic { sampleTempEnv with rename := some "permission denied" }
        [(["/tmp/cache", "minikube", "pods_label"], ⟨"a", 0⟩)] "ab"
        ["/tmp/cache", "minikube"] "pods" "label").1 (by decide)⟩,
    by decide,
    (WriteStringToFile_atomic sampleTempEnv
      [(["/tmp/cache", "minikube", "pods_label"], ⟨"a", 0⟩)] "ab"
      ["/tmp/cache", "minikube"] "pods" "label").2.1 (by decide)⟩

/-! ## The order of the rendered label index -/

theorem Less_iff_rank_lt (p q : LabelPair) : p.Less q = true ↔ p.rank < q.rank := by
  unfold LabelPair.Less LabelPair.rank
  rw [Prod.Lex.lt_iff]
  simp only [Prod.Lex.lt_iff, OrderDual.toDual_lt_toDual, OrderDual.toDual_inj]
  by_cases h1 : p.Occurrences = q.Occurrences
  · by_cases h2 : p.Key.Namespace = q.Key.Namespace
    · simp [h1, h2]
    · have h3 : p.Key.Namespace.data ≠ q.Key.Namespace.data := fun h => h2 (String.ext h)
      simp [h1, h2, h3]
  · simp [h1]

theorem NotAfter_iff_rank_le (p q : LabelPair) : p.NotAfter q ↔ p.rank ≤ q.rank := by
  unfold LabelPair.NotAfter
  rw [← not_lt, ← Less_iff_rank_lt]
  simp

theorem rank_injective (p q : LabelPair) (h : p.rank = q.rank) : p = q := by
  unfold LabelPair.rank at h
  have h1 := congrArg (fun x => (ofLex x).1) h
  have h2 := congrArg (fun x => (ofLex (ofLex x).2).1) h
  have h3 := congrArg (fun x => (ofLex (ofLex x).2).2) h
  simp only [ofLex_toLex, OrderDual.toDual_inj] at h1 h2 h3
  obtain ⟨⟨pn, pl⟩, po⟩ := p
  obtain ⟨⟨qn, ql⟩, qo⟩ := q
  simp only at h1 h2 h3
  rw [h1, String.ext h2, String.ext h3]

theorem sortPairs_perm (pl : LabelPairList) : (sortPairs pl).Perm pl :=
  List.perm_insertionSort _ pl

theorem sortPairs_sorted (pl : LabelPairList) : List.Sorted LabelPair.NotAfter (sortPairs pl) :=
  @List.sorted_insertionSort _ LabelPair.NotAfter _
    ⟨fun p q => by
      rw [NotAfter_iff_rank_le, NotAfter_iff_rank_le]
      exact le_total _ _⟩
    ⟨fun p q r hpq hqr => by
      rw [NotAfter_iff_rank_le] at *
      exact le_trans hpq hqr⟩ pl

theorem sortPairs_strict (pl : LabelPairList) (hnd : pl.Nodup) :
    List.Pairwise (fun p q => p.Less q = true) (sortPairs pl) := by
  have hs : List.Pairwise LabelPair.NotAfter (sortPairs pl) := sortPairs_sorted pl
  have hn : List.Pairwise (fun p q => p ≠ q) (sortPairs pl) :=
    (List.Perm.nodup_iff (sortPairs_perm pl)).2 hnd
  refine (hs.and hn).imp ?_
  intro p q h
  rw [Less_iff_rank_lt]
  exact lt_of_le_of_ne ((NotAfter_iff_rank_le p q).1 h.1) (fun he => h.2 (rank_injective p q he))

theorem labelPairList_nodup (k : K8sStore R) (hkeys : (GoMap.keys k.labelMap).Nodup) :
    (labelPairList k).Nodup := by
  unfold labelPairList
  have hinj : ∀ a ∈ k.labelMap, ∀ b ∈ k.labelMap,
      (⟨a.1, a.2⟩ : LabelPair) = ⟨b.1, b.2⟩ → a = b := by
    intro a _ b _ h
    simp only [LabelPair.mk.injEq] at h
    exact Prod.ext h.1 h.2
  have hnd : k.labelMap.Nodup := List.Nodup.of_map Prod.fst hkeys
  exact List.Nodup.map_on hinj hnd

theorem Less_iff_order (p q : LabelPair) :
    p.Less q = true ↔
      (p.Occurrences > q.Occurrences ∨
        (p.Occurrences = q.Occurrences ∧ p.Key.Namespace < q.Key.Namespace) ∨
        (p.Occurrences = q.Occurrences ∧ p.Key.Namespace = q.Key.Namespace ∧
          p.Key.Label < q.Key.Label)) := by
  unfold LabelPair.Less
  simp only [String.lt_iff_toList_lt, String.toList]
  by_cases h1 : p.Occurrences = q.Occurrences
  · by_cases h2 : p.Key.Namespace = q.Key.Namespace
    · simp [h1, h2]
    · simp [h1, h2]
  · simp [h1]

theorem generateLabel_eq (k : K8sStore R) :
    generateLabel k = (trimNewlines (String.join (labelLines k)), none) := by
  unfold generateLabel labelLines String.join
  rw [List.foldl_map]

/-! ## C16 -/

/-- C16: for every label index (a map: its keys are pairwise distinct),
`generateLabel` returns, trimmed of newlines at both ends, the concatenation of
the lines it writes; it writes exactly one line per entry of `labelMap`, the
entries taken in an order that is a permutation of the map; and in that order,
for any two consecutive entries `p` before `q`, `p.Occurrences > q.Occurrences`,
or they are equal and `p.Namespace < q.Namespace`, or both are equal and
`p.Label < q.Label`. -/
theorem generateLabel_sorted (k : K8sStore R) (hkeys : (GoMap.keys k.labelMap).Nodup) :
    generateLabel k = (trimNewlines (String.join (labelLines k)), none) ∧
    labelLines k = (sortPairs (labelPairList k)).map (labelLine k.ctorConfig.Cluster) ∧
    (sortPairs (labelPairList k)).Perm (k.labelMap.map (fun e => ⟨e.1, e.2⟩)) ∧
    (labelLines k).length = k.labelMap.length ∧
    List.Chain' (fun p q : LabelPair =>
      p.Occurrences > q.Occurrences ∨
        (p.Occurrences = q.Occurrences ∧ p.Key.Namespace < q.Key.Namespace) ∨
        (p.Occurrences = q.Occurrences ∧ p.Key.Namespace = q.Key.Namespace ∧
          p.Key.Label < q.Key.Label)) (sortPairs (labelPairList k)) := by
  refine ⟨generateLabel_eq k, rfl, sortPairs_perm _, ?_, ?_⟩
  · unfold labelLines
    rw [List.length_map, (sortPairs_perm _).length_eq]
    simp [labelPairList]
  · apply List.Pairwise.chain'
    exact (sortPairs_strict _ (labelPairList_nodup k hkeys)).imp
      (fun {p q} h => (Less_iff_order p q).1 h)

/-- Concrete run for C16: four entries, two of them with the same count and two
in the same namespace with the same count. -/
theorem generateLabel_sorted_witness :
    (GoMap.keys ([(⟨"kube-system", "k8s-app=dns"⟩, 2), (⟨"default", "tier=db"⟩, 2),
        (⟨"default", "app=web"⟩, 2), (⟨"", "zone=a"⟩, 5)] : GoMap LabelKey Int)).Nodup ∧
    generateLabel { sampleStore with
        labelMap := [(⟨"kube-system", "k8s-app=dns"⟩, 2), (⟨"default", "tier=db"⟩, 2),
          (⟨"default", "app=web"⟩, 2), (⟨"", "zone=a"⟩, 5)] } =
      ("minikube zone=a 5\nminikube default app=web 2\nminikube default tier=db 2\n" ++
        "minikube kube-system k8s-app=dns 2", none) ∧
    List.Chain' (fun p q : LabelPair =>
      p.Occurrences > q.Occurrences ∨
        (p.Occurrences = q.Occurrences ∧ p.Key.Namespace < q.Key.Namespace) ∨
        (p.Occurrences = q.Occurrences ∧ p.Key.Namespace = q.Key.Namespace ∧
          p.Key.Label < q.Key.Label))
      (sortPairs (labelPairList { sampleStore with
        labelMap := [(⟨"kube-system", "k8s-app=dns"⟩, 2), (⟨"default", "tier=db"⟩, 2),
          (⟨"default", "app=web"⟩, 2), (⟨"", "zone=a"⟩, 5)] })) :=
  ⟨by decide, by decide,
    (generateLabel_sorted { sampleStore with
      labelMap := [(⟨"kube-system", "k8s-app=dns"⟩, 2), (⟨"default", "tier=db"⟩, 2),
        (⟨"default", "app=web"⟩, 2), (⟨"", "zone=a"⟩, 5)] } (by decide)).2.2.2.2⟩

/-! ## The text of the rendered label index -/

theorem digitChar_ne_newline (n : Nat) : Nat.digitChar (n % 10) ≠ '\n' := by
  have h : ∀ m < 10, Nat.digitChar m ≠ '\n' := by decide
  exact h (n % 10) (Nat.mod_lt n (by decide))

theorem toDigitsCore_suffix (fuel : Nat) : ∀ (n : Nat) (ds : List Char),
    ∃ X, Nat.toDigitsCore 10 fuel n ds = X ++ ds := by
  induction fuel with
  | zero => intro n ds; exact ⟨[], rfl⟩
  | succ fuel ih =>
    intro n ds
    simp only [Nat.toDigitsCore]
    split_ifs with h
    · exact ⟨[Nat.digitChar (n % 10)], rfl⟩
    · obtain ⟨X, hX⟩ := ih (n / 10) (Nat.digitChar (n % 10) :: ds)
      exact ⟨X ++ [Nat.digitChar (n % 10)], by rw [hX]; simp⟩

theorem toDigits_last (n : Nat) : ∃ X, Nat.toDigits 10 n = X ++ [Nat.digitChar (n % 10)] := by
  unfold Nat.toDigits
  simp only [Nat.toDigitsCore]
  split_ifs with h
  · exact ⟨[], rfl⟩
  · exact toDigitsCore_suffix n (n / 10) [Nat.digitChar (n % 10)]

theorem toString_int_last (z : Int) : ∃ X d, (toString z).data = X ++ [d] ∧ d ≠ '\n' := by
  cases z with
  | ofNat m =>
    obtain ⟨X, hX⟩ := toDigits_last m
    exact ⟨X, Nat.digitChar (m % 10), hX, digitChar_ne_newline _⟩
  | negSucc m =>
    obtain ⟨X, hX⟩ := toDigits_last (m + 1)
    refine ⟨'-' :: X, Nat.digitChar ((m + 1) % 10), ?_, digitChar_ne_newline _⟩
    show ("-" ++ Nat.repr (m + 1)).data = _
    rw [String.data_append]
    show ['-'] ++ Nat.toDigits 10 (m + 1) = _
    rw [hX]
    rfl

theorem labelLine_data (cluster : String) (p : LabelPair) :
    ∃ Z d, (labelLine cluster p).data = cluster.data ++ ' ' :: Z ++ [d, '\n'] ∧ d ≠ '\n' := by
  obtain ⟨X, d, hX, hd⟩ := toString_int_last p.Occurrences
  unfold labelLine
  split_ifs with h
  · refine ⟨p.Key.Label.data ++ ' ' :: X, d, ?_, hd⟩
    simp only [String.data_append, hX]
    show cluster.data ++ [' '] ++ p.Key.Label.data ++ [' '] ++ (X ++ [d]) ++ ['\n'] = _
    simp
  · refine ⟨p.Key.Namespace.data ++ ' ' :: (p.Key.Label.data ++ ' ' :: X), d, ?_, hd⟩
    simp only [String.data_append, hX]
    show cluster.data ++ [' '] ++ p.Key.Namespace.data ++ [' '] ++ p.Key.Label.data ++ [' '] ++
      (X ++ [d]) ++ ['\n'] = _
    simp

theorem foldl_append_init (ls : List String) (init : String) :
    ls.foldl (fun r s => r ++ s) init = init ++ ls.foldl (fun r s => r ++ s) "" := by
  induction ls generalizing init with
  | nil => simp
  | cons l rest ih =>
    rw [List.foldl_cons, List.foldl_cons, ih (init ++ l), ih ("" ++ l)]
    simp [String.append_assoc]

theorem join_cons_data (l : String) (ls : List String) :
    (String.join (l :: ls)).data = l.data ++ (String.join ls).data := by
  unfold String.join
  rw [List.foldl_cons, foldl_append_init]
  simp [String.data_append]

theorem join_lines_tail (cluster : String) (p : LabelPair) (ps : List LabelPair) :
    ∃ A d, (String.join ((p :: ps).map (labelLine cluster))).data = A ++ [d, '\n'] ∧
      d ≠ '\n' := by
  induction ps generalizing p with
  | nil =>
    obtain ⟨Z, d, hZ, hd⟩ := labelLine_data cluster p
    refine ⟨cluster.data ++ ' ' :: Z, d, ?_, hd⟩
    rw [List.map_cons, join_cons_data, hZ]
    simp [String.join]
  | cons q rest ih =>
    obtain ⟨A, d, hA, hd⟩ := ih q
    refine ⟨(labelLine cluster p).data ++ A, d, ?_, hd⟩
    rw [List.map_cons, join_cons_data, hA]
    simp

theorem join_lines_head (cluster : String) (p : LabelPair) (ps : List LabelPair)
    (hc : cluster.data.head? ≠ some '\n') :
    ∃ c T, (String.join ((p :: ps).map (labelLine cluster))).data = c :: T ∧ c ≠ '\n' := by
  obtain ⟨Z, d, hZ, -⟩ := labelLine_data cluster p
  rw [List.map_cons, join_cons_data, hZ]
  cases hcl : cluster.data with
  | nil => exact ⟨' ', _, rfl, by decide⟩
  | cons c T =>
    refine ⟨c, _, rfl, ?_⟩
    intro h
    apply hc
    rw [hcl, h]
    rfl

theorem trim_one_newline (L A : List Char) (d c : Char) (T : List Char)
    (hL : L = A ++ [d, '\n']) (hd : d ≠ '\n') (hh : L = c :: T) (hc : c ≠ '\n') :
    (L.rdropWhile (fun x => x == '\n')).dropWhile (fun x => x == '\n') = A ++ [d] := by
  have h1 : L = (A ++ [d]) ++ ['\n'] := by rw [hL]; simp
  have h2 : L.rdropWhile (fun x => x == '\n') = A ++ [d] := by
    rw [h1, List.rdropWhile_concat_pos _ _ _ (by simp), List.rdropWhile_concat_neg _ _ _ (by simpa using hd)]
  rw [h2]
  cases A with
  | nil =>
    rw [hL] at hh
    simp only [List.nil_append, List.cons.injEq] at hh
    rw [List.nil_append, List.dropWhile_cons_of_neg (by simpa using hd)]
  | cons a A1 =>
    rw [hL] at hh
    simp only [List.cons_append, List.cons.injEq] at hh
    rw [List.cons_append, List.dropWhile_cons_of_neg (by rw [hh.1]; simpa using hc)]

/-! ## C17 -/

/-- Counterexample to C17 as stated: with the cluster name `\nminikube` and one
entry, the lines concatenate to `\nminikube default app=web 1\n`, and
`generateLabel` returns `minikube default app=web 1`: the leading newline is
removed along with the trailing one. -/
theorem generateLabel_trims_leading_newline :
    String.join (labelLines { sampleStore with
        ctorConfig := ⟨"\nminikube"⟩, labelMap := [(⟨"default", "app=web"⟩, 1)] }) =
      "\nminikube default app=web 1\n" ∧
    generateLabel { sampleStore with
        ctorConfig := ⟨"\nminikube"⟩, labelMap := [(⟨"default", "app=web"⟩, 1)] } =
      ("minikube default app=web 1", none) := by
  decide

/-- C17 (amended): for every cluster name that does not begin with a newline and
every label index, `generateLabel` returns no error and the concatenation, in
sorted order, of one line per entry, each line being
`<cluster> <namespace> <label> <count>` followed by a newline (the namespace
segment and its separating space omitted when the namespace is empty), with
exactly one trailing newline removed and nothing else removed; for an empty
index it returns the empty string. -/
theorem generateLabel_text (k : K8sStore R)
    (hcluster : k.ctorConfig.Cluster.data.head? ≠ some '\n') :
    (generateLabel k).2 = none ∧
    labelLines k = (sortPairs (labelPairList k)).map (labelLine k.ctorConfig.Cluster) ∧
    (∀ p : LabelPair, labelLine k.ctorConfig.Cluster p =
      if p.Key.Namespace = "" then
        k.ctorConfig.Cluster ++ " " ++ p.Key.Label ++ " " ++ toString p.Occurrences ++ "\n"
      else
        k.ctorConfig.Cluster ++ " " ++ p.Key.Namespace ++ " " ++ p.Key.Label ++ " " ++
          toString p.Occurrences ++ "\n") ∧
    (k.labelMap = [] → (generateLabel k).1 = "") ∧
    (k.labelMap ≠ [] →
      (String.join (labelLines k)).data = (generateLabel k).1.data ++ ['\n']) := by
  refine ⟨rfl, rfl, fun p => rfl, ?_, ?_⟩
  · intro hempty
    rw [generateLabel_eq]
    simp only [labelLines, labelPairList, hempty, List.map_nil, sortPairs, List.insertionSort]
    decide
  · intro hne
    rw [generateLabel_eq]
    have hps : sortPairs (labelPairList k) ≠ [] := by
      intro h
      have hlen := (sortPairs_perm (labelPairList k)).length_eq
      rw [h] at hlen
      apply hne
      simp only [labelPairList, List.length_map, List.length_nil] at hlen
      exact List.length_eq_zero.1 hlen.symm
    unfold labelLines
    cases hsp : sortPairs (labelPairList k) with
    | nil => exact absurd hsp hps
    | cons p ps =>
      obtain ⟨A, d, hA, hd⟩ := join_lines_tail k.ctorConfig.Cluster p ps
      obtain ⟨c, T, hT, hc⟩ := join_lines_head k.ctorConfig.Cluster p ps hcluster
      simp only [trimNewlines]
      rw [trim_one_newline _ A d c T hA hd hT hc, hA]
      simp

/-- Concrete run for C17 (amended): the sample store holding `default/a` and
`default/b`. -/
theorem generateLabel_text_witness :
    ("minikube".data.head? ≠ some '\n') ∧
    generateLabel (sampleStoreAB 0) =
      ("minikube default app=web 2\nminikube default tier=db 1", none) ∧
    (String.join (labelLines (sampleStoreAB 0))).data =
      (generateLabel (sampleStoreAB 0)).1.data ++ ['\n'] :=
  ⟨by decide, by decide,
    (generateLabel_text (sampleStoreAB 0) (by decide)).2.2.2.2 (by decide)⟩

/-! ## C18 -/

theorem get_bumpLabel_isSome (ns : String) (delta : Int) (m : GoMap LabelKey Int)
    (e : String × String) (key : LabelKey)
    (h : (GoMap.get? m key).isSome = true ∨ key = LabelKey.mk ns (renderLabel e)) :
    (GoMap.get? (bumpLabel ns delta m e) key).isSome = true := by
  unfold bumpLabel
  by_cases hk : key = LabelKey.mk ns (renderLabel e)
  · rw [hk, GoMap.get_set_self]
    rfl
  · rw [GoMap.get_set_of_ne _ _ hk]
    rcases h with h | h
    · exact h
    · exact absurd h hk

theorem get_foldl_bump_isSome (ns : String) (delta : Int) (labels : Labels)
    (m : GoMap LabelKey Int) (key : LabelKey)
    (h : (GoMap.get? m key).isSome = true ∨ ∃ e ∈ labels, key = LabelKey.mk ns (renderLabel e)) :
    (GoMap.get? (labels.foldl (bumpLabel ns delta) m) key).isSome = true := by
  induction labels generalizing m with
  | nil =>
    rcases h with h | ⟨e, he, -⟩
    · exact h
    · simp at he
  | cons e rest ih =>
    rw [List.foldl_cons]
    apply ih
    rcases h with h | ⟨e2, he2, hk⟩
    · exact Or.inl (get_bumpLabel_isSome ns delta m e key (Or.inl h))
    · rcases List.mem_cons.1 he2 with he2 | he2
      · exact Or.inl (get_bumpLabel_isSome ns delta m e key (Or.inr (he2 ▸ hk)))
      · exact Or.inr ⟨e2, he2, hk⟩

theorem labelLine_mem_of_entry (k : K8sStore R) (key : LabelKey) (count : Int)
    (h : (key, count) ∈ k.labelMap) :
    labelLine k.ctorConfig.Cluster ⟨key, count⟩ ∈ labelLines k := by
  unfold labelLines
  apply List.mem_map_of_mem
  rw [(sortPairs_perm _).mem_iff]
  unfold labelPairList
  exact List.mem_map.2 ⟨(key, count), h, rfl⟩

theorem labelCount_bump_roundtrip (ns : String) (labels : Labels) (m : GoMap LabelKey Int)
    (key : LabelKey) :
    labelCount (labels.foldl (bumpLabel ns (-1)) (labels.foldl (bumpLabel ns 1) m)) key =
      labelCount m key := by
  rw [labelCount_foldl_bump, labelCount_foldl_bump]
  ring

theorem get_of_isSome_of_labelCount (m : GoMap LabelKey Int) (key : LabelKey) (v : Int)
    (hs : (GoMap.get? m key).isSome = true) (hc : labelCount m key = v) :
    GoMap.get? m key = some v := by
  unfold labelCount at hc
  cases hg : GoMap.get? m key with
  | none => rw [hg] at hs; simp at hs
  | some w =>
    rw [hg] at hc
    simp only [Option.getD_some] at hc
    rw [hc]

theorem add_then_delete (k : K8sStore R) (obj : Obj) (key ns : String) (labels : Labels)
    (now : Int) (encErr : Option String)
    (hkey : resourceKey obj = some (key, ns, labels))
    (hdel : deleteTarget obj = some (some (key, ns, labels))) :
    ∃ added deleted, AddResource k obj = some added ∧
      DeleteResource added.store obj now encErr = some deleted ∧
      deleted.store.labelMap =
        labels.foldl (bumpLabel ns (-1)) (labels.foldl (bumpLabel ns 1) k.labelMap) ∧
      deleted.store.ctorConfig = k.ctorConfig := by
  refine ⟨_, _, AddResource_eq k obj key ns labels hkey,
    DeleteResource_eq _ obj now encErr key ns labels hdel, ?_, ?_⟩
  · rw [DumpFullState_labelMap]
    rfl
  · rw [(DumpFullState_ctor _ now encErr).2]
    rfl

/-- Counterexample to C18 as stated: on the fresh sample store, `AddResource` of
`default/a` followed by `DeleteResource` of `default/a` leaves its label in the
index with count 0, and `generateLabel` renders it: the text is
`minikube default app=web 0`, not the empty text of the fresh store. -/
theorem generateLabel_renders_zero_count :
    generateLabel sampleStore = ("", none) ∧
    (runCalls sampleStore [.add objA, .delete objA sampleNow none]).map
        (fun k => (k.labelMap, generateLabel k)) =
      some ([(⟨"default", "app=web"⟩, 0)], ("minikube default app=web 0", none)) := by
  decide

/-- C18 (amended): `generateLabel` writes a line for every entry of the label
index, an entry whose count is 0 included, so a key present with count 0 is
rendered and is told apart from an absent key. In particular, on a fresh store,
`AddResource` of an object followed by `DeleteResource` of the same object
leaves every label of the object in the index with count 0, and
`generateLabel` writes the line `<cluster> <namespace> <label> 0` for it. -/
theorem generateLabel_keeps_zero_counts :
    (∀ (R : Type) (k : K8sStore R) (key : LabelKey) (count : Int),
      (key, count) ∈ k.labelMap →
      labelLine k.ctorConfig.Cluster ⟨key, count⟩ ∈ labelLines k) ∧
    (∀ (R : Type) (cfg : WatchConfig R) (storeConfig : StoreConfig) (ctorConfig : CtorConfig)
      (out : Outcome R) (obj : Obj) (key ns : String) (labels : Labels) (now : Int)
      (encErr : Option String),
      NewK8sStore cfg storeConfig ctorConfig none = some out →
      resourceKey obj = some (key, ns, labels) →
      deleteTarget obj = some (some (key, ns, labels)) →
      ∃ added deleted, AddResource out.store obj = some added ∧
        DeleteResource added.store obj now encErr = some deleted ∧
        ∀ e ∈ labels,
          GoMap.get? deleted.store.labelMap ⟨ns, renderLabel e⟩ = some 0 ∧
          labelLine ctorConfig.Cluster ⟨⟨ns, renderLabel e⟩, 0⟩ ∈ labelLines deleted.store) := by
  refine ⟨fun R k key count h => labelLine_mem_of_entry k key count h, ?_⟩
  intro R cfg storeConfig ctorConfig out obj key ns labels now encErr hnew hkey hdel
  simp only [NewK8sStore, Option.some.injEq] at hnew
  subst hnew
  obtain ⟨added, deleted, hadd, hdeleted, hmap, hcfg⟩ :=
    add_then_delete _ obj key ns labels now encErr hkey hdel
  refine ⟨added, deleted, hadd, hdeleted, ?_⟩
  intro e he
  have hget : GoMap.get? deleted.store.labelMap ⟨ns, renderLabel e⟩ = some 0 := by
    rw [hmap]
    apply get_of_isSome_of_labelCount
    · exact get_foldl_bump_isSome ns (-1) labels _ _ (Or.inr ⟨e, he, rfl⟩)
    · rw [labelCount_bump_roundtrip]
      rfl
  refine ⟨hget, ?_⟩
  have hmem := labelLine_mem_of_entry _ _ _ (GoMap.mem_of_get hget)
  rw [hcfg] at hmem
  exact hmem

/-- Concrete run for C18 (amended): `default/b`, with two labels, is added to a
fresh store and deleted again. -/
theorem generateLabel_keeps_zero_counts_witness :
    (NewK8sStore sampleConfig sampleStoreConfig ⟨"minikube"⟩ none =
        some ⟨sampleStore, [StoreCall.mkdirAll ["/tmp/cache", "minikube"]]⟩ ∧
      resourceKey objB = some ("default_b", "default", [("app", "web"), ("tier", "db")]) ∧
      deleteTarget objB = some (some ("default_b", "default", [("app", "web"), ("tier", "db")]))) ∧
    (∃ added deleted, AddResource sampleStore objB = some added ∧
      DeleteResource added.store objB sampleNow none = some deleted ∧
      ∀ e ∈ [("app", "web"), ("tier", "db")],
        GoMap.get? deleted.store.labelMap ⟨"default", renderLabel e⟩ = some 0 ∧
        labelLine "minikube" ⟨⟨"default", renderLabel e⟩, 0⟩ ∈ labelLines deleted.store) ∧
    (runCalls sampleStore [.add objB, .delete objB sampleNow none]).map
        (fun k => generateLabel k) =
      some ("minikube default app=web 0\nminikube default tier=db 0", none) :=
  ⟨⟨rfl, rfl, rfl⟩,
    generateLabel_keeps_zero_counts.2 ReplicaSet sampleConfig sampleStoreConfig ⟨"minikube"⟩
      ⟨sampleStore, [StoreCall.mkdirAll ["/tmp/cache", "minikube"]]⟩ objB "default_b" "default"
      [("app", "web"), ("tier", "db")] sampleNow none rfl rfl rfl,
    by decide⟩

/-! ## C19 -/

theorem IsStringExcluded_iff (s : String) (regexps : List Regexp) :
    IsStringExcluded s regexps = true ↔ ∃ re ∈ regexps, re.MatchString s = true := by
  induction regexps with
  | nil => simp [IsStringExcluded]
  | cons re rest ih =>
    simp only [IsStringExcluded, List.mem_cons, exists_eq_or_imp]
    by_cases h : re.MatchString s = true
    · simp [h]
    · simp [h, ih]

theorem fetchNamespacesLoop_eq (excluded : List Regexp) (names : List String) :
    ∀ namespaces : List String,
      fetchNamespacesLoop excluded namespaces names =
        namespaces ++ names.filter (fun n => !IsStringExcluded n excluded) := by
  induction names with
  | nil => intro namespaces; simp [fetchNamespacesLoop]
  | cons n rest ih =>
    intro namespaces
    by_cases h : IsStringExcluded n excluded = true
    · simp [fetchNamespacesLoop, h, ih]
    · simp [fetchNamespacesLoop, h, ih]

/-- C19: for every list of namespace names returned by the cluster and every list
of exclusion patterns that compile, after `FetchNamespaces` on a freshly created
`ResourceWatcher` no error is returned and the `namespaces` field is exactly the
sublist, in the fetched order, of the names that match none of the exclusion
regexes: a name matching any of them does not appear, and no name matching none
of them is dropped. -/
theorem FetchNamespaces_filters (compile : String → Option Regexp) (storeConfig : StoreConfig)
    (patterns : List String) (w : ResourceWatcher) (names : List String)
    (hnew : NewResourceWatcher compile none storeConfig patterns = some w) :
    (FetchNamespaces w (.ok names)).2 = none ∧
    (FetchNamespaces w (.ok names)).1.namespaces =
      names.filter (fun n => !IsStringExcluded n w.excludedNamespaces) ∧
    List.Sublist (FetchNamespaces w (.ok names)).1.namespaces names ∧
    (∀ n ∈ (FetchNamespaces w (.ok names)).1.namespaces,
      ∀ re ∈ w.excludedNamespaces, re.MatchString n = false) ∧
    (∀ n ∈ names, (∀ re ∈ w.excludedNamespaces, re.MatchString n = false) →
      n ∈ (FetchNamespaces w (.ok names)).1.namespaces) := by
  have hfresh : w.namespaces = [] := by
    unfold NewResourceWatcher at hnew
    cases hc : compilePatterns compile patterns with
    | none => simp [hc] at hnew
    | some rgs =>
      simp only [hc, Option.some.injEq] at hnew
      rw [← hnew]
  have hres : (FetchNamespaces w (.ok names)).1.namespaces =
      names.filter (fun n => !IsStringExcluded n w.excludedNamespaces) := by
    simp only [FetchNamespaces]
    rw [fetchNamespacesLoop_eq, hfresh, List.nil_append]
  refine ⟨rfl, hres, ?_, ?_, ?_⟩
  · rw [hres]
    exact List.filter_sublist _
  · intro n hn re hre
    rw [hres, List.mem_filter] at hn
    have hex : ¬ IsStringExcluded n w.excludedNamespaces = true := by simpa using hn.2
    cases hm : re.MatchString n with
    | false => rfl
    | true => exact absurd ((IsStringExcluded_iff n _).2 ⟨re, hre, hm⟩) hex
  · intro n hn hnone
    rw [hres, List.mem_filter]
    refine ⟨hn, ?_⟩
    have hex : ¬ IsStringExcluded n w.excludedNamespaces = true := by
      rw [IsStringExcluded_iff]
      rintro ⟨re, hre, hm⟩
      rw [hnone re hre] at hm
      exact Bool.noConfusion hm
    simpa using hex

/-- Concrete run for C19: the pattern `^kube-` excludes `kube-system` and
`kube-public` from four fetched namespaces. -/
theorem FetchNamespaces_filters_witness :
    ∃ w, NewResourceWatcher (fun _ => some kubePrefixed) none sampleStoreConfig ["^kube-"] =
        some w ∧
      (FetchNamespaces w (.ok ["default", "kube-system", "monitoring", "kube-public"])).2 = none ∧
      (FetchNamespaces w (.ok ["default", "kube-system", "monitoring",
        "kube-public"])).1.namespaces = ["default", "monitoring"] :=
  ⟨_, rfl,
    (FetchNamespaces_filters (fun _ => some kubePrefixed) sampleStoreConfig ["^kube-"] _
      ["default", "kube-system", "monitoring", "kube-public"] rfl).1,
    by decide⟩

/-! ## C20 -/

theorem foldl_skip_eq_filter {α : Type} (skip : α → Bool) (l : List α) :
    ∀ acc : List α,
      l.foldl (fun acc w => if skip w then acc else acc ++ [w]) acc =
        acc ++ l.filter (fun w => !skip w) := by
  induction l with
  | nil => intro acc; simp
  | cons a rest ih =>
    intro acc
    by_cases h : skip a = true
    · simp [List.foldl_cons, h, ih]
    · simp [List.foldl_cons, h, ih]

theorem get_foldl_set_isSome (lst : List String) (x : String) :
    ∀ m : GoMap String Bool,
      (GoMap.get? (lst.foldl (fun res el => GoMap.set res el true) m) x).isSome = true ↔
        (GoMap.get? m x).isSome = true ∨ x ∈ lst := by
  induction lst with
  | nil => intro m; simp
  | cons a rest ih =>
    intro m
    rw [List.foldl_cons, ih]
    by_cases h : x = a
    · subst h
      simp [GoMap.get_set_self]
    · simp [GoMap.get_set_of_ne _ _ h, h]

theorem StringSliceToSet_isSome (lst : List String) (x : String) :
    (GoMap.get? (StringSliceToSet lst) x).isSome = true ↔ x ∈ lst := by
  unfold StringSliceToSet
  rw [get_foldl_set_isSome]
  simp [GoMap.get?]

theorem GetWatchConfigs_eq_filter (t : ResourceTable R) (nodePollingPeriod
    namespacePollingPeriod : Int) (excludedResources : List String) :
    GetWatchConfigs t nodePollingPeriod namespacePollingPeriod excludedResources =
      (allWatchConfigs t nodePollingPeriod namespacePollingPeriod).filter
        (fun w => decide (w.resourceName ∉ excludedResources)) := by
  unfold GetWatchConfigs
  simp only []
  rw [foldl_skip_eq_filter (fun w : WatchConfig R =>
    (GoMap.get? (StringSliceToSet excludedResources) w.resourceName).isSome), List.nil_append]
  apply List.filter_congr
  intro w _
  by_cases h : w.resourceName ∈ excludedResources
  · simp [h, (StringSliceToSet_isSome excludedResources w.resourceName).2 h]
  · have h2 : ¬ (GoMap.get? (StringSliceToSet excludedResources) w.resourceName).isSome = true :=
      fun hs => h ((StringSliceToSet_isSome excludedResources w.resourceName).1 hs)
    simp [h, h2]

/-- C20: for every list `excludedResources`, `GetWatchConfigs` returns exactly the
subsequence, in table order, of the fixed 18-entry watch-config table (whose
resource names are pairwise distinct) of the entries whose `resourceName` is not
an element of `excludedResources`: no excluded resource type appears in the
result, every non-excluded entry appears, unmodified and once, and a name in
`excludedResources` that matches no table entry has no effect. -/
theorem GetWatchConfigs_filters_table (t : ResourceTable R)
    (nodePollingPeriod namespacePollingPeriod : Int) (excludedResources : List String) :
    (allWatchConfigs t nodePollingPeriod namespacePollingPeriod).length = 18 ∧
    ((allWatchConfigs t nodePollingPeriod namespacePollingPeriod).map
      (fun w => w.resourceName)).Nodup ∧
    GetWatchConfigs t nodePollingPeriod namespacePollingPeriod excludedResources =
      (allWatchConfigs t nodePollingPeriod namespacePollingPeriod).filter
        (fun w => decide (w.resourceName ∉ excludedResources)) ∧
    List.Sublist (GetWatchConfigs t nodePollingPeriod namespacePollingPeriod excludedResources)
      (allWatchConfigs t nodePollingPeriod namespacePollingPeriod) ∧
    (∀ w ∈ GetWatchConfigs t nodePollingPeriod namespacePollingPeriod excludedResources,
      w.resourceName ∉ excludedResources) ∧
    (∀ w ∈ allWatchConfigs t nodePollingPeriod namespacePollingPeriod,
      w.resourceName ∉ excludedResources →
      w ∈ GetWatchConfigs t nodePollingPeriod namespacePollingPeriod excludedResources) ∧
    ((GetWatchConfigs t nodePollingPeriod namespacePollingPeriod excludedResources).map
      (fun w => w.resourceName)).Nodup ∧
    (∀ name : String,
      (∀ w ∈ allWatchConfigs t nodePollingPeriod namespacePollingPeriod, w.resourceName ≠ name) →
      GetWatchConfigs t nodePollingPeriod namespacePollingPeriod (name :: excludedResources) =
        GetWatchConfigs t nodePollingPeriod namespacePollingPeriod excludedResources) := by
  have hnames : ((allWatchConfigs t nodePollingPeriod namespacePollingPeriod).map
      (fun w => w.resourceName)).Nodup := by
    simp only [allWatchConfigs, List.map_cons, List.map_nil]
    decide
  have hsub : List.Sublist
      (GetWatchConfigs t nodePollingPeriod namespacePollingPeriod excludedResources)
      (allWatchConfigs t nodePollingPeriod namespacePollingPeriod) := by
    rw [GetWatchConfigs_eq_filter]
    exact List.filter_sublist _
  refine ⟨rfl, hnames, GetWatchConfigs_eq_filter _ _ _ _, hsub, ?_, ?_, ?_, ?_⟩
  · intro w hw
    rw [GetWatchConfigs_eq_filter, List.mem_filter] at hw
    simpa using hw.2
  · intro w hw hne
    rw [GetWatchConfigs_eq_filter, List.mem_filter]
    exact ⟨hw, by simpa using hne⟩
  · exact List.Nodup.sublist (List.Sublist.map _ hsub) hnames
  · intro name hno
    rw [GetWatchConfigs_eq_filter, GetWatchConfigs_eq_filter]
    apply List.filter_congr
    intro w hw
    have hne := hno w hw
    simp [hne]

/-- Concrete run for C20: `secrets` and `nodes` are excluded, together with a name
that is in no table entry. -/
theorem GetWatchConfigs_filters_table_witness :
    (GetWatchConfigs sampleTable 30 60 ["secrets", "nosuchresource", "nodes"]).map
        (fun w => w.resourceName) =
      ["pods", "configmaps", "services", "serviceaccounts", "replicasets", "daemonsets",
        "statefulsets", "deployments", "endpoints", "ingresses", "cronjobs", "jobs",
        "horizontalpodautoscalers", "persistentvolumes", "persistentvolumeclaims",
        "namespaces"] ∧
    ∀ w ∈ GetWatchConfigs sampleTable 30 60 ["secrets", "nosuchresource", "nodes"],
      w.resourceName ∉ ["secrets", "nosuchresource", "nodes"] :=
  ⟨by decide,
    (GetWatchConfigs_filters_table sampleTable 30 60
      ["secrets", "nosuchresource", "nodes"]).2.2.2.2.1⟩

/-! ## C21 -/

/-- C21: for every `WatchConfig`, a call of `Start` that returns creates exactly
one store (the one `NewK8sStore` builds), appends exactly one cancel function,
returns no error, and launches exactly one goroutine: the poll task if
`pollingPeriod > 0`, whatever `splitByNamespaces` is; otherwise a watch task over
the watcher's namespace list when `splitByNamespaces` is true, and over the
single entry `""` when it is false. -/
theorem Start_launches_one_strategy (r : ResourceWatcher) (cfg : WatchConfig R)
    (ctorConfig : CtorConfig) (mkdirErr : Option String) (s : Started R)
    (h : Start r cfg ctorConfig mkdirErr = some s) :
    ∃ out, NewK8sStore cfg r.storeConfig ctorConfig mkdirErr = some out ∧
      s.stores = [out.store] ∧
      s.watcher.cancelFuncs = r.cancelFuncs ++ [cfg.resourceName] ∧
      s.watcher.namespaces = r.namespaces ∧
      s.err = none ∧
      s.tasks.length = 1 ∧
      (cfg.pollingPeriod > 0 → s.tasks = [.pollResource cfg out.store]) ∧
      (¬ cfg.pollingPeriod > 0 → cfg.splitByNamespaces = true →
        s.tasks = [.watchResource cfg out.store r.namespaces]) ∧
      (¬ cfg.pollingPeriod > 0 → cfg.splitByNamespaces = false →
        s.tasks = [.watchResource cfg out.store [""]]) := by
  unfold Start at h
  cases hnew : NewK8sStore cfg r.storeConfig ctorConfig mkdirErr with
  | none =>
    simp only [hnew] at h
    split_ifs at h
  | some out =>
    simp only [hnew] at h
    refine ⟨out, rfl, ?_⟩
    by_cases hp : cfg.pollingPeriod > 0
    · simp only [hp, if_true, Option.some.injEq] at h
      subst h
      exact ⟨rfl, rfl, rfl, rfl, rfl, fun _ => rfl, fun hn => absurd hp hn,
        fun hn => absurd hp hn⟩
    · by_cases hs : cfg.splitByNamespaces = true
      · simp only [hp, hs, if_true, if_false, Option.some.injEq] at h
        subst h
        exact ⟨rfl, rfl, rfl, rfl, rfl, fun hq => absurd hq hp, fun _ _ => rfl,
          fun _ hf => by rw [hs] at hf; exact Bool.noConfusion hf⟩
      · have hs2 : cfg.splitByNamespaces = false := by simpa using hs
        simp only [hp, hs2, if_false, Bool.false_eq_true, Option.some.injEq] at h
        subst h
        exact ⟨rfl, rfl, rfl, rfl, rfl, fun hq => absurd hq hp, fun _ ht => absurd ht hs,
          fun _ _ => rfl⟩

/-- Concrete runs for C21: the watch configuration of replica sets (no polling,
not split) and the same configuration polled every thirty seconds with
`splitByNamespaces` set. -/
theorem Start_launches_one_strategy_witness :
    (∃ s, Start sampleWatcher sampleConfig ⟨"minikube"⟩ none = some s ∧
      s.watcher.cancelFuncs = ["pods", "replicasets"] ∧ s.tasks.length = 1 ∧
      s.tasks = [.watchResource sampleConfig sampleStore [""]]) ∧
    (∃ s, Start sampleWatcher
        { sampleConfig with pollingPeriod := 30000000000, splitByNamespaces := true }
        ⟨"minikube"⟩ none = some s ∧
      s.tasks = [.pollResource
        { sampleConfig with pollingPeriod := 30000000000, splitByNamespaces := true }
        sampleStore]) := by
  refine ⟨⟨_, rfl, ?_⟩, ⟨_, rfl, ?_⟩⟩
  · obtain ⟨out, hnew, -, hc, -, -, hl, -, -, hw⟩ :=
      Start_launches_one_strategy sampleWatcher sampleConfig ⟨"minikube"⟩ none _ rfl
    exact ⟨hc, hl, rfl⟩
  · obtain ⟨out, hnew, -, -, -, -, -, hp, -, -⟩ :=
      Start_launches_one_strategy sampleWatcher
        { sampleConfig with pollingPeriod := 30000000000, splitByNamespaces := true }
        ⟨"minikube"⟩ none _ rfl
    exact rfl


/-! ## Helpers of `util` -/

theorem StringSlicesEqual_self (a : List String) : StringSlicesEqual a a = true := by
  simp [StringSlicesEqual]

/-! ## C22 -/

/-- C22: `StringMapsEqual` returns true for two maps with different keys: for the
label maps `canary=""` and `stable=""` (and for any two one-entry maps whose
values are empty) the lengths agree and the key missing from the second map
reads as the empty string, so no difference is found, while the first map has
the key `canary` and the second has not. -/
theorem StringMapsEqual_accepts_different_keys :
    StringMapsEqual [("canary", "")] [("stable", "")] = true ∧
      GoMap.get? ([("canary", "")] : GoMap String String) "canary" = some "" ∧
      GoMap.get? ([("stable", "")] : GoMap String String) "canary" = none ∧
      ∀ x y : String, StringMapsEqual [(x, "")] [(y, "")] = true := by
  refine ⟨by decide, by decide, by decide, ?_⟩
  intro x y
  by_cases h : x = y
  · simp [StringMapsEqual, GoMap.get?, h]
  · have h2 : ¬ y = x := fun e => h e.symm
    simp [StringMapsEqual, GoMap.get?, h2]

/-! ## C23 -/

/-- C23: `FilterSliceWithRegexps` applied to `kube-system`, `default` with the
pattern `^kube-` returns the one-element slice holding the empty string, where
the elements matching no pattern are `default`; `ExcludeFromSlice` applied to
`pod-template-hash`, `app` with `pod-template-hash` excluded does the same. -/
theorem FilterSliceWithRegexps_returns_blank :
    FilterSliceWithRegexps ["kube-system", "default"] [kubePrefixed] = [""] ∧
      ["kube-system", "default"].filter (fun s => !IsStringExcluded s [kubePrefixed]) =
        ["default"] ∧
      ExcludeFromSlice ["pod-template-hash", "app"] [("pod-template-hash", "")] = [""] ∧
      ["pod-template-hash", "app"].filter
        (fun v => (GoMap.get? ([("pod-template-hash", "")] : GoMap String String) v).isNone) =
        ["app"] := by
  refine ⟨by decide, by decide, by decide, by decide⟩

/-! ## C24 -/

/-- C24: `JoinStringMap` returns the same list whatever `exclude` is; for the
selector `app=web`, `pod-template-hash=5d4f8` with `pod-template-hash`
excluded, its result holds an element for the excluded key. -/
theorem JoinStringMap_ignores_exclude :
    (∀ (m exclude : GoMap String String) (sep : String),
        JoinStringMap m exclude sep = JoinStringMap m [] sep) ∧
      JoinStringMap [("app", "web"), ("pod-template-hash", "5d4f8")]
        [("pod-template-hash", "")] "=" = ["app=web", "pod-template-hash=5d4f8"] ∧
      (GoMap.get? ([("pod-template-hash", "")] : GoMap String String)
        "pod-template-hash").isSome = true :=
  ⟨fun _ _ _ => rfl, by decide, by decide⟩

/-! ## C25 -/

/-- C25: for every non-empty slice and every `max >= 0`, `JoinSlicesWithMaxOrNone`
returns all elements joined when the slice has fewer than `max` elements, and
the first `max` elements followed by `...` when it has `max` elements or more:
a slice of exactly `max` elements is returned whole with the ellipsis appended.
For an empty slice it returns `None`; `JoinSlicesOrNone` returns `None` for an
empty slice and the joined elements otherwise. -/
theorem JoinSlicesWithMaxOrNone_ellipsis_at_max (sl : List String) (max : Int) (sep : String)
    (hne : sl ≠ []) (hmax : 0 ≤ max) :
    ((sl.length : Int) < max → JoinSlicesWithMaxOrNone sl max sep = some (sep.intercalate sl)) ∧
      ((sl.length : Int) = max →
        JoinSlicesWithMaxOrNone sl max sep = some (sep.intercalate (sl ++ ["..."]))) ∧
      (max < (sl.length : Int) →
        JoinSlicesWithMaxOrNone sl max sep =
          some (sep.intercalate (sl.take max.toNat ++ ["..."]))) ∧
      JoinSlicesWithMaxOrNone [] max sep = some "None" ∧
      JoinSlicesOrNone [] sep = "None" ∧
      JoinSlicesOrNone sl sep = sep.intercalate sl := by
  have hlen : sl.length ≠ 0 := fun h => hne (List.length_eq_zero.1 h)
  refine ⟨?_, ?_, ?_, by simp [JoinSlicesWithMaxOrNone], by simp [JoinSlicesOrNone], ?_⟩
  · intro h
    simp [JoinSlicesWithMaxOrNone, hlen, h]
  · intro h
    have h1 : ¬ (sl.length : Int) < max := by omega
    have h2 : ¬ max < 0 := by omega
    have h3 : max.toNat = sl.length := by omega
    simp only [JoinSlicesWithMaxOrNone, hlen, h1, h2, if_false, h3, List.take_length]
  · intro h
    have h1 : ¬ (sl.length : Int) < max := by omega
    have h2 : ¬ max < 0 := by omega
    simp only [JoinSlicesWithMaxOrNone, hlen, h1, h2, if_false]
  · simp [JoinSlicesOrNone, hlen]

/-- Concrete run for C25: two elements and `max = 2` give both elements and the
ellipsis. -/
theorem JoinSlicesWithMaxOrNone_ellipsis_at_max_witness :
    JoinSlicesWithMaxOrNone ["a", "b"] 2 "," = some "a,b,..." ∧
      JoinSlicesWithMaxOrNone ["a", "b"] 3 "," = some "a,b" ∧
      JoinSlicesWithMaxOrNone ["a", "b", "c"] 2 "," = some "a,b,..." :=
  ⟨(JoinSlicesWithMaxOrNone_ellipsis_at_max ["a", "b"] 2 "," (by decide) (by decide)).2.1
      (by decide),
    by decide, by decide⟩

/-! ## C26 -/

/-- C26: `HasChanged` of `Service` and of `ReplicaSet` returns true for every
record compared with itself, where no compared field differs; and it returns
false for a service whose ports, selectors and labels were all replaced, and
for a replica set whose selectors and labels were replaced. -/
theorem HasChanged_reports_equal_records :
    (∀ s : Service, Service.HasChanged s s = true) ∧
      (∀ r : ReplicaSet, ReplicaSet.HasChanged r r = true) ∧
      Service.HasChanged serviceWebChanged serviceWeb = false ∧
      serviceWebChanged.ports ≠ serviceWeb.ports ∧
      serviceWebChanged.selectors ≠ serviceWeb.selectors ∧
      serviceWebChanged.Labels ≠ serviceWeb.Labels ∧
      ReplicaSet.HasChanged recAChanged recA = false ∧
      recAChanged.selectors ≠ recA.selectors ∧ recAChanged.Labels ≠ recA.Labels := by
  refine ⟨fun s => ?_, fun r => ?_, by decide, by decide, by decide, by decide, by decide,
    by decide, by decide⟩
  · simp [Service.HasChanged, StringSlicesEqual_self]
  · simp [ReplicaSet.HasChanged, StringSlicesEqual_self]


/-! ## C27 -/

theorem wellFormed_take [K8sResource R] (calls : List Call) (k : K8sStore R) (n : Nat)
    (hwf : wellFormed k calls = true) : wellFormed k (calls.take n) = true := by
  induction calls generalizing k n with
  | nil => simpa using hwf
  | cons c cs ih =>
    cases n with
    | zero => simp [wellFormed]
    | succ m =>
      cases c with
      | add obj =>
        simp only [wellFormed, Bool.and_eq_true, List.take_succ_cons] at hwf ⊢
        refine ⟨hwf.1, ?_⟩
        cases hk : applyCall k (.add obj) with
        | none => simp [hk] at hwf
        | some k1 =>
          have h2 := hwf.2
          simp only [hk] at h2 ⊢
          exact ih k1 m h2
      | delete obj now encErr =>
        simp only [wellFormed, Bool.and_eq_true, List.take_succ_cons] at hwf ⊢
        refine ⟨hwf.1, ?_⟩
        cases hk : applyCall k (.delete obj now encErr) with
        | none => simp [hk] at hwf
        | some k1 =>
          have h2 := hwf.2
          simp only [hk] at h2 ⊢
          exact ih k1 m h2

theorem exact_of_new [K8sResource R] (cfg : WatchConfig R) (storeConfig : StoreConfig)
    (ctorConfig : CtorConfig) (mkdirErr : Option String) (out : Outcome R)
    (hnew : NewK8sStore cfg storeConfig ctorConfig mkdirErr = some out) : Exact out.store := by
  unfold NewK8sStore at hnew
  cases mkdirErr with
  | some e => simp at hnew
  | none =>
    simp only [Option.some.injEq] at hnew
    subst hnew
    exact ⟨by simp [GoMap.keys], fun key => by simp [labelCount, recordCount, GoMap.get?]⟩

/-- Counterexample to C27 as stated: on a freshly created store, whose data map
holds no key, one `AddResource` call for `default/c`, an object with two labels
that render to the same text `a=b=c`, stores one record, copied from the object
by the converter, while the label index counts `a=b=c` twice. -/
theorem label_index_overcounts_colliding_labels :
    ∃ out k, NewK8sStore sampleConfig sampleStoreConfig ⟨"minikube"⟩ none = some out ∧
      keyOf objC = some "default_c" ∧
      GoMap.get? out.store.data "default_c" = none ∧
      runCalls out.store [.add objC] = some k ∧
      GoMap.keys k.data = ["default_c"] ∧
      (GoMap.get? k.data "default_c").map (fun r => (r.Namespace, r.Labels)) =
        some ("default", [("a=b", "c"), ("a", "b=c")]) ∧
      labelCount k.labelMap ⟨"default", "a=b=c"⟩ = 2 ∧
      recordCount k.data ⟨"default", "a=b=c"⟩ = 1 ∧
      wellFormed out.store [.add objC] = false :=
  ⟨_, _, rfl, by decide, by decide, rfl, by decide, by decide, by decide, by decide, by decide⟩

/-- C27 (amended): for every sequence of `AddResource` and `DeleteResource` calls
on a fresh store that is well formed (every add is for a key not stored, with a
converter that copies namespace and labels and labels rendering to distinct
texts; every delete is for a stored key and carries the namespace and labels of
the stored record), after each number `n` of calls the calls made so far have
all returned and, for every namespace and label, the count of the label index
(absent counting as 0) equals the number of stored records of the namespace
carrying the label; no count read from the index and no count stored in it is
negative. -/
theorem label_index_exact_at_every_step [K8sResource R] (cfg : WatchConfig R)
    (storeConfig : StoreConfig) (ctorConfig : CtorConfig) (mkdirErr : Option String)
    (out : Outcome R) (calls : List Call) (n : Nat)
    (hnew : NewK8sStore cfg storeConfig ctorConfig mkdirErr = some out)
    (hwf : wellFormed out.store calls = true) :
    ∃ k, runCalls out.store (calls.take n) = some k ∧
      (∀ key : LabelKey, labelCount k.labelMap key = (recordCount k.data key : Int)) ∧
      (∀ key : LabelKey, 0 ≤ labelCount k.labelMap key) ∧
      ∀ (key : LabelKey) (v : Int), GoMap.get? k.labelMap key = some v → 0 ≤ v := by
  obtain ⟨k, hk, hex⟩ := exact_runCalls (calls.take n) out.store
    (exact_of_new cfg storeConfig ctorConfig mkdirErr out hnew) (wellFormed_take calls out.store n hwf)
  have hpos : ∀ key : LabelKey, 0 ≤ labelCount k.labelMap key := by
    intro key
    rw [hex.2 key]
    exact Int.ofNat_nonneg _
  refine ⟨k, hk, hex.2, hpos, ?_⟩
  intro key v hv
  have h := hpos key
  simpa [labelCount, hv] using h

/-- Concrete run for C27 (amended): add `default/a`, add `default/b`, delete `default/a` on
a fresh store, read after two calls: the label `app=web`, carried by both
records, is counted twice. -/
theorem label_index_exact_at_every_step_witness :
    (NewK8sStore sampleConfig sampleStoreConfig ⟨"minikube"⟩ none =
        some ⟨sampleStore, [StoreCall.mkdirAll ["/tmp/cache", "minikube"]]⟩ ∧
      wellFormed sampleStore [.add objA, .add objB, .delete objA sampleNow none] = true) ∧
    (∃ k, runCalls sampleStore
        ([Call.add objA, .add objB, .delete objA sampleNow none].take 2) = some k ∧
      (∀ key : LabelKey, labelCount k.labelMap key = (recordCount k.data key : Int)) ∧
      (∀ key : LabelKey, 0 ≤ labelCount k.labelMap key) ∧
      ∀ (key : LabelKey) (v : Int), GoMap.get? k.labelMap key = some v → 0 ≤ v) ∧
    ∃ k, runCalls sampleStore [.add objA, .add objB] = some k ∧
      labelCount k.labelMap ⟨"default", "app=web"⟩ = 2 :=
  ⟨⟨rfl, by decide⟩,
    label_index_exact_at_every_step sampleConfig sampleStoreConfig ⟨"minikube"⟩ none
      ⟨sampleStore, [StoreCall.mkdirAll ["/tmp/cache", "minikube"]]⟩
      [.add objA, .add objB, .delete objA sampleNow none] 2 rfl (by decide),
    ⟨_, rfl, by decide⟩⟩


/-! ## C28 -/

theorem DumpFullState_labelToDump (k : K8sStore R) (now : Int) (encErr : Option String) :
    (DumpFullState k now encErr).1.store.labelToDump = k.labelToDump := by
  simp only [DumpFullState]
  split_ifs <;> rfl

theorem DumpFullState_calls (k : K8sStore R) (now : Int) (encErr : Option String) :
    ∀ c ∈ (DumpFullState k now encErr).1.calls,
      c = StoreCall.encodeToFile (DumpFullState k now encErr).1.store.data
        (getFilePath (DumpFullState k now encErr).1.store "resource") := by
  simp only [DumpFullState]
  split_ifs <;> simp

theorem addResourceLoop_labelToDump (lst : List Obj) (k k1 : K8sStore R)
    (h : addResourceLoop k lst = some k1) : k1.labelToDump = k.labelToDump := by
  induction lst generalizing k with
  | nil =>
    simp only [addResourceLoop, Option.some.injEq] at h
    rw [← h]
  | cons obj rest ih =>
    cases hkey : resourceKey obj with
    | none => simp [addResourceLoop, hkey] at h
    | some t =>
      obtain ⟨key, ns, labels⟩ := t
      simp only [addResourceLoop, hkey] at h
      rw [ih _ h]
      rfl

theorem applyOp_labelToDump [K8sResource R] (k : K8sStore R) (op : StoreOp R) (o : Outcome R)
    (h : applyOp k op = some o) : o.store.labelToDump = k.labelToDump := by
  cases op with
  | addResource obj =>
    simp only [applyOp] at h
    cases hkey : resourceKey obj with
    | none => simp [AddResource, hkey] at h
    | some t =>
      obtain ⟨key, ns, labels⟩ := t
      rw [AddResource_eq k obj key ns labels hkey, Option.some.injEq] at h
      rw [← h]
      rfl
  | addResourceList lst now encErr =>
    simp only [applyOp, AddResourceList] at h
    cases hl : addResourceLoop (resetLabelMap { k with data := [] }) lst with
    | none => simp [hl] at h
    | some k1 =>
      simp only [hl, Option.some.injEq] at h
      rw [← h, DumpFullState_labelToDump, addResourceLoop_labelToDump lst _ k1 hl]
      rfl
  | updateResource oldObj newObj now encErr =>
    simp only [applyOp, UpdateResource] at h
    cases hkey : resourceKey newObj with
    | none => simp [hkey] at h
    | some t =>
      obtain ⟨key, ns, labels⟩ := t
      simp only [hkey] at h
      cases hc : K8sResource.HasChanged (k.resourceCtor newObj k.ctorConfig)
          (GoMap.get? k.data key) with
      | none => simp [hc] at h
      | some b =>
        cases b with
        | true =>
          simp only [hc, Option.some.injEq] at h
          rw [← h, DumpFullState_labelToDump]
        | false =>
          simp only [hc, Option.some.injEq] at h
          rw [← h]
  | deleteResource obj now encErr =>
    simp only [applyOp, DeleteResource] at h
    cases ht : deleteTarget obj with
    | none => simp [ht] at h
    | some t =>
      cases t with
      | none =>
        simp only [ht, Option.some.injEq] at h
        rw [← h]
      | some t2 =>
        obtain ⟨key, ns, labels⟩ := t2
        simp only [ht, Option.some.injEq] at h
        rw [← h, DumpFullState_labelToDump]
        rfl
  | appendNewObject resource =>
    simp only [applyOp, AppendNewObject, Option.some.injEq] at h
    rw [← h]
  | dumpFullState now encErr =>
    simp only [applyOp, Option.some.injEq] at h
    rw [← h, DumpFullState_labelToDump]

theorem applyOp_calls [K8sResource R] (k : K8sStore R) (op : StoreOp R) (o : Outcome R)
    (h : applyOp k op = some o) :
    ∀ c ∈ o.calls, c = StoreCall.encodeToFile o.store.data (getFilePath o.store "resource") := by
  cases op with
  | addResource obj =>
    simp only [applyOp] at h
    cases hkey : resourceKey obj with
    | none => simp [AddResource, hkey] at h
    | some t =>
      obtain ⟨key, ns, labels⟩ := t
      rw [AddResource_eq k obj key ns labels hkey, Option.some.injEq] at h
      rw [← h]
      simp
  | addResourceList lst now encErr =>
    simp only [applyOp, AddResourceList] at h
    cases hl : addResourceLoop (resetLabelMap { k with data := [] }) lst with
    | none => simp [hl] at h
    | some k1 =>
      simp only [hl, Option.some.injEq] at h
      rw [← h]
      exact DumpFullState_calls k1 now encErr
  | updateResource oldObj newObj now encErr =>
    simp only [applyOp, UpdateResource] at h
    cases hkey : resourceKey newObj with
    | none => simp [hkey] at h
    | some t =>
      obtain ⟨key, ns, labels⟩ := t
      simp only [hkey] at h
      cases hc : K8sResource.HasChanged (k.resourceCtor newObj k.ctorConfig)
          (GoMap.get? k.data key) with
      | none => simp [hc] at h
      | some b =>
        cases b with
        | true =>
          simp only [hc, Option.some.injEq] at h
          rw [← h]
          exact DumpFullState_calls _ now encErr
        | false =>
          simp only [hc, Option.some.injEq] at h
          rw [← h]
          simp
  | deleteResource obj now encErr =>
    simp only [applyOp, DeleteResource] at h
    cases ht : deleteTarget obj with
    | none => simp [ht] at h
    | some t =>
      cases t with
      | none =>
        simp only [ht, Option.some.injEq] at h
        rw [← h]
        simp
      | some t2 =>
        obtain ⟨key, ns, labels⟩ := t2
        simp only [ht, Option.some.injEq] at h
        rw [← h]
        exact DumpFullState_calls _ now encErr
  | appendNewObject resource =>
    simp only [applyOp, AppendNewObject, Option.some.injEq] at h
    rw [← h]
    simp
  | dumpFullState now encErr =>
    simp only [applyOp, Option.some.injEq] at h
    rw [← h]
    exact DumpFullState_calls k now encErr

theorem runOps_labelToDump [K8sResource R] (ops : List (StoreOp R)) (k k1 : K8sStore R)
    (h : runOps k ops = some k1) : k1.labelToDump = k.labelToDump := by
  induction ops generalizing k with
  | nil =>
    simp only [runOps, Option.some.injEq] at h
    rw [← h]
  | cons op rest ih =>
    simp only [runOps] at h
    cases ho : applyOp k op with
    | none => simp [ho] at h
    | some o =>
      simp only [ho] at h
      rw [ih _ h, applyOp_labelToDump k op o ho]

theorem resource_path_ne_label_path (k : K8sStore R) :
    getFilePath k "resource" ≠ k.destDir ++ [k.resourceName ++ "_" ++ "label"] := by
  intro h
  simp only [getFilePath, List.append_cancel_left_eq, List.cons.injEq, and_true] at h
  have h2 := congrArg String.data h
  simp only [String.data_append, List.append_assoc, List.append_cancel_left_eq] at h2
  exact absurd h2 (by decide)

/-- C28: in every store state reached from `NewK8sStore` by a sequence of
`AddResource`, `AddResourceList`, `UpdateResource`, `DeleteResource`,
`AppendNewObject` and `DumpFullState` calls, `labelToDump` is false; a tick of
`periodicLabelDump` in such a state returns without calling `dumpLabel` and
leaves the store and every file as they were; and every file-system call a
further method call makes is the `EncodeToFile` of the resource file, whose
path is not the path of the label file. -/
theorem labelToDump_never_set [K8sResource R] (cfg : WatchConfig R) (storeConfig : StoreConfig)
    (ctorConfig : CtorConfig) (mkdirErr : Option String) (out : Outcome R)
    (ops : List (StoreOp R)) (k : K8sStore R)
    (hnew : NewK8sStore cfg storeConfig ctorConfig mkdirErr = some out)
    (hrun : runOps out.store ops = some k) :
    k.labelToDump = false ∧
      (∀ (e : TempWriteEnv) (fs : FileSystem) (now : Int),
        periodicLabelDumpTick e fs k now =
          some { store := k, files := fs, dumpLabelCalled := false }) ∧
      (∀ (op : StoreOp R) (o : Outcome R), applyOp k op = some o →
        ∀ c ∈ o.calls,
          c = StoreCall.encodeToFile o.store.data (getFilePath o.store "resource") ∧
            getFilePath o.store "resource" ≠
              o.store.destDir ++ [o.store.resourceName ++ "_" ++ "label"]) := by
  have hfalse : k.labelToDump = false := by
    rw [runOps_labelToDump ops out.store k hrun]
    unfold NewK8sStore at hnew
    cases mkdirErr with
    | some e => simp at hnew
    | none =>
      simp only [Option.some.injEq] at hnew
      rw [← hnew]
  refine ⟨hfalse, ?_, ?_⟩
  · intro e fs now
    simp [periodicLabelDumpTick, hfalse]
  · intro op o ho c hc
    exact ⟨applyOp_calls k op o ho c hc, resource_path_ne_label_path o.store⟩

/-- Concrete run for C28: on a fresh store, add `default/a`, replace the content
by the list holding `default/b`, update it, delete `default/a` and dump; the
flag is false afterwards and a tick changes nothing. -/
theorem labelToDump_never_set_witness :
    NewK8sStore sampleConfig sampleStoreConfig ⟨"minikube"⟩ none =
        some ⟨sampleStore, [StoreCall.mkdirAll ["/tmp/cache", "minikube"]]⟩ ∧
      ∃ k, runOps sampleStore
          [.addResource objA, .addResourceList [objB] sampleNow none,
            .updateResource objB objB sampleNow none, .deleteResource objA sampleNow none,
            .appendNewObject recA, .dumpFullState sampleNow none] = some k ∧
        k.labelToDump = false ∧
        periodicLabelDumpTick sampleTempEnv [] k sampleNow =
          some { store := k, files := [], dumpLabelCalled := false } := by
  obtain ⟨k, hk⟩ := Option.isSome_iff_exists.1
    (show (runOps sampleStore
      [.addResource objA, .addResourceList [objB] sampleNow none,
        .updateResource objB objB sampleNow none, .deleteResource objA sampleNow none,
        .appendNewObject recA, .dumpFullState sampleNow none]).isSome = true by decide)
  exact ⟨rfl, k, hk,
    (labelToDump_never_set sampleConfig sampleStoreConfig ⟨"minikube"⟩ none
      ⟨sampleStore, [StoreCall.mkdirAll ["/tmp/cache", "minikube"]]⟩ _ k rfl hk).1,
    (labelToDump_never_set sampleConfig sampleStoreConfig ⟨"minikube"⟩ none
      ⟨sampleStore, [StoreCall.mkdirAll ["/tmp/cache", "minikube"]]⟩ _ k rfl hk).2.1
      sampleTempEnv [] sampleNow⟩


/-! ## C29 -/

/-- C29: `Less` is irreflexive and transitive, and of two pairs with different
keys exactly one is `Less` than the other; so a label index has only one
arrangement in which no pair is `Less` than a pair before it, the one
`generateLabel` renders, and two stores of one cluster whose label indexes hold
the same entries, enumerated in any two orders, get the same text from
`generateLabel`. -/
theorem generateLabel_order_independent (k k2 : K8sStore R)
    (hperm : k2.labelMap.Perm k.labelMap)
    (hc : k2.ctorConfig.Cluster = k.ctorConfig.Cluster) :
    (∀ p : LabelPair, p.Less p = false) ∧
      (∀ p q r : LabelPair, p.Less q = true → q.Less r = true → p.Less r = true) ∧
      (∀ p q : LabelPair, p.Key ≠ q.Key →
        (p.Less q = true ∧ q.Less p = false) ∨ (q.Less p = true ∧ p.Less q = false)) ∧
      (∀ pl : LabelPairList, pl.Perm (labelPairList k) → List.Sorted LabelPair.NotAfter pl →
        pl = sortPairs (labelPairList k)) ∧
      generateLabel k2 = generateLabel k := by
  haveI : IsAntisymm LabelPair LabelPair.NotAfter :=
    ⟨fun p q h1 h2 => rank_injective p q
      (le_antisymm ((NotAfter_iff_rank_le p q).1 h1) ((NotAfter_iff_rank_le q p).1 h2))⟩
  have hirr : ∀ p : LabelPair, p.Less p = false := fun p =>
    Bool.eq_false_iff.2 (fun h => lt_irrefl _ ((Less_iff_rank_lt p p).1 h))
  have hasym : ∀ p q : LabelPair, p.Less q = true → q.Less p = false := fun p q h =>
    Bool.eq_false_iff.2 (fun h2 =>
      lt_asymm ((Less_iff_rank_lt p q).1 h) ((Less_iff_rank_lt q p).1 h2))
  have huniq : ∀ (k3 : K8sStore R) (pl : LabelPairList), pl.Perm (labelPairList k3) →
      List.Sorted LabelPair.NotAfter pl → pl = sortPairs (labelPairList k3) := fun k3 pl hp hs =>
    List.eq_of_perm_of_sorted (hp.trans (sortPairs_perm _).symm) hs (sortPairs_sorted _)
  refine ⟨hirr, ?_, ?_, huniq k, ?_⟩
  · intro p q r hpq hqr
    rw [Less_iff_rank_lt] at *
    exact lt_trans hpq hqr
  · intro p q hne
    have hr : p.rank ≠ q.rank := fun h => hne (congrArg LabelPair.Key (rank_injective p q h))
    rcases lt_or_gt_of_ne hr with h | h
    · exact Or.inl ⟨(Less_iff_rank_lt p q).2 h, hasym p q ((Less_iff_rank_lt p q).2 h)⟩
    · exact Or.inr ⟨(Less_iff_rank_lt q p).2 h, hasym q p ((Less_iff_rank_lt q p).2 h)⟩
  · have hpl : (labelPairList k2).Perm (labelPairList k) := by
      unfold labelPairList
      exact hperm.map _
    have hs : sortPairs (labelPairList k2) = sortPairs (labelPairList k) :=
      huniq k _ ((sortPairs_perm _).trans hpl) (sortPairs_sorted _)
    rw [generateLabel_eq, generateLabel_eq]
    unfold labelLines
    rw [hs, hc]

/-- Concrete run for C29: a label index with `tier=db` counted once and `app=web`
counted twice, enumerated in both orders, renders to the same two lines. -/
theorem generateLabel_order_independent_witness :
    generateLabel (sampleStoreLabels [(⟨"default", "app=web"⟩, 2), (⟨"default", "tier=db"⟩, 1)]) =
        generateLabel
          (sampleStoreLabels [(⟨"default", "tier=db"⟩, 1), (⟨"default", "app=web"⟩, 2)]) ∧
      generateLabel
          (sampleStoreLabels [(⟨"default", "tier=db"⟩, 1), (⟨"default", "app=web"⟩, 2)]) =
        ("minikube default app=web 2\nminikube default tier=db 1", none) :=
  ⟨(generateLabel_order_independent
      (sampleStoreLabels [(⟨"default", "tier=db"⟩, 1), (⟨"default", "app=web"⟩, 2)])
      (sampleStoreLabels [(⟨"default", "app=web"⟩, 2), (⟨"default", "tier=db"⟩, 1)])
      (List.Perm.swap _ _ _) rfl).2.2.2.2,
    by decide⟩

/-! ## C30 -/

/-- C30: for every payload and response headers whose `Last-Modified` value does
not parse (as for a missing header, whose value is the empty string),
`writeResourceToCache` returns an error and leaves the `lastModified` file, and
so the map read from it, as it was; when the directory and the cache file can be
written, the error is that of the header and the cache file of the resource
type holds the payload all the same, so that `checkLocalCache`, run while the
file is at most `minimumCache` old, returns what the payload decodes to after
`os.Stat` and `util.LoadGobFromFile` alone, without a call to the server. -/
theorem writeResourceToCache_not_atomic (env : FetcherEnv R) (w : CacheWriteEnv) (f : Fetcher)
    (fs : FileSystem) (headers : Header) (b r endpoint : String)
    (decode : String → GoMap String R → GoMap String R × Option String)
    (hparse : env.parseTime (Header.Get headers "Last-Modified") = none)
    (hr : r ≠ "lastModified") :
    (∃ fs1 err, writeResourceToCache env w f fs headers b r = some (fs1, some err) ∧
      GoMap.get? fs1 (getLastModifiedTimesPath f) = GoMap.get? fs (getLastModifiedTimesPath f) ∧
      loadLastModifiedTimes (env.onFiles fs1) f = loadLastModifiedTimes (env.onFiles fs) f) ∧
    (w.mkdirAll = none → w.writeCache = .ok →
      ∃ fs1, writeResourceToCache env w f fs headers b r =
          some (fs1, some "invalid lastModified timestamp") ∧
        GoMap.get? fs1 [f.fetcherCachePath, f.context, r] = some ⟨b, w.now⟩ ∧
        (timeSub env.now w.now ≤ f.minimumCache →
          checkLocalCache (env.decodingFiles fs1 decode) f endpoint r =
            { resources := some (decode b []).1, err := (decode b []).2
              calls := [.stat [f.fetcherCachePath, f.context, r],
                .loadGob [f.fetcherCachePath, f.context, r]] })) := by
  have hne : getLastModifiedTimesPath f ≠ [f.fetcherCachePath, f.context, r] := by
    intro h
    simp only [getLastModifiedTimesPath, List.cons.injEq, true_and, and_true] at h
    exact hr h.symm
  constructor
  · have hfile : ∃ fs1 err, writeResourceToCache env w f fs headers b r = some (fs1, some err) ∧
        GoMap.get? fs1 (getLastModifiedTimesPath f) =
          GoMap.get? fs (getLastModifiedTimesPath f) := by
      unfold writeResourceToCache
      cases hmk : w.mkdirAll with
      | some e => exact ⟨fs, _, rfl, rfl⟩
      | none =>
        cases hw : w.writeCache with
        | ok =>
          simp only [osWriteFile, getLastModifiedFromHeader, hparse]
          exact ⟨_, _, rfl, GoMap.get_set_of_ne _ _ hne⟩
        | openFailed e =>
          simp only [osWriteFile]
          exact ⟨_, _, rfl, rfl⟩
        | writeFailed e n =>
          simp only [osWriteFile]
          exact ⟨_, _, rfl, GoMap.get_set_of_ne _ _ hne⟩
    obtain ⟨fs1, err, h1, h2⟩ := hfile
    exact ⟨fs1, err, h1, h2, loadLastModifiedTimes_onFiles_congr env f fs fs1 h2⟩
  · intro hmk hw
    refine ⟨GoMap.set fs [f.fetcherCachePath, f.context, r] ⟨b, w.now⟩, ?_,
      GoMap.get_set_self _ _ _, ?_⟩
    · simp [writeResourceToCache, hmk, hw, osWriteFile, getLastModifiedFromHeader, hparse]
    · intro hfresh
      simp [checkLocalCache, FetcherEnv.decodingFiles, FetcherEnv.onFiles, GoMap.get_set_self,
        hfresh]

/-- Concrete run for C30: a response without `Last-Modified` header for
`replicasets`, with an older cache file and a `lastModified` file in place: the
call returns the error of the header, the cache file holds the new payload, the
`lastModified` file is as before, and `checkLocalCache` returns the record the
new payload decodes to. -/
theorem writeResourceToCache_not_atomic_witness :
    writeResourceToCache (sampleEnv 0) sampleWriteEnv sampleFetcher
        [(["/tmp/fetcher", "minikube", "replicasets"], ⟨"old gob", 0⟩),
          (["/tmp/fetcher", "minikube", "lastModified"], ⟨"stored times", 0⟩)]
        [] "gob of default/a" "replicasets" =
      some ([(["/tmp/fetcher", "minikube", "replicasets"], ⟨"gob of default/a", sampleNow⟩),
          (["/tmp/fetcher", "minikube", "lastModified"], ⟨"stored times", 0⟩)],
        some "invalid lastModified timestamp") ∧
    ∃ fs1, writeResourceToCache (sampleEnv 0) sampleWriteEnv sampleFetcher
        [(["/tmp/fetcher", "minikube", "replicasets"], ⟨"old gob", 0⟩),
          (["/tmp/fetcher", "minikube", "lastModified"], ⟨"stored times", 0⟩)]
        [] "gob of default/a" "replicasets" = some (fs1, some "invalid lastModified timestamp") ∧
      GoMap.get? fs1 ["/tmp/fetcher", "minikube", "replicasets"] =
        some ⟨"gob of default/a", sampleNow⟩ ∧
      checkLocalCache ((sampleEnv 0).decodingFiles fs1 sampleDecode) sampleFetcher
          "http://localhost:8080" "replicasets" =
        { resources := some [("default_a", recA)], err := none
          calls := [.stat ["/tmp/fetcher", "minikube", "replicasets"],
            .loadGob ["/tmp/fetcher", "minikube", "replicasets"]] } := by
  obtain ⟨fs1, h1, h2, h3⟩ :=
    (writeResourceToCache_not_atomic (sampleEnv 0) sampleWriteEnv sampleFetcher
      [(["/tmp/fetcher", "minikube", "replicasets"], ⟨"old gob", 0⟩),
        (["/tmp/fetcher", "minikube", "lastModified"], ⟨"stored times", 0⟩)]
      [] "gob of default/a" "replicasets" "http://localhost:8080" sampleDecode rfl
      (by decide)).2 rfl rfl
  exact ⟨by decide, fs1, h1, h2, h3 (by decide)⟩

end KubectlFzf
